import Mathlib

/-!
# EventBooker: booking capacity and lifecycle

A shallow embedding of the booking store (`internal/repository/booking.go`),
the catalog it relies on (`internal/repository/event.go`,
`internal/repository/user.go`), the lifecycle engine
(`internal/service/booking.go`), the event service
(`internal/service/event.go`), the sweeper (`internal/scheduler/scheduler.go`)
and the parts of the HTTP handler that build an event and translate errors
(`internal/handler/handler.go`).

The SQL statements are read as functions on an explicit store: three tables,
each a list of rows in insertion order.  Every repository method runs in one
transaction, so a method is one function from the store before to the store
after; a method that returns an error before `Commit` leaves the store as it
was.  Clock readings (`now()` of the database, `time.Now()` / `time.Since` of
the process) and the identifier drawn by `uuid.New()` are arguments.  Instants
and intervals are unbounded integers; the products that make a
`time.Duration`, `time.Duration(ttlSeconds) * time.Second` in the
repositories and `time.Duration(req.BookingTTL) * time.Minute` in the handler,
are the `int64` products (`durationOfSeconds`, `durationOfMinutes`), exact
for every TTL within 9223372036 seconds (some 292 years) either way and
wrapping beyond.  The services are
functions of the repository methods they call, so that they can be run on the
store and on fixed answers alike.
-/

namespace EventBooker

/-! ## Data model -/

/-- Instants and intervals are integers counting microseconds, the resolution
of the timestamp and interval columns. -/
abbrev Time := Int

/-- One second (`time.Second`), in microseconds. -/
def second : Int := 1000000

/-- One minute (`time.Minute`), in microseconds. -/
def minute : Int := 60 * second

/-- The type `domain.BookingStatus`. -/
inductive BookingStatus where
  | Pending
  | Confirmed
  | Cancelled
deriving DecidableEq, Repr

/-- The list `domain.ActiveStatuses`. -/
def ActiveStatuses : List BookingStatus :=
  [BookingStatus.Pending, BookingStatus.Confirmed]

/-- The struct `domain.Booking`, also the shape of a row of `bookings`. -/
structure Booking where
  ID : String
  EventID : String
  UserID : String
  Status : BookingStatus
  CreatedAt : Time
  UpdatedAt : Time
deriving DecidableEq, Repr

/-- The struct `domain.Event`.  `BookingTTL` is a `time.Duration`. -/
structure Event where
  ID : String
  Title : String
  Description : String
  EventDate : Time
  TotalSpots : Int
  RequiresPayment : Bool
  BookingTTL : Int
  CreatedAt : Time
  UpdatedAt : Time
deriving DecidableEq, Repr

/-- A row of the `events` table.  `booking_ttl` is the interval column. -/
structure EventRow where
  id : String
  title : String
  description : String
  event_date : Time
  total_spots : Int
  requires_payment : Bool
  booking_ttl : Int
  created_at : Time
  updated_at : Time
deriving DecidableEq, Repr

/-- The struct `domain.User`, also the shape of a row of `users`. -/
structure User where
  ID : String
  Username : String
  TelegramChatID : Option Int
  CreatedAt : Time
deriving DecidableEq, Repr

/-- The persistent state: the three tables. -/
structure Store where
  events : List EventRow
  users : List User
  bookings : List Booking
deriving DecidableEq, Repr

/-- The sentinel errors of `domain/errors.go`, the two errors of `database/sql`
the repositories meet (`sql.ErrNoRows` of a scan that finds no row,
`driver.ErrBadConn` of a store that cannot be reached), and
`fmt.Errorf("...: %w", err)`. -/
inductive Error where
  | ErrEventNotFound
  | ErrUserNotFound
  | ErrBookingNotFound
  | ErrNoAvailableSpots
  | ErrAlreadyBooked
  | ErrBookingNotPending
  | ErrBookingExpired
  | ErrUsernameTaken
  | ErrValidation
  | ErrNoRows
  | ErrBadConn
  | wrap (msg : String) (inner : Error)
deriving DecidableEq, Repr

/-- The test `errors.Is(err, target)` for a sentinel `target`: `err` is the
target or wraps, at some depth, the target. -/
def Error.Is : Error → Error → Bool
  | Error.wrap m inner, target =>
      (Error.wrap m inner == target) || Error.Is inner target
  | err, target => err == target

/-! ## SQL helpers -/

/-- The expression `EXTRACT(EPOCH FROM iv)::bigint`: the interval in seconds,
rounded to the nearest integer (halves away from zero). -/
def epochSeconds (iv : Int) : Int :=
  if 0 ≤ iv then (iv + 500000) / 1000000 else -((-iv + 500000) / 1000000)

/-- The expression `make_interval(secs => n)` for an integer `n`. -/
def make_interval (secs : Int) : Int := secs * second

/-- The value an `int64` holds after an arithmetic operation whose exact
result is `n`: `n` reduced modulo 2^64 into the range from -2^63 to
2^63 - 1. -/
def wrapInt64 (n : Int) : Int :=
  (n + 9223372036854775808) % 18446744073709551616 - 9223372036854775808

/-- The expression `time.Duration(ttlSeconds) * time.Second`
(`booking.go:181`, `event.go:69`): an `int64` count of nanoseconds, given
here in microseconds, rounded down.  Instants being whole microseconds, an
elapsed time exceeds the count of nanoseconds exactly when it exceeds this
value. -/
def durationOfSeconds (ttlSeconds : Int) : Int :=
  wrapInt64 (ttlSeconds * 1000000000) / 1000

/-- The expression `time.Duration(req.BookingTTL) * time.Minute`
(`handler.go:68`): an `int64` count of nanoseconds, given here in
microseconds, rounded down. -/
def durationOfMinutes (ttlMinutes : Int) : Int :=
  wrapInt64 (ttlMinutes * 60000000000) / 1000

/-- The condition `status = ANY(ActiveStatuses)`. -/
def isActive (st : BookingStatus) : Bool := ActiveStatuses.contains st

/-- Rows of `events` are looked up by `id`; `QueryRow` scans the first. -/
def findEvent (s : Store) (id : String) : Option EventRow :=
  s.events.find? (fun e => e.id == id)

/-- Rows of `users` are looked up by `id`; `QueryRow` scans the first. -/
def findUser (s : Store) (id : String) : Option User :=
  s.users.find? (fun u => u.ID == id)

/-- The query `SELECT COUNT(*) FROM bookings WHERE event_id = $1 AND status = ANY($2)`. -/
def countActive (s : Store) (eventID : String) : Nat :=
  s.bookings.countP (fun b => b.EventID == eventID && isActive b.Status)

/-- The rows selected by `WHERE event_id = $1 AND user_id = $2 AND status = ANY($3)`. -/
def activeOfPair (s : Store) (eventID userID : String) : List Booking :=
  s.bookings.filter
    (fun b => b.EventID == eventID && b.UserID == userID && isActive b.Status)

/-- Modelled from the spec: the schema of `bookings` is not among the sources.
The spec gives the booking identifier as globally unique and puts "a
uniqueness constraint over `(event_id, user_id)` restricted to active
statuses" on the table.  An `INSERT` of `b` raises SQLSTATE 23505 exactly when
a row with the same `id` exists, or `b` is active and an active row of the
same event and user exists. -/
def uniqueViolation (s : Store) (b : Booking) : Bool :=
  s.bookings.any (fun x => x.ID == b.ID) ||
    (isActive b.Status &&
      s.bookings.any
        (fun x => x.EventID == b.EventID && x.UserID == b.UserID && isActive x.Status))

/-- The first row under `ORDER BY created_at DESC LIMIT 1`: a row with the
greatest `created_at`, the earliest inserted among equals. -/
def latest : List Booking → Option Booking
  | [] => none
  | b :: rest =>
      match latest rest with
      | none => some b
      | some x => if x.CreatedAt > b.CreatedAt then some x else some b

/-! ## The booking store: `BookingRepository` -/

/-- The method `BookingRepository.Create`: lock the event row and read
`total_spots`, count the active bookings of the event, refuse when the count
has reached `total_spots`, otherwise insert.  The result is the returned
error (`none` for `nil`) and the store after the call. -/
def BookingRepository.Create (s : Store) (b : Booking) : Option Error × Store :=
  match findEvent s b.EventID with
  | none => (some Error.ErrEventNotFound, s)
  | some e =>
      let totalSpots : Int := e.total_spots
      let activeBookings : Int := (countActive s b.EventID : Int)
      if activeBookings ≥ totalSpots then
        (some Error.ErrNoAvailableSpots, s)
      else if uniqueViolation s b then
        (some Error.ErrAlreadyBooked, s)
      else
        (none, { s with bookings := s.bookings ++ [b] })

/-- The method `BookingRepository.GetByEventAndUser`. -/
def BookingRepository.GetByEventAndUser (s : Store) (eventID userID : String) :
    Except Error Booking :=
  match latest (activeOfPair s eventID userID) with
  | none => Except.error Error.ErrBookingNotFound
  | some b => Except.ok b

/-- The `WHERE` clause of the conditional update in `Confirm`:
`event_id = $1 AND user_id = $2 AND status = 'pending'
 AND created_at + make_interval(secs => $5) >= now()`. -/
def confirmMatches (eventID userID : String) (ttlSeconds : Int) (now : Time)
    (b : Booking) : Bool :=
  b.EventID == eventID && b.UserID == userID && b.Status == BookingStatus.Pending
    && decide (b.CreatedAt + make_interval ttlSeconds ≥ now)

/-- The `SET` clause of the conditional update in `Confirm`. -/
def confirmRow (now : Time) (b : Booking) : Booking :=
  { b with Status := BookingStatus.Confirmed, UpdatedAt := now }

/-- The method `BookingRepository.Confirm`.  `now` is the database clock
`now()` of the transaction, `nowApp` the process clock read by `time.Since`
in the branch that names the cause of an update of zero rows.  The interval
of the update is computed by the database from `ttlSeconds`
(`make_interval`); the `ttl` of that branch is the `int64` product
`time.Duration(ttlSeconds) * time.Second`. -/
def BookingRepository.Confirm (s : Store) (eventID userID : String)
    (now nowApp : Time) : Option Error × Store :=
  match findEvent s eventID with
  | none => (some Error.ErrEventNotFound, s)
  | some e =>
      let ttlSeconds : Int := epochSeconds e.booking_ttl
      let rows : Nat := s.bookings.countP (confirmMatches eventID userID ttlSeconds now)
      if rows = 0 then
        match latest (activeOfPair s eventID userID) with
        | none => (some Error.ErrBookingNotFound, s)
        | some found =>
            if found.Status ≠ BookingStatus.Pending then
              (some Error.ErrBookingNotPending, s)
            else
              let ttl : Int := durationOfSeconds ttlSeconds
              if nowApp - found.CreatedAt > ttl then
                (some Error.ErrBookingExpired, s)
              else
                (some Error.ErrBookingNotFound, s)
      else
        (none,
          { s with
            bookings := s.bookings.map (fun b =>
              if confirmMatches eventID userID ttlSeconds now b then confirmRow now b
              else b) })

/-- The `WHERE` clause of the update in `CancelExpired`, with the join on
`events`: `b.event_id = e.id AND b.status = 'pending'
 AND b.created_at + e.booking_ttl < NOW()` for some row `e`. -/
def sweepMatches (s : Store) (now : Time) (b : Booking) : Bool :=
  b.Status == BookingStatus.Pending &&
    s.events.any (fun e => b.EventID == e.id && decide (b.CreatedAt + e.booking_ttl < now))

/-- The `SET` clause of the update in `CancelExpired`. -/
def cancelRow (now : Time) (b : Booking) : Booking :=
  { b with Status := BookingStatus.Cancelled, UpdatedAt := now }

/-- The method `BookingRepository.CancelExpired`: the rows of the `RETURNING`
clause, and the store after the update. -/
def BookingRepository.CancelExpired (s : Store) (now : Time) : List Booking × Store :=
  ((s.bookings.filter (sweepMatches s now)).map (cancelRow now),
    { s with
      bookings := s.bookings.map (fun b =>
        if sweepMatches s now b then cancelRow now b else b) })

/-- The method `BookingRepository.ListByEvent`. -/
def BookingRepository.ListByEvent (s : Store) (eventID : String) : List Booking :=
  s.bookings.filter (fun b => b.EventID == eventID && isActive b.Status)

/-! ## Catalog lookups -/

/-- The scan of an `events` row into a `domain.Event`: the TTL is read as
`EXTRACT(EPOCH FROM booking_ttl)::bigint` seconds and turned into a
`time.Duration` by the `int64` product
`time.Duration(ttlSeconds) * time.Second`. -/
def scanEvent (e : EventRow) : Event :=
  { ID := e.id, Title := e.title, Description := e.description,
    EventDate := e.event_date, TotalSpots := e.total_spots,
    RequiresPayment := e.requires_payment,
    BookingTTL := durationOfSeconds (epochSeconds e.booking_ttl),
    CreatedAt := e.created_at, UpdatedAt := e.updated_at }

/-- The method `EventRepository.GetByID`.  `QueryRowWithRetry` hands back the
`*sql.Row` together with the error of running the query, which is nil on a
store that answers; the test for `sql.ErrNoRows` that the method applies to
that error therefore does not fire.  That the query selected no row shows in
`row.Scan`, as `sql.ErrNoRows`, and the method returns it wrapped as
"scan event". -/
def EventRepository.GetByID (s : Store) (id : String) : Except Error Event :=
  match findEvent s id with
  | none => Except.error (Error.wrap "scan event" Error.ErrNoRows)
  | some e => Except.ok (scanEvent e)

/-- The method `UserRepository.GetByID`: here the test for `sql.ErrNoRows` is
applied to the error of `row.Scan`. -/
def UserRepository.GetByID (s : Store) (id : String) : Except Error User :=
  match findUser s id with
  | none => Except.error Error.ErrUserNotFound
  | some u => Except.ok u

/-! ## The lifecycle engine: `BookingService` -/

/-- The interfaces of `service/ports` that `BookingService` is built on, as
functions on a collaborator state `σ`. -/
structure Ports (σ : Type) where
  eventGetByID : String → σ → Except Error Event × σ
  userGetByID : String → σ → Except Error User × σ
  bookingCreate : Booking → σ → Option Error × σ
  bookingGetByEventAndUser : String → String → σ → Except Error Booking × σ
  bookingConfirm : String → String → σ → Option Error × σ
  bookingCancelExpired : σ → Except Error (List Booking) × σ

/-- A call of `ports.BookingNotifier` handed to a goroutine. -/
inductive Notification where
  | BookingCreated (user : User) (event : Event)
  | BookingConfirmed (user : User) (event : Event)
  | BookingCancelled (user : User) (event : Event)
deriving DecidableEq, Repr

/-- What a service method leaves behind: its return value, the collaborator
state, and the notifications it dispatched. -/
structure Outcome (α σ : Type) where
  result : Except Error α
  state : σ
  dispatched : List Notification

/-- The method `BookingService.Book`.  `uuid` is the value of
`uuid.New().String()`, `nowC` and `nowU` the two readings of `time.Now()`. -/
def BookingService.Book {σ : Type} (p : Ports σ) (eventID userID uuid : String)
    (nowC nowU : Time) (s : σ) : Outcome Booking σ :=
  match p.eventGetByID eventID s with
  | (Except.error err, s1) => ⟨Except.error (Error.wrap "check event" err), s1, []⟩
  | (Except.ok event, s1) =>
      match p.userGetByID userID s1 with
      | (Except.error err, s2) => ⟨Except.error (Error.wrap "check user" err), s2, []⟩
      | (Except.ok user, s2) =>
          let status :=
            if !event.RequiresPayment then BookingStatus.Confirmed
            else BookingStatus.Pending
          let booking : Booking :=
            { ID := uuid, EventID := eventID, UserID := userID, Status := status,
              CreatedAt := nowC, UpdatedAt := nowU }
          match p.bookingCreate booking s2 with
          | (some err, s3) => ⟨Except.error (Error.wrap "create booking" err), s3, []⟩
          | (none, s3) =>
              if event.RequiresPayment then
                ⟨Except.ok booking, s3, [Notification.BookingCreated user event]⟩
              else
                ⟨Except.ok booking, s3, [Notification.BookingConfirmed user event]⟩

/-- The method `BookingService.Confirm`.  `now` is the process clock read by
`time.Since(booking.CreatedAt)`. -/
def BookingService.Confirm {σ : Type} (p : Ports σ) (eventID userID : String)
    (now : Time) (s : σ) : Outcome Unit σ :=
  match p.eventGetByID eventID s with
  | (Except.error err, s1) => ⟨Except.error (Error.wrap "get event" err), s1, []⟩
  | (Except.ok event, s1) =>
      if !event.RequiresPayment then
        ⟨Except.error
            (Error.wrap "this event does not require payment" Error.ErrValidation),
          s1, []⟩
      else
        match p.bookingGetByEventAndUser eventID userID s1 with
        | (Except.error err, s2) => ⟨Except.error (Error.wrap "get booking" err), s2, []⟩
        | (Except.ok booking, s2) =>
            if booking.Status ≠ BookingStatus.Pending then
              ⟨Except.error Error.ErrBookingNotPending, s2, []⟩
            else if now - booking.CreatedAt > event.BookingTTL then
              ⟨Except.error Error.ErrBookingExpired, s2, []⟩
            else
              match p.bookingConfirm eventID userID s2 with
              | (some err, s3) =>
                  ⟨Except.error (Error.wrap "confirm booking" err), s3, []⟩
              | (none, s3) =>
                  match p.userGetByID userID s3 with
                  | (Except.error _, s4) => ⟨Except.ok (), s4, []⟩
                  | (Except.ok user, s4) =>
                      ⟨Except.ok (), s4, [Notification.BookingConfirmed user event]⟩

/-- The loop of `BookingService.notifyCancelled`, run in its own goroutine:
the notifications it sends for the swept bookings, in order. -/
def BookingService.notifyCancelled {σ : Type} (p : Ports σ) :
    List Booking → σ → List Notification × σ
  | [], s => ([], s)
  | b :: rest, s =>
      match p.userGetByID b.UserID s with
      | (Except.error _, s1) => BookingService.notifyCancelled p rest s1
      | (Except.ok user, s1) =>
          match p.eventGetByID b.EventID s1 with
          | (Except.error _, s2) => BookingService.notifyCancelled p rest s2
          | (Except.ok event, s2) =>
              let r := BookingService.notifyCancelled p rest s2
              (Notification.BookingCancelled user event :: r.1, r.2)

/-- The method `BookingService.CancelExpired`; the goroutine it starts when
the sweep returned bookings is run to its end. -/
def BookingService.CancelExpired {σ : Type} (p : Ports σ) (s : σ) :
    Outcome (List Booking) σ :=
  match p.bookingCancelExpired s with
  | (Except.error err, s1) => ⟨Except.error (Error.wrap "cancel expired" err), s1, []⟩
  | (Except.ok cancelled, s1) =>
      if cancelled.length > 0 then
        let r := BookingService.notifyCancelled p cancelled s1
        ⟨Except.ok cancelled, r.2, r.1⟩
      else
        ⟨Except.ok cancelled, s1, []⟩

/-- The ports wired to the repositories over one store, as `app.go` wires
them.  `now` is the database clock of the call, `nowApp` the process clock
inside `BookingRepository.Confirm`. -/
def storePorts (now nowApp : Time) : Ports Store where
  eventGetByID := fun id s => (EventRepository.GetByID s id, s)
  userGetByID := fun id s => (UserRepository.GetByID s id, s)
  bookingCreate := fun b s => BookingRepository.Create s b
  bookingGetByEventAndUser := fun e u s => (BookingRepository.GetByEventAndUser s e u, s)
  bookingConfirm := fun e u s => BookingRepository.Confirm s e u now nowApp
  bookingCancelExpired := fun s =>
    (Except.ok (BookingRepository.CancelExpired s now).1,
      (BookingRepository.CancelExpired s now).2)

/-! ## Sequences of operations -/

/-- One request to the lifecycle engine, with the clock readings and the
identifier it draws. -/
inductive Op where
  | Book (eventID userID uuid : String) (nowC nowU : Time)
  | Confirm (eventID userID : String) (nowSvc now nowApp : Time)
  | Sweep (now : Time)
deriving DecidableEq, Repr

/-- The store after one request. -/
def step (s : Store) : Op → Store
  | Op.Book eventID userID uuid nowC nowU =>
      (BookingService.Book (storePorts nowC nowC) eventID userID uuid nowC nowU s).state
  | Op.Confirm eventID userID nowSvc now nowApp =>
      (BookingService.Confirm (storePorts now nowApp) eventID userID nowSvc s).state
  | Op.Sweep now =>
      (BookingService.CancelExpired (storePorts now now) s).state

/-- The store after a sequence of requests, served one after the other. -/
def run (s : Store) (ops : List Op) : Store := ops.foldl step s

/-! ## Invariants of the store -/

/-- The capacity invariant: every event, found under its id, has at most
`total_spots` active bookings. -/
def CapacityInvariant (s : Store) : Prop :=
  ∀ id e, findEvent s id = some e → (countActive s id : Int) ≤ e.total_spots

/-! ## Sample data -/

/-- A paid event with two seats and a TTL of ten minutes. -/
def sampleEvent : EventRow :=
  { id := "e1", title := "Concert", description := "", event_date := 0,
    total_spots := 2, requires_payment := true, booking_ttl := 10 * minute,
    created_at := 0, updated_at := 0 }

/-- Three registered users. -/
def sampleUsers : List User :=
  [{ ID := "uA", Username := "alice", TelegramChatID := none, CreatedAt := 0 },
   { ID := "uB", Username := "bob", TelegramChatID := none, CreatedAt := 0 },
   { ID := "uC", Username := "carol", TelegramChatID := none, CreatedAt := 0 }]

/-- A pending booking of the first user, created at second 5. -/
def sampleBooking : Booking :=
  { ID := "b1", EventID := "e1", UserID := "uA", Status := BookingStatus.Pending,
    CreatedAt := 5 * second, UpdatedAt := 5 * second }

/-- The sample event with one pending booking. -/
def sampleStore : Store :=
  { events := [sampleEvent], users := sampleUsers, bookings := [sampleBooking] }

/-- A second booking request of the first user for the sample event. -/
def sampleRepeat : Booking :=
  { ID := "b2", EventID := "e1", UserID := "uA", Status := BookingStatus.Pending,
    CreatedAt := 9 * second, UpdatedAt := 9 * second }

/-- One `Book` request for a fixed event: the user, the identifier drawn for
the booking, and the two clock readings. -/
structure BookCall where
  userID : String
  uuid : String
  nowC : Time
  nowU : Time
deriving DecidableEq, Repr

/-- A sequence of `Book` requests for one event, served one after the other
(the event row lock admits one `Create` at a time): the results in order, and
the store at the end. -/
def bookAll (eventID : String) : Store → List BookCall → List (Except Error Booking) × Store
  | s, [] => ([], s)
  | s, c :: cs =>
      let o := BookingService.Book (storePorts c.nowC c.nowC) eventID c.userID c.uuid
        c.nowC c.nowU s
      let r := bookAll eventID o.state cs
      (o.result :: r.1, r.2)

/-- The record `Book` builds for a request on the event row `e`. -/
def bookedRecord (e : EventRow) (c : BookCall) : Booking :=
  { ID := c.uuid, EventID := e.id, UserID := c.userID,
    Status := if e.requires_payment then BookingStatus.Pending else BookingStatus.Confirmed,
    CreatedAt := c.nowC, UpdatedAt := c.nowU }

/-- The sample event with no booking yet. -/
def sampleEmpty : Store :=
  { events := [sampleEvent], users := sampleUsers, bookings := [] }

/-- Three requests for the sample event, one per user. -/
def sampleCalls : List BookCall :=
  [{ userID := "uA", uuid := "b1", nowC := 1, nowU := 1 },
   { userID := "uB", uuid := "b2", nowC := 2, nowU := 2 },
   { userID := "uC", uuid := "b3", nowC := 3, nowU := 4 }]

/-- At most one active booking per (event, user) pair. -/
def UniqueActive (s : Store) : Prop :=
  ∀ eventID userID, (activeOfPair s eventID userID).length ≤ 1

/-- Booking identifiers are pairwise distinct. -/
def IdsUnique (s : Store) : Prop :=
  (s.bookings.map (fun b => b.ID)).Nodup

/-- A row-wise rewrite of `bookings` that touches Pending rows only, and of
those only `status` and `updated_at`. -/
def PendingOnly (f : Booking → Booking) : Prop :=
  ∀ b, f b = b ∨
    (b.Status = BookingStatus.Pending ∧
      ∃ st now, f b = { b with Status := st, UpdatedAt := now })

/-- An event with a single seat. -/
def sampleSmallEvent : EventRow :=
  { id := "e2", title := "Workshop", description := "", event_date := 0,
    total_spots := 1, requires_payment := true, booking_ttl := 10 * minute,
    created_at := 0, updated_at := 0 }

/-- The single-seat event, its seat held by a pending booking of the first
user. -/
def sampleFull : Store :=
  { events := [sampleSmallEvent], users := sampleUsers,
    bookings :=
      [{ ID := "b7", EventID := "e2", UserID := "uA", Status := BookingStatus.Pending,
         CreatedAt := 5 * second, UpdatedAt := 5 * second }] }

/-- The sample event with a confirmed booking of the first user, a cancelled
booking of the second and a pending booking of the third. -/
def sampleMixed : Store :=
  { events := [sampleEvent], users := sampleUsers,
    bookings :=
      [{ ID := "b1", EventID := "e1", UserID := "uA", Status := BookingStatus.Confirmed,
         CreatedAt := 1 * second, UpdatedAt := 3 * second },
       { ID := "b2", EventID := "e1", UserID := "uB", Status := BookingStatus.Cancelled,
         CreatedAt := 2 * second, UpdatedAt := 700 * second },
       { ID := "b3", EventID := "e1", UserID := "uC", Status := BookingStatus.Pending,
         CreatedAt := 5 * second, UpdatedAt := 5 * second }] }

/-- The condition under which the sweep at `now` is due for a booking: it is
Pending and `created_at + booking_ttl < now`, with the TTL of its own event. -/
def SweepDue (s : Store) (now : Time) (b : Booking) : Prop :=
  b.Status = BookingStatus.Pending ∧
    ∃ e ∈ s.events, e.id = b.EventID ∧ b.CreatedAt + e.booking_ttl < now

/-- The single-seat sample event with no booking yet. -/
def sampleSmallEmpty : Store :=
  { events := [sampleSmallEvent], users := sampleUsers, bookings := [] }

/-! ## Calls through the ports -/

/-- A call of a repository method through `service/ports`. -/
inductive Call where
  | EventGetByID (id : String)
  | UserGetByID (id : String)
  | BookingCreate (b : Booking)
  | BookingGetByEventAndUser (eventID userID : String)
  | BookingConfirm (eventID userID : String)
  | BookingCancelExpired
deriving DecidableEq, Repr

/-- The ports `p` with every call written to a log, in order, as the mocks of
the tests record the calls they receive. -/
def traced {σ : Type} (p : Ports σ) : Ports (σ × List Call) where
  eventGetByID := fun id st =>
    ((p.eventGetByID id st.1).1,
      ((p.eventGetByID id st.1).2, st.2 ++ [Call.EventGetByID id]))
  userGetByID := fun id st =>
    ((p.userGetByID id st.1).1,
      ((p.userGetByID id st.1).2, st.2 ++ [Call.UserGetByID id]))
  bookingCreate := fun b st =>
    ((p.bookingCreate b st.1).1,
      ((p.bookingCreate b st.1).2, st.2 ++ [Call.BookingCreate b]))
  bookingGetByEventAndUser := fun e u st =>
    ((p.bookingGetByEventAndUser e u st.1).1,
      ((p.bookingGetByEventAndUser e u st.1).2,
        st.2 ++ [Call.BookingGetByEventAndUser e u]))
  bookingConfirm := fun e u st =>
    ((p.bookingConfirm e u st.1).1,
      ((p.bookingConfirm e u st.1).2, st.2 ++ [Call.BookingConfirm e u]))
  bookingCancelExpired := fun st =>
    ((p.bookingCancelExpired st.1).1,
      ((p.bookingCancelExpired st.1).2, st.2 ++ [Call.BookingCancelExpired]))

/-- Ports that answer as mocks do, whatever the state: the event lookup with
`event`, the user lookup with `user`, `Create` and `Confirm` with fixed
errors, `GetByEventAndUser` with `found`. -/
def mockPorts (event : Except Error Event) (user : Except Error User)
    (create : Option Error) (found : Except Error Booking) (confirm : Option Error) :
    Ports Unit where
  eventGetByID := fun _ st => (event, st)
  userGetByID := fun _ st => (user, st)
  bookingCreate := fun _ st => (create, st)
  bookingGetByEventAndUser := fun _ _ st => (found, st)
  bookingConfirm := fun _ _ st => (confirm, st)
  bookingCancelExpired := fun st => (Except.ok [], st)

/-- The event of `TestBookingService_Confirm_Success`. -/
def testEvent : Event :=
  { ID := "e1", Title := "", Description := "", EventDate := 0, TotalSpots := 0,
    RequiresPayment := true, BookingTTL := 20 * minute, CreatedAt := 0, UpdatedAt := 0 }

/-- The user of `TestBookingService_Confirm_Success`. -/
def testUser : User :=
  { ID := "u1", Username := "alice", TelegramChatID := none, CreatedAt := 0 }

/-- An event that requires no payment. -/
def sampleFreeEvent : EventRow :=
  { id := "e3", title := "Meetup", description := "", event_date := 0,
    total_spots := 5, requires_payment := false, booking_ttl := 20 * minute,
    created_at := 0, updated_at := 0 }

/-- The free event with a confirmed booking of the first user. -/
def sampleFree : Store :=
  { events := [sampleFreeEvent], users := sampleUsers,
    bookings :=
      [{ ID := "b5", EventID := "e3", UserID := "uA", Status := BookingStatus.Confirmed,
         CreatedAt := 1 * second, UpdatedAt := 1 * second }] }

/-! ## Event details -/

/-- The struct `domain.EventDetails`. -/
structure EventDetails where
  Event : EventBooker.Event
  AvailableSpots : Int
  Bookings : List Booking
deriving DecidableEq, Repr

/-- The method `EventRepository.GetDetails`: the event row left-joined with
its active bookings and grouped by event, `available_spots` being
`e.total_spots - COUNT(b.id)`.  No row gives `sql.ErrNoRows` in `row.Scan`,
which this method turns into `ErrEventNotFound`.  `Bookings` is left empty. -/
def EventRepository.GetDetails (s : Store) (eventID : String) : Except Error EventDetails :=
  match findEvent s eventID with
  | none => Except.error Error.ErrEventNotFound
  | some e =>
      Except.ok
        { Event := scanEvent e,
          AvailableSpots :=
            e.total_spots -
              (s.bookings.countP (fun b => b.EventID == e.id && isActive b.Status) : Int),
          Bookings := [] }

/-- The method `EventService.GetDetails`, on the two repository methods it
calls: `GetDetails` of the event repository, then `ListByEvent` of the
booking repository, whose rows it copies into `Bookings`. -/
def EventService.GetDetails {σ : Type}
    (getDetails : String → σ → Except Error EventDetails × σ)
    (listByEvent : String → σ → Except Error (List Booking) × σ)
    (id : String) (s : σ) : Except Error EventDetails × σ :=
  match getDetails id s with
  | (Except.error err, s1) => (Except.error err, s1)
  | (Except.ok details, s1) =>
      match listByEvent id s1 with
      | (Except.error err, s2) => (Except.error (Error.wrap "list bookings" err), s2)
      | (Except.ok bookings, s2) => (Except.ok { details with Bookings := bookings }, s2)

/-- The method `EventService.GetDetails` wired to the repositories over one
store: both queries read the same snapshot. -/
def storeGetDetails (s : Store) (id : String) : Except Error EventDetails :=
  (EventService.GetDetails
    (fun i st => (EventRepository.GetDetails st i, st))
    (fun i st => (Except.ok (BookingRepository.ListByEvent st i), st)) id s).1

/-! ## A store that may be out of reach -/

/-- The struct `retry.Strategy`. -/
structure Strategy where
  Attempts : Nat
  Delay : Int
  Backoff : Int
deriving DecidableEq, Repr

/-- One millisecond (`time.Millisecond`), in microseconds. -/
def millisecond : Int := 1000

/-- The strategy `NewBookingRepo` stores in the repository. -/
def NewBookingRepo.strategy : Strategy :=
  { Attempts := 3, Delay := 500 * millisecond, Backoff := 2 }

/-- Modelled from the spec: the helpers `QueryWithRetry`, `QueryRowWithRetry`
and `ExecWithRetry` of the database handle are not among the sources.  By the
spec "any store unavailability failure is retried a bounded number of times
with increasing delay".  `down` tells, for the successive attempts to reach
the store, whether the attempt fails (past the end of the list the store
answers).  The result tells whether an attempt among the first `attempts`
reached the store, and how many attempts were made. -/
def withRetry : Nat → List Bool → Bool × Nat
  | 0, _ => (false, 0)
  | _ + 1, [] => (true, 1)
  | _ + 1, false :: _ => (true, 1)
  | k + 1, true :: rest => ((withRetry k rest).1, (withRetry k rest).2 + 1)

/-- The method `BookingRepository.Create` on a store that may be out of reach:
`BeginTx` is called on the handle itself, once, and its error is returned as
"begin tx".  With the result, the number of attempts made to reach the
store. -/
def BookingRepository.CreateOn (down : List Bool) (s : Store) (b : Booking) :
    (Option Error × Store) × Nat :=
  match down with
  | true :: _ => ((some (Error.wrap "begin tx" Error.ErrBadConn), s), 1)
  | _ => (BookingRepository.Create s b, 1)

/-- The method `BookingRepository.Confirm` on a store that may be out of
reach: `BeginTx` is called on the handle itself, once. -/
def BookingRepository.ConfirmOn (down : List Bool) (s : Store) (eventID userID : String)
    (now nowApp : Time) : (Option Error × Store) × Nat :=
  match down with
  | true :: _ => ((some (Error.wrap "begin tx" Error.ErrBadConn), s), 1)
  | _ => (BookingRepository.Confirm s eventID userID now nowApp, 1)

/-- The method `BookingRepository.CancelExpired` on a store that may be out of
reach: the update goes through `QueryWithRetry` with the strategy of the
repository, and an error that outlasts it is returned as "cancel expired". -/
def BookingRepository.CancelExpiredOn (down : List Bool) (s : Store) (now : Time) :
    (Except Error (List Booking) × Store) × Nat :=
  if (withRetry NewBookingRepo.strategy.Attempts down).1 then
    ((Except.ok (BookingRepository.CancelExpired s now).1,
        (BookingRepository.CancelExpired s now).2),
      (withRetry NewBookingRepo.strategy.Attempts down).2)
  else
    ((Except.error (Error.wrap "cancel expired" Error.ErrBadConn), s),
      (withRetry NewBookingRepo.strategy.Attempts down).2)

/-- The notification `notifyCancelled` sends for one swept booking when the
lookups are made in state `s`: none when the user or the event does not
resolve. -/
def cancelNotice {σ : Type} (p : Ports σ) (s : σ) (b : Booking) : Option Notification :=
  match (p.userGetByID b.UserID s).1, (p.eventGetByID b.EventID s).1 with
  | Except.ok user, Except.ok event => some (Notification.BookingCancelled user event)
  | _, _ => none

/-- A swept booking of a user that is not registered, one of the first user,
one of an event that does not exist, one of the second user. -/
def sampleSwept : List Booking :=
  [{ ID := "b1", EventID := "e1", UserID := "nobody", Status := BookingStatus.Cancelled,
     CreatedAt := 1, UpdatedAt := 9 },
   { ID := "b2", EventID := "e1", UserID := "uA", Status := BookingStatus.Cancelled,
     CreatedAt := 2, UpdatedAt := 9 },
   { ID := "b3", EventID := "e9", UserID := "uB", Status := BookingStatus.Cancelled,
     CreatedAt := 3, UpdatedAt := 9 },
   { ID := "b4", EventID := "e1", UserID := "uB", Status := BookingStatus.Cancelled,
     CreatedAt := 4, UpdatedAt := 9 }]

/-! ## The HTTP handler -/

/-- The body of a JSON response: `dto.ErrorResponse` with the text of an
error (`err.Error()`) or with a fixed text, or the DTO of an event. -/
inductive Body where
  | ErrorOf (err : Error)
  | ErrorText (msg : String)
  | EventOf (event : Event)
deriving DecidableEq, Repr

/-- What `c.JSON(status, body)` writes. -/
structure Response where
  status : Nat
  body : Body
deriving DecidableEq, Repr

/-- The constant `http.StatusCreated`. -/
def StatusCreated : Nat := 201

/-- The constant `http.StatusBadRequest`. -/
def StatusBadRequest : Nat := 400

/-- The constant `http.StatusNotFound`. -/
def StatusNotFound : Nat := 404

/-- The constant `http.StatusConflict`. -/
def StatusConflict : Nat := 409

/-- The constant `http.StatusInternalServerError`. -/
def StatusInternalServerError : Nat := 500

/-- The method `Handler.handleError`: the first case of the `switch` whose
`errors.Is` test holds decides the response. -/
def Handler.handleError (err : Error) : Response :=
  if Error.Is err Error.ErrEventNotFound || Error.Is err Error.ErrUserNotFound
      || Error.Is err Error.ErrBookingNotFound then
    { status := StatusNotFound, body := Body.ErrorOf err }
  else if Error.Is err Error.ErrNoAvailableSpots || Error.Is err Error.ErrAlreadyBooked
      || Error.Is err Error.ErrBookingNotPending || Error.Is err Error.ErrBookingExpired then
    { status := StatusConflict, body := Body.ErrorOf err }
  else if Error.Is err Error.ErrValidation || Error.Is err Error.ErrUsernameTaken then
    { status := StatusBadRequest, body := Body.ErrorOf err }
  else
    { status := StatusInternalServerError, body := Body.ErrorText "internal server error" }

/-- The error at the bottom of a chain of `%w` wrappings. -/
def Error.root : Error → Error
  | Error.wrap _ inner => Error.root inner
  | err => err

/-- Whether an error is one of the plain values, not a wrapping. -/
def Error.plain : Error → Bool
  | Error.wrap _ _ => false
  | _ => true

/-! ## Creating events -/

/-- The struct `domain.CreateEventInput`; `RequiresPayment` is a `*bool`. -/
structure CreateEventInput where
  Title : String
  Description : String
  EventDate : Time
  TotalSpots : Int
  BookingTTL : Int
  RequiresPayment : Option Bool
deriving DecidableEq, Repr

/-- The constant `defaultBookingTTL`. -/
def defaultBookingTTL : Int := 20 * minute

/-- The method `EventService.CreateEvent`, on the `Create` method of the event
repository.  `uuid` is the value of `uuid.New().String()`, `now` the reading
of `time.Now()` that `EventDate.Before` is given.  `CreatedAt` and
`UpdatedAt` of the returned event are left at their zero value. -/
def EventService.CreateEvent {σ : Type} (create : Event → σ → Option Error × σ)
    (input : CreateEventInput) (uuid : String) (now : Time) (s : σ) :
    Except Error Event × σ :=
  if input.Title = "" then
    (Except.error (Error.wrap "title is required" Error.ErrValidation), s)
  else if input.TotalSpots ≤ 0 then
    (Except.error (Error.wrap "total_spots must be positive" Error.ErrValidation), s)
  else if input.EventDate < now then
    (Except.error (Error.wrap "event_date must be in the future" Error.ErrValidation), s)
  else
    let requiresPayment : Bool :=
      match input.RequiresPayment with
      | some v => v
      | none => true
    let ttl : Int := if input.BookingTTL = 0 then defaultBookingTTL else input.BookingTTL
    let event : Event :=
      { ID := uuid, Title := input.Title, Description := input.Description,
        EventDate := input.EventDate, TotalSpots := input.TotalSpots,
        RequiresPayment := requiresPayment, BookingTTL := ttl,
        CreatedAt := 0, UpdatedAt := 0 }
    match create event s with
    | (some err, s1) => (Except.error (Error.wrap "create event" err), s1)
    | (none, s1) => (Except.ok event, s1)

/-- The method `EventRepository.Create`: the row is inserted with
`booking_ttl = make_interval(secs => e.BookingTTL.Seconds())`, the duration
itself in microseconds, and both timestamps set to the `time.Now()` of the
method.  No constraint of the table
is modelled; the identifier is the one drawn by `uuid.New()`. -/
def EventRepository.Create (s : Store) (e : Event) (now : Time) : Option Error × Store :=
  (none,
    { s with
      events := s.events ++
        [{ id := e.ID, title := e.Title, description := e.Description,
           event_date := e.EventDate, total_spots := e.TotalSpots,
           requires_payment := e.RequiresPayment, booking_ttl := e.BookingTTL,
           created_at := now, updated_at := now }] })

/-- The struct `dto.CreateEventRequest`; `BookingTTL` is the JSON field
`booking_ttl_minutes`. -/
structure CreateEventRequest where
  Title : String
  Description : String
  EventDate : String
  TotalSpots : Int
  BookingTTL : Int
  RequiresPayment : Option Bool
deriving DecidableEq, Repr

/-- The `binding` tags of `dto.CreateEventRequest`: `required` on `Title`,
`Description` and `EventDate`, `required,gt=0` on `TotalSpots`, none on
`BookingTTL` and `RequiresPayment`. -/
def CreateEventRequest.bound (req : CreateEventRequest) : Bool :=
  req.Title != "" && req.Description != "" && req.EventDate != ""
    && req.TotalSpots != 0 && decide (req.TotalSpots > 0)

/-- The method `Handler.CreateEvent`, on the `CreateEvent` method of the event
service.  `req` is the decoded JSON body, `eventDate` the result of
`time.Parse(time.RFC3339, req.EventDate)`, none when it fails. -/
def Handler.CreateEvent {σ : Type}
    (createEvent : CreateEventInput → σ → Except Error Event × σ)
    (req : CreateEventRequest) (eventDate : Option Time) (s : σ) : Response × σ :=
  if req.bound = false then
    ({ status := StatusBadRequest, body := Body.ErrorText "binding" }, s)
  else
    match eventDate with
    | none =>
        ({ status := StatusBadRequest,
           body := Body.ErrorText "invalid event_date format, expected RFC3339" }, s)
    | some date =>
        let input : CreateEventInput :=
          { Title := req.Title, Description := req.Description, EventDate := date,
            TotalSpots := req.TotalSpots, RequiresPayment := req.RequiresPayment,
            BookingTTL := durationOfMinutes req.BookingTTL }
        match createEvent input s with
        | (Except.error err, s1) => (Handler.handleError err, s1)
        | (Except.ok event, s1) => ({ status := StatusCreated, body := Body.EventOf event }, s1)

/-- The handler, the event service and the event repository wired over one
store, as `app.go` wires them. -/
def storeCreateEvent (uuid : String) (now : Time) (req : CreateEventRequest)
    (eventDate : Option Time) (s : Store) : Response × Store :=
  Handler.CreateEvent
    (fun input st =>
      EventService.CreateEvent (fun e st2 => EventRepository.Create st2 e now) input uuid now st)
    req eventDate s

/-- A request for an event with `booking_ttl_minutes = -5`. -/
def sampleNegativeRequest : CreateEventRequest :=
  { Title := "Concert", Description := "Live music", EventDate := "2030-01-01T00:00:00Z",
    TotalSpots := 10, BookingTTL := -5, RequiresPayment := none }

/-- A store with the sample users and no event. -/
def sampleNoEvents : Store :=
  { events := [], users := sampleUsers, bookings := [] }

/-- An input with every default left open. -/
def sampleInput : CreateEventInput :=
  { Title := "Workshop", Description := "", EventDate := 100 * second, TotalSpots := 10,
    BookingTTL := 0, RequiresPayment := none }

/-- The event `CreateEvent` builds from the sample input. -/
def sampleCreated : Event :=
  { ID := "e7", Title := "Workshop", Description := "", EventDate := 100 * second,
    TotalSpots := 10, RequiresPayment := true, BookingTTL := 20 * minute,
    CreatedAt := 0, UpdatedAt := 0 }

/-- The store after the request with `booking_ttl_minutes = -5` was served at
second 1, the identifier drawn being `e5`. -/
def sampleNegativeStore : Store :=
  (storeCreateEvent "e5" (1 * second) sampleNegativeRequest (some (1000 * second))
    sampleNoEvents).2

/-! ## The sweeper: `Scheduler` -/

/-- The case `select` takes in one round of the loop of `Scheduler.Start`:
`<-ctx.Done()` or `<-ticker.C`. -/
inductive Select where
  | Done
  | Tick
deriving DecidableEq, Repr

/-- A line the scheduler writes to its logger. -/
inductive LogLine where
  | Started
  | Stopped
  | Failed (err : Error)
  | Expired (b : Booking)
deriving DecidableEq, Repr

/-- The scheduler while `Start` runs: the state of the booking service it
calls, whether `Start` has returned, the number of calls of `CancelExpired`
made so far, and the lines logged. -/
structure Sched (σ : Type) where
  state : σ
  returned : Bool
  calls : Nat
  logged : List LogLine

/-- The method `Scheduler.tick`: one call of `CancelExpired`; an error is
logged and the method returns, otherwise one line per cancelled booking is
logged. -/
def Scheduler.tick {σ : Type} (cancelExpired : σ → Except Error (List Booking) × σ)
    (st : Sched σ) : Sched σ :=
  match cancelExpired st.state with
  | (Except.error err, s1) =>
      { state := s1, returned := st.returned, calls := st.calls + 1,
        logged := st.logged ++ [LogLine.Failed err] }
  | (Except.ok cancelled, s1) =>
      { state := s1, returned := st.returned, calls := st.calls + 1,
        logged := st.logged ++ cancelled.map LogLine.Expired }

/-- One round of the loop of `Scheduler.Start`: on `ctx.Done()` it logs and
returns, on a tick of the ticker it calls `tick`.  After `Start` has returned
nothing happens any more. -/
def Scheduler.round {σ : Type} (cancelExpired : σ → Except Error (List Booking) × σ)
    (st : Sched σ) (pick : Select) : Sched σ :=
  if st.returned then st
  else
    match pick with
    | Select.Done =>
        { state := st.state, returned := true, calls := st.calls,
          logged := st.logged ++ [LogLine.Stopped] }
    | Select.Tick => Scheduler.tick cancelExpired st

/-- The method `Scheduler.Start`, along the cases its `select` takes. -/
def Scheduler.Start {σ : Type} (cancelExpired : σ → Except Error (List Booking) × σ)
    (s : σ) (picks : List Select) : Sched σ :=
  picks.foldl (Scheduler.round cancelExpired)
    { state := s, returned := false, calls := 0, logged := [LogLine.Started] }

/-- Two events whose TTL is not a whole number of seconds, 1.4 s and 1.6 s,
each with a pending booking created at instant 0. -/
def sampleFractional : Store :=
  { events :=
      [{ id := "e4", title := "Flash sale", description := "", event_date := 0,
         total_spots := 5, requires_payment := true, booking_ttl := 1400 * millisecond,
         created_at := 0, updated_at := 0 },
       { id := "e6", title := "Flash sale", description := "", event_date := 0,
         total_spots := 5, requires_payment := true, booking_ttl := 1600 * millisecond,
         created_at := 0, updated_at := 0 }],
    users := sampleUsers,
    bookings :=
      [{ ID := "b1", EventID := "e4", UserID := "uA", Status := BookingStatus.Pending,
         CreatedAt := 0, UpdatedAt := 0 },
       { ID := "b2", EventID := "e6", UserID := "uA", Status := BookingStatus.Pending,
         CreatedAt := 0, UpdatedAt := 0 }] }

/-! ## Identifiers -/

/-- The type `uuid.UUID` of the library `github.com/google/uuid`, which the
services import: an array of sixteen bytes. -/
structure UUID where
  bytes : Fin 16 → Fin 256

/-- The two lower-case hexadecimal digits `hex.Encode` writes for one byte. -/
def hexByte (b : Fin 256) : List Char :=
  [Nat.digitChar (b.val / 16), Nat.digitChar (b.val % 16)]

/-- The method `UUID.String` of that library: the thirty-six characters
`xxxxxxxx-xxxx-xxxx-xxxx-xxxxxxxxxxxx`, the bytes in order, two digits each,
with a hyphen after the fourth, sixth, eighth and tenth byte. -/
def UUID.String (u : UUID) : String :=
  String.mk
    (hexByte (u.bytes 0) ++ hexByte (u.bytes 1) ++ hexByte (u.bytes 2) ++ hexByte (u.bytes 3)
      ++ ['-'] ++ hexByte (u.bytes 4) ++ hexByte (u.bytes 5)
      ++ ['-'] ++ hexByte (u.bytes 6) ++ hexByte (u.bytes 7)
      ++ ['-'] ++ hexByte (u.bytes 8) ++ hexByte (u.bytes 9)
      ++ ['-'] ++ hexByte (u.bytes 10) ++ hexByte (u.bytes 11) ++ hexByte (u.bytes 12)
      ++ hexByte (u.bytes 13) ++ hexByte (u.bytes 14) ++ hexByte (u.bytes 15))

/-- A value of `uuid.UUID`: sixteen zero bytes. -/
def sampleUUID : UUID := { bytes := fun _ => 0 }

/-- A request for an event with `booking_ttl_minutes = -13681335188`. -/
def sampleWrapRequest : CreateEventRequest :=
  { Title := "Concert", Description := "Live music", EventDate := "2030-01-01T00:00:00Z",
    TotalSpots := 2, BookingTTL := -13681335188, RequiresPayment := none }

/-- A request for an event with `booking_ttl_minutes = 13681335188`. -/
def sampleWrapUpRequest : CreateEventRequest :=
  { Title := "Concert", Description := "Live music", EventDate := "2030-01-01T00:00:00Z",
    TotalSpots := 2, BookingTTL := 13681335188, RequiresPayment := none }

/-- The sample event with the TTL stored for a request with
`booking_ttl_minutes = -13681335188`: the product of the handler,
`time.Duration(-13681335188) * time.Minute`, is -9223372036779728896 ns in
`int64`, about -9223372036.78 s. -/
def sampleWrapEvent : EventRow :=
  { sampleEvent with booking_ttl := -9223372036779729 }

/-- The sample store with that TTL: one pending booking, created at second 5. -/
def sampleWrap : Store :=
  { events := [sampleWrapEvent], users := sampleUsers, bookings := [sampleBooking] }

/-- The sample event with the TTL stored for a request with
`booking_ttl_minutes = 13681335188`: the product of the handler is
9223372036779728896 ns in `int64`, about 9223372036.78 s. -/
def sampleWrapUpEvent : EventRow :=
  { sampleEvent with booking_ttl := 9223372036779728 }

/-- The sample store with that TTL: one pending booking, created at second 5. -/
def sampleWrapUp : Store :=
  { events := [sampleWrapUpEvent], users := sampleUsers, bookings := [sampleBooking] }

/-! # Properties -/

/-! ## Shapes of the store operations -/

theorem isActive_pending : isActive BookingStatus.Pending = true := by decide

theorem isActive_confirmed : isActive BookingStatus.Confirmed = true := by decide

theorem isActive_cancelled : isActive BookingStatus.Cancelled = false := by decide

theorem isActive_eq_true_iff (st : BookingStatus) :
    isActive st = true ↔ st ≠ BookingStatus.Cancelled := by
  cases st <;> decide

/-- The four ways `Create` can end. -/
theorem Create_shape (s : Store) (b : Booking) :
    (findEvent s b.EventID = none ∧
        BookingRepository.Create s b = (some Error.ErrEventNotFound, s)) ∨
    ∃ e, findEvent s b.EventID = some e ∧
      ((e.total_spots ≤ (countActive s b.EventID : Int) ∧
          BookingRepository.Create s b = (some Error.ErrNoAvailableSpots, s)) ∨
       ((countActive s b.EventID : Int) < e.total_spots ∧ uniqueViolation s b = true ∧
          BookingRepository.Create s b = (some Error.ErrAlreadyBooked, s)) ∨
       ((countActive s b.EventID : Int) < e.total_spots ∧ uniqueViolation s b = false ∧
          BookingRepository.Create s b =
            (none, { s with bookings := s.bookings ++ [b] }))) := by
  unfold BookingRepository.Create
  cases hE : findEvent s b.EventID with
  | none => left; simp
  | some e =>
    right
    refine ⟨e, rfl, ?_⟩
    by_cases hc : e.total_spots ≤ (countActive s b.EventID : Int)
    · left; simp [hc]
    · right
      have hc2 : (countActive s b.EventID : Int) < e.total_spots := by omega
      cases hU : uniqueViolation s b with
      | true => left; simp [hc, hc2]
      | false => right; simp [hc, hc2]

/-- Either `Confirm` leaves the store as it was, or it returns `nil` and
rewrites the rows its `WHERE` clause selects. -/
theorem Confirm_shape (s : Store) (eventID userID : String) (now nowApp : Time) :
    (BookingRepository.Confirm s eventID userID now nowApp).2 = s ∨
    ∃ e, findEvent s eventID = some e ∧
      BookingRepository.Confirm s eventID userID now nowApp =
        (none,
          { s with
            bookings := s.bookings.map (fun b =>
              if confirmMatches eventID userID (epochSeconds e.booking_ttl) now b
              then confirmRow now b else b) }) := by
  unfold BookingRepository.Confirm
  cases hE : findEvent s eventID with
  | none => left; rfl
  | some e =>
    simp only
    split
    · left
      split
      · rfl
      · split
        · rfl
        · split <;> rfl
    · right; exact ⟨e, rfl, rfl⟩

/-! ## Capacity -/

theorem capacityInvariant_of_rows (s : Store)
    (h : ∀ e ∈ s.events, (countActive s e.id : Int) ≤ e.total_spots) :
    CapacityInvariant s := by
  intro id e hF
  have hm := List.mem_of_find?_eq_some hF
  have hp := List.find?_some hF
  simp only [beq_iff_eq] at hp
  subst hp
  exact h e hm

theorem countP_map_le_of_imp (l : List Booking) (f : Booking → Booking)
    (p : Booking → Bool) (h : ∀ b ∈ l, p (f b) = true → p b = true) :
    (l.map f).countP p ≤ l.countP p := by
  rw [List.countP_map]
  exact List.countP_mono_left (fun b hb hp => h b hb hp)

theorem countActive_confirm_le (s : Store) (id eventID userID : String)
    (ttl : Int) (now : Time) :
    countActive
        { s with
          bookings := s.bookings.map (fun b =>
            if confirmMatches eventID userID ttl now b then confirmRow now b else b) } id
      ≤ countActive s id := by
  unfold countActive
  apply countP_map_le_of_imp
  intro b _ hp
  by_cases hm : confirmMatches eventID userID ttl now b = true
  · simp only [hm, if_true, confirmRow] at hp
    simp only [confirmMatches, Bool.and_eq_true, beq_iff_eq] at hm
    simp only [Bool.and_eq_true, beq_iff_eq] at hp ⊢
    exact ⟨hp.1, by rw [hm.1.2]; exact isActive_pending⟩
  · simpa [hm] using hp

theorem countActive_sweep_le (s : Store) (id : String) (now : Time) :
    countActive (BookingRepository.CancelExpired s now).2 id ≤ countActive s id := by
  unfold countActive BookingRepository.CancelExpired
  apply countP_map_le_of_imp
  intro b _ hp
  by_cases hm : sweepMatches s now b = true
  · simp [hm, cancelRow, isActive_cancelled] at hp
  · simpa [hm] using hp

theorem findEvent_confirm (s : Store) (eventID userID : String) (now nowApp : Time)
    (id : String) :
    findEvent (BookingRepository.Confirm s eventID userID now nowApp).2 id
      = findEvent s id := by
  rcases Confirm_shape s eventID userID now nowApp with h | ⟨e, _, h⟩
  · rw [h]
  · rw [h]; rfl

/-- Claim C1.  The capacity invariant is preserved by every operation of the
booking store: if every event has at most `total_spots` active (Pending or
Confirmed) bookings, the same holds after `Create`, after `Confirm` and after
`CancelExpired`, whatever their arguments and clock readings. -/
theorem capacity_invariant_preserved (s : Store) (h : CapacityInvariant s) :
    (∀ b, CapacityInvariant (BookingRepository.Create s b).2) ∧
    (∀ eventID userID now nowApp,
      CapacityInvariant (BookingRepository.Confirm s eventID userID now nowApp).2) ∧
    (∀ now, CapacityInvariant (BookingRepository.CancelExpired s now).2) := by
  refine ⟨?_, ?_, ?_⟩
  · intro b
    rcases Create_shape s b with ⟨_, hc⟩ | ⟨e, hE, hc | hc | hc⟩
    · rw [hc]; exact h
    · rw [hc.2]; exact h
    · rw [hc.2.2]; exact h
    · rw [hc.2.2]
      intro id e2 hF
      have hF2 : findEvent s id = some e2 := hF
      have hcnt : countActive { s with bookings := s.bookings ++ [b] } id
          = countActive s id + if (b.EventID == id && isActive b.Status) = true then 1 else 0 := by
        simp [countActive, List.countP_singleton]
      rw [hcnt]
      by_cases hid : b.EventID = id
      · subst hid
        rw [hE] at hF2
        cases hF2
        have := hc.1
        split <;> push_cast <;> omega
      · have := h id e2 hF2
        simp [hid]
        exact this
  · intro eventID userID now nowApp id e hF
    rw [findEvent_confirm] at hF
    have h0 := h id e hF
    rcases Confirm_shape s eventID userID now nowApp with hc | ⟨ev, _, hc⟩
    · rw [hc]; exact h0
    · rw [hc]
      have := countActive_confirm_le s id eventID userID (epochSeconds ev.booking_ttl) now
      simp only at this ⊢
      omega
  · intro now id e hF
    have hF2 : findEvent s id = some e := hF
    have h0 := h id e hF2
    have := countActive_sweep_le s id now
    omega

/-- Claim C1 at the sample store. -/
theorem capacity_invariant_preserved_witness :
    CapacityInvariant sampleStore ∧
    (∀ b, CapacityInvariant (BookingRepository.Create sampleStore b).2) ∧
    (∀ eventID userID now nowApp,
      CapacityInvariant
        (BookingRepository.Confirm sampleStore eventID userID now nowApp).2) ∧
    (∀ now, CapacityInvariant (BookingRepository.CancelExpired sampleStore now).2) :=
  ⟨capacityInvariant_of_rows sampleStore (by decide),
    capacity_invariant_preserved sampleStore
      (capacityInvariant_of_rows sampleStore (by decide))⟩

/-! ## Outcome of `Create` -/

/-- Claim C3, as stated, fails: the sample event has two seats and one active
booking, so a seat is free, yet `Create` for the user who already holds the
active booking does not insert the record: it returns `ErrAlreadyBooked` and
leaves the store as it was. -/
theorem create_inserts_otherwise_counterexample :
    findEvent sampleStore sampleRepeat.EventID = some sampleEvent ∧
    (countActive sampleStore sampleRepeat.EventID : Int) < sampleEvent.total_spots ∧
    (BookingRepository.Create sampleStore sampleRepeat).1 ≠ some Error.ErrNoAvailableSpots ∧
    sampleRepeat ∉ (BookingRepository.Create sampleStore sampleRepeat).2.bookings ∧
    BookingRepository.Create sampleStore sampleRepeat
      = (some Error.ErrAlreadyBooked, sampleStore) := by
  decide

/-- Claim C3, amended.  For a booking `b` whose event exists, `Create` returns
`ErrNoAvailableSpots` if and only if the number of active bookings of the
event has reached `total_spots`, and then the store is unchanged.  Otherwise,
if the insert violates a uniqueness constraint, `Create` returns
`ErrAlreadyBooked` and the store is unchanged; in the remaining case it
returns `nil` and the store gains exactly the record `b`, status included, as
its last row. -/
theorem create_outcome (s : Store) (b : Booking) (e : EventRow)
    (hE : findEvent s b.EventID = some e) :
    ((BookingRepository.Create s b).1 = some Error.ErrNoAvailableSpots
        ↔ (countActive s b.EventID : Int) ≥ e.total_spots) ∧
    ((countActive s b.EventID : Int) ≥ e.total_spots →
        (BookingRepository.Create s b).2 = s) ∧
    ((countActive s b.EventID : Int) < e.total_spots → uniqueViolation s b = true →
        BookingRepository.Create s b = (some Error.ErrAlreadyBooked, s)) ∧
    ((countActive s b.EventID : Int) < e.total_spots → uniqueViolation s b = false →
        BookingRepository.Create s b
          = (none, { s with bookings := s.bookings ++ [b] })) := by
  rcases Create_shape s b with ⟨hN, _⟩ | ⟨e2, hE2, hc⟩
  · rw [hE] at hN; cases hN
  · rw [hE] at hE2
    cases hE2
    rcases hc with hc | hc | hc
    · refine ⟨?_, ?_, ?_, ?_⟩
      · rw [hc.2]; simp; exact hc.1
      · intro _; rw [hc.2]
      · intro h; omega
      · intro h; omega
    · refine ⟨?_, ?_, ?_, ?_⟩
      · rw [hc.2.2]; simp; exact hc.1
      · intro h; omega
      · intro _ _; exact hc.2.2
      · intro _ h; rw [hc.2.1] at h; cases h
    · refine ⟨?_, ?_, ?_, ?_⟩
      · rw [hc.2.2]; simp; exact hc.1
      · intro h; omega
      · intro _ h; rw [hc.2.1] at h; cases h
      · intro _ _; exact hc.2.2

/-- Claim C3, amended, at the sample store and the repeated request. -/
theorem create_outcome_witness :
    findEvent sampleStore sampleRepeat.EventID = some sampleEvent ∧
    (((BookingRepository.Create sampleStore sampleRepeat).1 = some Error.ErrNoAvailableSpots
        ↔ (countActive sampleStore sampleRepeat.EventID : Int) ≥ sampleEvent.total_spots) ∧
    ((countActive sampleStore sampleRepeat.EventID : Int) ≥ sampleEvent.total_spots →
        (BookingRepository.Create sampleStore sampleRepeat).2 = sampleStore) ∧
    ((countActive sampleStore sampleRepeat.EventID : Int) < sampleEvent.total_spots →
        uniqueViolation sampleStore sampleRepeat = true →
        BookingRepository.Create sampleStore sampleRepeat
          = (some Error.ErrAlreadyBooked, sampleStore)) ∧
    ((countActive sampleStore sampleRepeat.EventID : Int) < sampleEvent.total_spots →
        uniqueViolation sampleStore sampleRepeat = false →
        BookingRepository.Create sampleStore sampleRepeat
          = (none, { sampleStore with bookings := sampleStore.bookings ++ [sampleRepeat] }))) :=
  ⟨by decide, create_outcome sampleStore sampleRepeat sampleEvent (by decide)⟩

/-! ## `Book` on the store -/

theorem findEvent_id (s : Store) (id : String) (e : EventRow)
    (h : findEvent s id = some e) : e.id = id := by
  have hp := List.find?_some h
  simpa using hp

/-- On the store, `Book` for an existing event and user is `Create` of the
record it builds. -/
theorem Book_store (s : Store) (eventID : String) (c : BookCall) (a a2 : Time)
    (e : EventRow) (u : User)
    (hE : findEvent s eventID = some e) (hU : findUser s c.userID = some u) :
    (BookingService.Book (storePorts a a2) eventID c.userID c.uuid c.nowC c.nowU s).state
        = (BookingRepository.Create s (bookedRecord e c)).2 ∧
    (BookingService.Book (storePorts a a2) eventID c.userID c.uuid c.nowC c.nowU s).result
        = match (BookingRepository.Create s (bookedRecord e c)).1 with
          | some err => Except.error (Error.wrap "create booking" err)
          | none => Except.ok (bookedRecord e c) := by
  have hid := findEvent_id s eventID e hE
  have hb : bookedRecord e c
      = { ID := c.uuid, EventID := eventID, UserID := c.userID,
          Status := if (!(scanEvent e).RequiresPayment) = true then BookingStatus.Confirmed
            else BookingStatus.Pending,
          CreatedAt := c.nowC, UpdatedAt := c.nowU } := by
    simp only [bookedRecord, scanEvent, hid]
    cases e.requires_payment <;> rfl
  simp only [BookingService.Book, storePorts, EventRepository.GetByID, hE,
    UserRepository.GetByID, hU]
  rw [← hb]
  cases hC : BookingRepository.Create s (bookedRecord e c) with
  | mk r s3 =>
    cases r with
    | some err => simp
    | none =>
      simp only
      split <;> simp

theorem Create_full (s : Store) (b : Booking) (e : EventRow)
    (hE : findEvent s b.EventID = some e)
    (hc : e.total_spots ≤ (countActive s b.EventID : Int)) :
    BookingRepository.Create s b = (some Error.ErrNoAvailableSpots, s) := by
  simp [BookingRepository.Create, hE, hc]

theorem Create_duplicate (s : Store) (b : Booking) (e : EventRow)
    (hE : findEvent s b.EventID = some e)
    (hc : (countActive s b.EventID : Int) < e.total_spots)
    (hU : uniqueViolation s b = true) :
    BookingRepository.Create s b = (some Error.ErrAlreadyBooked, s) := by
  have hc2 : ¬ e.total_spots ≤ (countActive s b.EventID : Int) := by omega
  simp [BookingRepository.Create, hE, hc2, hU]

theorem Create_inserted (s : Store) (b : Booking) (e : EventRow)
    (hE : findEvent s b.EventID = some e)
    (hc : (countActive s b.EventID : Int) < e.total_spots)
    (hU : uniqueViolation s b = false) :
    BookingRepository.Create s b = (none, { s with bookings := s.bookings ++ [b] }) := by
  have hc2 : ¬ e.total_spots ≤ (countActive s b.EventID : Int) := by omega
  simp [BookingRepository.Create, hE, hc2, hU]

theorem bookedRecord_active (e : EventRow) (c : BookCall) :
    isActive (bookedRecord e c).Status = true := by
  unfold bookedRecord
  cases e.requires_payment <;> simp [isActive, ActiveStatuses]

/-- Serving a sequence of `Book` requests of distinct users without an
active booking on an event with `free` seats left: the first `free` requests
are booked, the others are refused for lack of seats. -/
theorem bookAll_general (eventID : String) (e : EventRow) :
    ∀ (calls : List BookCall) (s : Store) (free : Nat),
      findEvent s eventID = some e →
      (countActive s eventID : Int) + free = e.total_spots →
      (∀ c ∈ calls, findUser s c.userID ≠ none) →
      (calls.map (fun c => c.userID)).Nodup →
      (∀ c ∈ calls, ∀ b ∈ s.bookings, isActive b.Status = true →
          b.EventID = eventID → b.UserID ≠ c.userID) →
      (calls.map (fun c => c.uuid)).Nodup →
      (∀ c ∈ calls, ∀ b ∈ s.bookings, b.ID ≠ c.uuid) →
      (bookAll eventID s calls).1 =
          (calls.take free).map (fun c => Except.ok (bookedRecord e c)) ++
          (calls.drop free).map (fun _ =>
            Except.error (Error.wrap "create booking" Error.ErrNoAvailableSpots))
        ∧ (bookAll eventID s calls).2 =
          { s with bookings := s.bookings ++ (calls.take free).map (bookedRecord e) } := by
  intro calls
  induction calls with
  | nil => intro s free _ _ _ _ _ _ _; simp [bookAll]
  | cons c cs ih =>
    intro s free hE hcnt hUsers hNodupU hNoActive hNodupI hFresh
    have hid := findEvent_id s eventID e hE
    obtain ⟨u, hu⟩ : ∃ u, findUser s c.userID = some u := by
      have := hUsers c (List.mem_cons_self _ _)
      cases h : findUser s c.userID with
      | none => exact absurd h this
      | some u => exact ⟨u, rfl⟩
    have hB := Book_store s eventID c c.nowC c.nowC e u hE hu
    have hbE : (bookedRecord e c).EventID = eventID := hid
    have hE2 : findEvent s (bookedRecord e c).EventID = some e := by rw [hbE]; exact hE
    simp only [List.map_cons, List.nodup_cons] at hNodupU hNodupI
    cases free with
    | zero =>
      have hfull : e.total_spots ≤ (countActive s (bookedRecord e c).EventID : Int) := by
        rw [hbE]; simp at hcnt; omega
      have hC := Create_full s _ e hE2 hfull
      rw [hC] at hB
      have ih2 := ih s 0 hE hcnt
        (fun x hx => hUsers x (List.mem_cons_of_mem _ hx)) hNodupU.2
        (fun x hx => hNoActive x (List.mem_cons_of_mem _ hx)) hNodupI.2
        (fun x hx => hFresh x (List.mem_cons_of_mem _ hx))
      simp only [bookAll, hB.1, hB.2]
      simp only [List.take_zero, List.map_nil, List.nil_append, List.drop_zero,
        List.append_nil] at ih2 ⊢
      exact ⟨by rw [ih2.1]; rfl, ih2.2⟩
    | succ n =>
      have hlt : (countActive s (bookedRecord e c).EventID : Int) < e.total_spots := by
        rw [hbE]; push_cast at hcnt; omega
      have hUV : uniqueViolation s (bookedRecord e c) = false := by
        simp only [uniqueViolation, Bool.or_eq_false_iff, Bool.and_eq_false_iff,
          List.any_eq_false, beq_iff_eq, Bool.and_eq_true, not_and]
        refine ⟨fun b hb => hFresh c (List.mem_cons_self _ _) b hb, Or.inr ?_⟩
        intro b hb hbe hact
        exact hNoActive c (List.mem_cons_self _ _) b hb hact (hbe.1.trans hbE) hbe.2
      have hC := Create_inserted s _ e hE2 hlt hUV
      rw [hC] at hB
      have hcount2 : (countActive { s with bookings := s.bookings ++ [bookedRecord e c] }
          eventID : Int) + n = e.total_spots := by
        have : countActive { s with bookings := s.bookings ++ [bookedRecord e c] } eventID
            = countActive s eventID + 1 := by
          simp [countActive, List.countP_singleton, hbE, bookedRecord_active]
        rw [this]; push_cast at hcnt ⊢; omega
      have ih2 := ih { s with bookings := s.bookings ++ [bookedRecord e c] } n hE hcount2
        (fun x hx => hUsers x (List.mem_cons_of_mem _ hx)) hNodupU.2
        (by
          intro x hx b hb hact hbe
          simp only [List.mem_append, List.mem_singleton] at hb
          rcases hb with hb | hb
          · exact hNoActive x (List.mem_cons_of_mem _ hx) b hb hact hbe
          · subst hb
            intro hEq
            apply hNodupU.1
            exact List.mem_map.mpr ⟨x, hx, hEq.symm⟩)
        hNodupI.2
        (by
          intro x hx b hb
          simp only [List.mem_append, List.mem_singleton] at hb
          rcases hb with hb | hb
          · exact hFresh x (List.mem_cons_of_mem _ hx) b hb
          · subst hb
            intro hEq
            apply hNodupI.1
            exact List.mem_map.mpr ⟨x, hx, hEq.symm⟩)
      simp only [bookAll, hB.1, hB.2]
      simp only [List.take_succ_cons, List.map_cons, List.cons_append, List.drop_succ_cons]
      refine ⟨by rw [ih2.1], ?_⟩
      rw [ih2.2]
      simp

/-- Claim C2.  On an event with `N = total_spots` seats and no active
booking, `k` `Book` requests of pairwise distinct existing users (each with a
fresh identifier), served one after the other in any order, end as follows:
the first `min k N` requests succeed, each returning the record it built, and
every later request fails with an error that is `ErrNoAvailableSpots`; the
event then has `min k N` active bookings.  In particular, when the last two
requests of the sequence compete for the last seat, the first of them is
booked and the second is refused with `ErrNoAvailableSpots`. -/
theorem book_sequence_first_come (s : Store) (eventID : String) (e : EventRow)
    (N : Nat) (calls : List BookCall)
    (hE : findEvent s eventID = some e) (hN : e.total_spots = N)
    (hNone : countActive s eventID = 0)
    (hUsers : ∀ c ∈ calls, findUser s c.userID ≠ none)
    (hDistinct : (calls.map (fun c => c.userID)).Nodup)
    (hIds : (calls.map (fun c => c.uuid)).Nodup)
    (hFresh : ∀ c ∈ calls, ∀ b ∈ s.bookings, b.ID ≠ c.uuid) :
    (bookAll eventID s calls).1 =
        (calls.take (min calls.length N)).map (fun c => Except.ok (bookedRecord e c)) ++
        (calls.drop (min calls.length N)).map (fun _ =>
          Except.error (Error.wrap "create booking" Error.ErrNoAvailableSpots)) ∧
    Error.Is (Error.wrap "create booking" Error.ErrNoAvailableSpots)
        Error.ErrNoAvailableSpots = true ∧
    countActive (bookAll eventID s calls).2 eventID = min calls.length N ∧
    (∀ front c1 c2, calls = front ++ [c1, c2] → front.length + 1 = N →
      (bookAll eventID s calls).1 =
        front.map (fun c => Except.ok (bookedRecord e c)) ++
          [Except.ok (bookedRecord e c1),
           Except.error (Error.wrap "create booking" Error.ErrNoAvailableSpots)]) := by
  have hNoActive : ∀ c ∈ calls, ∀ b ∈ s.bookings, isActive b.Status = true →
      b.EventID = eventID → b.UserID ≠ c.userID := by
    intro c _ b hb hact hbe
    simp only [countActive, List.countP_eq_zero, Bool.and_eq_true, beq_iff_eq, not_and] at hNone
    exact absurd hact (hNone b hb hbe)
  have hcnt : (countActive s eventID : Int) + N = e.total_spots := by
    rw [hNone, hN]; simp
  have hG := bookAll_general eventID e calls s N hE hcnt hUsers hDistinct hNoActive hIds hFresh
  have hT : calls.take (min calls.length N) = calls.take N := by
    rcases Nat.le_total calls.length N with h | h
    · rw [Nat.min_eq_left h, List.take_of_length_le (Nat.le_refl _), List.take_of_length_le h]
    · rw [Nat.min_eq_right h]
  have hD : calls.drop (min calls.length N) = calls.drop N := by
    rcases Nat.le_total calls.length N with h | h
    · rw [Nat.min_eq_left h, List.drop_of_length_le (Nat.le_refl _), List.drop_of_length_le h]
    · rw [Nat.min_eq_right h]
  have hid := findEvent_id s eventID e hE
  refine ⟨by rw [hT, hD]; exact hG.1, by decide, ?_, ?_⟩
  · rw [hG.2]
    have hall : ∀ l : List BookCall,
        List.countP (fun b => b.EventID == eventID && isActive b.Status)
          (l.map (bookedRecord e)) = l.length := by
      intro l
      rw [List.countP_map]
      rw [List.countP_eq_length]
      intro c _
      have h1 : (bookedRecord e c).EventID = eventID := hid
      simp [h1, bookedRecord_active]
    have h0 : List.countP (fun b => b.EventID == eventID && isActive b.Status) s.bookings = 0 :=
      hNone
    simp only [countActive, List.countP_append, h0, hall, List.length_take]
    omega
  · intro front c1 c2 hcalls hlen
    rw [hG.1, hcalls, ← hlen]
    have h1 : (front ++ [c1, c2]).take (front.length + 1) = front ++ [c1] := by
      rw [List.take_append]; rfl
    have h2 : (front ++ [c1, c2]).drop (front.length + 1) = [c2] := by
      rw [List.drop_append]; rfl
    rw [h1, h2]
    simp

/-- Claim C2 at the sample event (two seats) and three requests: the first
two are booked, the third is refused. -/
theorem book_sequence_first_come_witness :
    (bookAll "e1" sampleEmpty sampleCalls).1 =
      [Except.ok { ID := "b1", EventID := "e1", UserID := "uA",
                   Status := BookingStatus.Pending, CreatedAt := 1, UpdatedAt := 1 },
       Except.ok { ID := "b2", EventID := "e1", UserID := "uB",
                   Status := BookingStatus.Pending, CreatedAt := 2, UpdatedAt := 2 },
       Except.error (Error.wrap "create booking" Error.ErrNoAvailableSpots)] :=
  (book_sequence_first_come sampleEmpty "e1" sampleEvent 2 sampleCalls
    (by decide) (by decide) (by decide) (by decide) (by decide) (by decide)
    (by decide)).1

/-! ## One request, seen from the store -/

theorem pendingOnly_confirm (eventID userID : String) (ttl : Int) (now : Time) :
    PendingOnly (fun b =>
      if confirmMatches eventID userID ttl now b then confirmRow now b else b) := by
  intro b
  by_cases hm : confirmMatches eventID userID ttl now b = true
  · right
    simp only [confirmMatches, Bool.and_eq_true, beq_iff_eq] at hm
    refine ⟨hm.1.2, BookingStatus.Confirmed, now, ?_⟩
    simp [confirmMatches, hm, confirmRow]
  · left; simp [hm]

theorem pendingOnly_sweep (s : Store) (now : Time) :
    PendingOnly (fun b => if sweepMatches s now b then cancelRow now b else b) := by
  intro b
  by_cases hm : sweepMatches s now b = true
  · right
    have hp : b.Status = BookingStatus.Pending := by
      simp only [sweepMatches, Bool.and_eq_true, beq_iff_eq] at hm
      exact hm.1
    refine ⟨hp, BookingStatus.Cancelled, now, ?_⟩
    simp [hm, cancelRow]
  · left; simp [hm]

theorem pendingOnly_id : PendingOnly (fun b => b) := fun _ => Or.inl rfl

theorem notifyCancelled_store (a a2 : Time) (l : List Booking) (s : Store) :
    (BookingService.notifyCancelled (storePorts a a2) l s).2 = s := by
  induction l with
  | nil => rfl
  | cons b rest ih =>
    unfold BookingService.notifyCancelled
    have h1 : (storePorts a a2).userGetByID b.UserID s
        = (UserRepository.GetByID s b.UserID, s) := rfl
    have h2 : (storePorts a a2).eventGetByID b.EventID s
        = (EventRepository.GetByID s b.EventID, s) := rfl
    rw [h1]
    cases UserRepository.GetByID s b.UserID with
    | error _ => exact ih
    | ok u =>
      simp only
      rw [h2]
      cases EventRepository.GetByID s b.EventID with
      | error _ => exact ih
      | ok e => exact ih

/-- The store after `BookingService.CancelExpired` is the store after the
sweep of the repository. -/
theorem CancelExpired_service_state (s : Store) (now a2 : Time) :
    (BookingService.CancelExpired (storePorts now a2) s).state
      = (BookingRepository.CancelExpired s now).2 := by
  unfold BookingService.CancelExpired
  simp only [storePorts]
  split
  · exact notifyCancelled_store now a2 _ _
  · rfl

/-- The store after `BookingService.Confirm` is the store before, or the
store after `Confirm` of the repository. -/
theorem Confirm_service_state (s : Store) (eventID userID : String)
    (nowSvc now nowApp : Time) :
    (BookingService.Confirm (storePorts now nowApp) eventID userID nowSvc s).state = s ∨
    (BookingService.Confirm (storePorts now nowApp) eventID userID nowSvc s).state
      = (BookingRepository.Confirm s eventID userID now nowApp).2 := by
  unfold BookingService.Confirm
  simp only [storePorts]
  cases EventRepository.GetByID s eventID with
  | error err => left; rfl
  | ok event =>
    simp only
    split
    · left; rfl
    · cases BookingRepository.GetByEventAndUser s eventID userID with
      | error err => left; rfl
      | ok booking =>
        simp only
        split
        · left; rfl
        · split
          · left; rfl
          · right
            cases hC : BookingRepository.Confirm s eventID userID now nowApp with
            | mk r s3 =>
              cases r with
              | some err => rfl
              | none =>
                simp only
                cases UserRepository.GetByID s3 userID <;> rfl

/-- The store after `BookingService.Book` is the store before, or the store
after `Create` of some record. -/
theorem Book_service_state (s : Store) (eventID userID uuid : String)
    (nowC nowU a a2 : Time) :
    (BookingService.Book (storePorts a a2) eventID userID uuid nowC nowU s).state = s ∨
    ∃ b, (BookingService.Book (storePorts a a2) eventID userID uuid nowC nowU s).state
      = (BookingRepository.Create s b).2 := by
  unfold BookingService.Book
  simp only [storePorts]
  cases EventRepository.GetByID s eventID with
  | error err => left; rfl
  | ok event =>
    simp only
    cases UserRepository.GetByID s userID with
    | error err => left; rfl
    | ok user =>
      simp only
      right
      refine ⟨{ ID := uuid, EventID := eventID, UserID := userID,
                Status := if (!event.RequiresPayment) = true then BookingStatus.Confirmed
                  else BookingStatus.Pending,
                CreatedAt := nowC, UpdatedAt := nowU }, ?_⟩
      split
      · rename_i h; rw [h]
      · rename_i h; rw [h]; split <;> rfl

/-- What one request does to the store: the catalog is untouched, and the
bookings are either rewritten row by row, Pending rows only, or extended by
one row that violates no uniqueness constraint. -/
theorem step_frame (s : Store) (op : Op) :
    (step s op).events = s.events ∧ (step s op).users = s.users ∧
    ((∃ f, PendingOnly f ∧ (step s op).bookings = s.bookings.map f) ∨
     (∃ b, uniqueViolation s b = false ∧ (step s op).bookings = s.bookings ++ [b])) := by
  have hCreate : ∀ b, (BookingRepository.Create s b).2.events = s.events ∧
      (BookingRepository.Create s b).2.users = s.users ∧
      ((∃ f, PendingOnly f ∧ (BookingRepository.Create s b).2.bookings = s.bookings.map f) ∨
       (∃ x, uniqueViolation s x = false ∧
          (BookingRepository.Create s b).2.bookings = s.bookings ++ [x])) := by
    intro b
    rcases Create_shape s b with ⟨_, hc⟩ | ⟨e, hE, hc | hc | hc⟩
    · rw [hc]; exact ⟨rfl, rfl, Or.inl ⟨_, pendingOnly_id, by simp⟩⟩
    · rw [hc.2]; exact ⟨rfl, rfl, Or.inl ⟨_, pendingOnly_id, by simp⟩⟩
    · rw [hc.2.2]; exact ⟨rfl, rfl, Or.inl ⟨_, pendingOnly_id, by simp⟩⟩
    · rw [hc.2.2]; exact ⟨rfl, rfl, Or.inr ⟨b, hc.2.1, rfl⟩⟩
  have hSame : s.events = s.events ∧ s.users = s.users ∧
      ((∃ f, PendingOnly f ∧ s.bookings = s.bookings.map f) ∨
       (∃ b, uniqueViolation s b = false ∧ s.bookings = s.bookings ++ [b])) :=
    ⟨rfl, rfl, Or.inl ⟨_, pendingOnly_id, by simp⟩⟩
  cases op with
  | Book eventID userID uuid nowC nowU =>
    simp only [step]
    rcases Book_service_state s eventID userID uuid nowC nowU nowC nowC with h | ⟨b, h⟩
    · rw [h]; exact hSame
    · rw [h]; exact hCreate b
  | Confirm eventID userID nowSvc now nowApp =>
    simp only [step]
    rcases Confirm_service_state s eventID userID nowSvc now nowApp with h | h
    · rw [h]; exact hSame
    · rw [h]
      rcases Confirm_shape s eventID userID now nowApp with hc | ⟨e, _, hc⟩
      · rw [hc]; exact hSame
      · rw [hc]; exact ⟨rfl, rfl, Or.inl ⟨_, pendingOnly_confirm _ _ _ _, rfl⟩⟩
  | Sweep now =>
    simp only [step]
    rw [CancelExpired_service_state]
    exact ⟨rfl, rfl, Or.inl ⟨_, pendingOnly_sweep s now, rfl⟩⟩

/-! ## Invariants along sequences of requests -/

theorem pendingOnly_fields (f : Booking → Booking) (hf : PendingOnly f) (b : Booking) :
    (f b).ID = b.ID ∧ (f b).EventID = b.EventID ∧ (f b).UserID = b.UserID
      ∧ (f b).CreatedAt = b.CreatedAt := by
  rcases hf b with h | ⟨_, st, now, h⟩ <;> rw [h] <;> exact ⟨rfl, rfl, rfl, rfl⟩

theorem pendingOnly_fixes (f : Booking → Booking) (hf : PendingOnly f) (b : Booking)
    (hb : b.Status ≠ BookingStatus.Pending) : f b = b := by
  rcases hf b with h | ⟨hp, _⟩
  · exact h
  · exact absurd hp hb

theorem pendingOnly_active (f : Booking → Booking) (hf : PendingOnly f) (b : Booking)
    (h : isActive (f b).Status = true) : isActive b.Status = true := by
  rcases hf b with h2 | ⟨hp, _⟩
  · rw [h2] at h; exact h
  · rw [hp]; exact isActive_pending

theorem run_cons (s : Store) (op : Op) (ops : List Op) :
    run s (op :: ops) = run (step s op) ops := rfl

theorem run_append (s : Store) (ops1 ops2 : List Op) :
    run s (ops1 ++ ops2) = run (run s ops1) ops2 := by
  simp [run, List.foldl_append]

theorem uniqueActive_step (s : Store) (op : Op) (h : UniqueActive s) :
    UniqueActive (step s op) := by
  intro eventID userID
  have h0 := h eventID userID
  unfold activeOfPair at h0 ⊢
  rw [← List.countP_eq_length_filter] at h0 ⊢
  rcases (step_frame s op).2.2 with ⟨f, hf, hb⟩ | ⟨b, hU, hb⟩
  · rw [hb]
    refine Nat.le_trans (countP_map_le_of_imp _ f _ ?_) h0
    intro b _ hp
    have hfld := pendingOnly_fields f hf b
    simp only [Bool.and_eq_true, beq_iff_eq] at hp ⊢
    exact ⟨⟨hfld.2.1 ▸ hp.1.1, hfld.2.2.1 ▸ hp.1.2⟩, pendingOnly_active f hf b hp.2⟩
  · rw [hb, List.countP_append, List.countP_singleton]
    split
    · rename_i hp
      simp only [Bool.and_eq_true, beq_iff_eq] at hp
      have hz : List.countP
          (fun b => b.EventID == eventID && b.UserID == userID && isActive b.Status)
          s.bookings = 0 := by
        rw [List.countP_eq_zero]
        intro x hx hpx
        simp only [Bool.and_eq_true, beq_iff_eq] at hpx
        simp only [uniqueViolation, Bool.or_eq_false_iff, Bool.and_eq_false_iff,
          List.any_eq_false, beq_iff_eq, Bool.and_eq_true, not_and] at hU
        rcases hU.2 with hna | hall
        · rw [hp.2] at hna; cases hna
        · exact hall x hx ⟨hpx.1.1.trans hp.1.1.symm, hpx.1.2.trans hp.1.2.symm⟩ hpx.2
      omega
    · omega

theorem idsUnique_step (s : Store) (op : Op) (h : IdsUnique s) :
    IdsUnique (step s op) := by
  unfold IdsUnique at h ⊢
  rcases (step_frame s op).2.2 with ⟨f, hf, hb⟩ | ⟨b, hU, hb⟩
  · rw [hb, List.map_map]
    have : ((fun b => b.ID) ∘ f) = (fun b : Booking => b.ID) := by
      funext b; exact (pendingOnly_fields f hf b).1
    rw [this]; exact h
  · rw [hb, List.map_append, List.map_singleton]
    rw [List.nodup_append]
    refine ⟨h, List.nodup_singleton _, ?_⟩
    simp only [uniqueViolation, Bool.or_eq_false_iff, List.any_eq_false, beq_iff_eq] at hU
    intro a ha hb2
    simp only [List.mem_singleton] at hb2
    subst hb2
    obtain ⟨x, hx, hxa⟩ := List.mem_map.mp ha
    exact hU.1 x hx hxa

theorem terminal_step (s : Store) (op : Op) (b : Booking) (hb : b ∈ s.bookings)
    (ht : b.Status ≠ BookingStatus.Pending) : b ∈ (step s op).bookings := by
  rcases (step_frame s op).2.2 with ⟨f, hf, he⟩ | ⟨x, _, he⟩
  · rw [he]
    exact List.mem_map.mpr ⟨b, hb, pendingOnly_fixes f hf b ht⟩
  · rw [he]; exact List.mem_append_left _ hb

theorem uniqueActive_run (ops : List Op) :
    ∀ s, UniqueActive s → UniqueActive (run s ops) := by
  induction ops with
  | nil => intro s h; exact h
  | cons op ops ih => intro s h; exact ih _ (uniqueActive_step s op h)

theorem idsUnique_run (ops : List Op) :
    ∀ s, IdsUnique s → IdsUnique (run s ops) := by
  induction ops with
  | nil => intro s h; exact h
  | cons op ops ih => intro s h; exact ih _ (idsUnique_step s op h)

theorem terminal_run (ops : List Op) :
    ∀ s (b : Booking), b ∈ s.bookings → b.Status ≠ BookingStatus.Pending →
      b ∈ (run s ops).bookings := by
  induction ops with
  | nil => intro s b hb _; exact hb
  | cons op ops ih => intro s b hb ht; exact ih _ b (terminal_step s op b hb ht) ht

theorem uniqueActive_of_nil (s : Store) (h : s.bookings = []) : UniqueActive s := by
  intro eventID userID
  simp [activeOfPair, h]

/-- On the store, `Book` for an existing event and user: the whole outcome in
terms of `Create` of the record it builds. -/
theorem Book_store_outcome (s : Store) (eventID : String) (c : BookCall) (a a2 : Time)
    (e : EventRow) (u : User)
    (hE : findEvent s eventID = some e) (hU : findUser s c.userID = some u) :
    BookingService.Book (storePorts a a2) eventID c.userID c.uuid c.nowC c.nowU s
      = match BookingRepository.Create s (bookedRecord e c) with
        | (some err, s3) => ⟨Except.error (Error.wrap "create booking" err), s3, []⟩
        | (none, s3) =>
            ⟨Except.ok (bookedRecord e c), s3,
              [if e.requires_payment then Notification.BookingCreated u (scanEvent e)
               else Notification.BookingConfirmed u (scanEvent e)]⟩ := by
  have hid := findEvent_id s eventID e hE
  have hb : bookedRecord e c
      = { ID := c.uuid, EventID := eventID, UserID := c.userID,
          Status := if (!(scanEvent e).RequiresPayment) = true then BookingStatus.Confirmed
            else BookingStatus.Pending,
          CreatedAt := c.nowC, UpdatedAt := c.nowU } := by
    simp only [bookedRecord, scanEvent, hid]
    cases e.requires_payment <;> rfl
  simp only [BookingService.Book, storePorts, EventRepository.GetByID, hE,
    UserRepository.GetByID, hU]
  rw [← hb]
  cases hC : BookingRepository.Create s (bookedRecord e c) with
  | mk r s3 =>
    cases r with
    | some err => rfl
    | none =>
      simp only
      have : (scanEvent e).RequiresPayment = e.requires_payment := rfl
      rw [this]
      cases e.requires_payment <;> rfl

/-! ## Single active booking -/

/-- Claim C4, as stated, fails: the single-seat sample event is full and its
seat is held by an active booking of user `uA`; a second `Book` of `uA` for it
fails with `ErrNoAvailableSpots`, an error that is not `ErrAlreadyBooked`. -/
theorem second_book_already_booked_counterexample :
    activeOfPair sampleFull "e2" "uA" ≠ [] ∧
    (BookingService.Book (storePorts 9 9) "e2" "uA" "b8" 9 9 sampleFull).result
      = Except.error (Error.wrap "create booking" Error.ErrNoAvailableSpots) ∧
    Error.Is (Error.wrap "create booking" Error.ErrNoAvailableSpots)
      Error.ErrAlreadyBooked = false :=
  ⟨by decide, rfl, by decide⟩

/-- Claim C4, amended.  In every store reached from a store without bookings
by `Book`, `Confirm` and sweep requests, every (event, user) pair has at most
one active booking.  And in every store in which a pair already has an active
booking, a further `Book` for the pair (event and user existing) fails, writes
nothing and dispatches nothing: with an error that is `ErrAlreadyBooked` when
the event has a seat left, and with an error that is `ErrNoAvailableSpots`
when the event is full, the seat count being checked before the insert. -/
theorem single_active_booking (s0 : Store) (ops : List Op) (h0 : s0.bookings = [])
    (s : Store) (eventID userID uuid : String) (nowC nowU a a2 : Time)
    (e : EventRow) (u : User)
    (hE : findEvent s eventID = some e) (hU : findUser s userID = some u)
    (hAct : activeOfPair s eventID userID ≠ []) :
    UniqueActive (run s0 ops) ∧
    (BookingService.Book (storePorts a a2) eventID userID uuid nowC nowU s).state = s ∧
    (BookingService.Book (storePorts a a2) eventID userID uuid nowC nowU s).dispatched = [] ∧
    ((countActive s eventID : Int) < e.total_spots →
      (BookingService.Book (storePorts a a2) eventID userID uuid nowC nowU s).result
        = Except.error (Error.wrap "create booking" Error.ErrAlreadyBooked)) ∧
    (e.total_spots ≤ (countActive s eventID : Int) →
      (BookingService.Book (storePorts a a2) eventID userID uuid nowC nowU s).result
        = Except.error (Error.wrap "create booking" Error.ErrNoAvailableSpots)) ∧
    Error.Is (Error.wrap "create booking" Error.ErrAlreadyBooked)
      Error.ErrAlreadyBooked = true ∧
    Error.Is (Error.wrap "create booking" Error.ErrNoAvailableSpots)
      Error.ErrNoAvailableSpots = true := by
  refine ⟨uniqueActive_run ops s0 (uniqueActive_of_nil s0 h0), ?_⟩
  have hid := findEvent_id s eventID e hE
  have hO := Book_store_outcome s eventID ⟨userID, uuid, nowC, nowU⟩ a a2 e u hE hU
  simp only at hO
  have hbE : (bookedRecord e ⟨userID, uuid, nowC, nowU⟩).EventID = eventID := hid
  have hE2 : findEvent s (bookedRecord e ⟨userID, uuid, nowC, nowU⟩).EventID = some e := by
    rw [hbE]; exact hE
  have hUV : uniqueViolation s (bookedRecord e ⟨userID, uuid, nowC, nowU⟩) = true := by
    obtain ⟨x, hx⟩ := List.exists_mem_of_ne_nil _ hAct
    simp only [activeOfPair, List.mem_filter, Bool.and_eq_true, beq_iff_eq] at hx
    simp only [uniqueViolation, Bool.or_eq_true, Bool.and_eq_true, List.any_eq_true,
      beq_iff_eq]
    right
    refine ⟨bookedRecord_active _ _, x, hx.1, ⟨?_, ?_⟩, hx.2.2⟩
    · rw [hbE]; exact hx.2.1.1
    · exact hx.2.1.2
  by_cases hc : (countActive s eventID : Int) < e.total_spots
  · have hC := Create_duplicate s _ e hE2 (by rw [hbE]; exact hc) hUV
    rw [hC] at hO
    rw [hO]
    exact ⟨rfl, rfl, fun _ => rfl, fun h => by omega, by decide, by decide⟩
  · have hC := Create_full s _ e hE2 (by rw [hbE]; omega)
    rw [hC] at hO
    rw [hO]
    exact ⟨rfl, rfl, fun h => absurd h hc, fun _ => rfl, by decide, by decide⟩

/-- Claim C4, amended, at the sample data: the store reached by the three
sample requests, and a repeated request on the sample store. -/
theorem single_active_booking_witness :
    UniqueActive (run sampleEmpty [Op.Book "e1" "uA" "b1" 1 1, Op.Sweep 2]) ∧
    (BookingService.Book (storePorts 9 9) "e1" "uA" "b2" 9 9 sampleStore).result
      = Except.error (Error.wrap "create booking" Error.ErrAlreadyBooked) :=
  have h := single_active_booking sampleEmpty [Op.Book "e1" "uA" "b1" 1 1, Op.Sweep 2]
    (by decide) sampleStore "e1" "uA" "b2" 9 9 9 9 sampleEvent
    { ID := "uA", Username := "alice", TelegramChatID := none, CreatedAt := 0 }
    (by decide) (by decide) (by decide)
  ⟨h.1, h.2.2.2.1 (by decide)⟩

/-! ## `Confirm` on a pair with one active booking -/

theorem mem_activeOfPair (s : Store) (eventID userID : String) (x : Booking) :
    x ∈ activeOfPair s eventID userID ↔
      x ∈ s.bookings ∧ x.EventID = eventID ∧ x.UserID = userID ∧ isActive x.Status = true := by
  simp only [activeOfPair, List.mem_filter, Bool.and_eq_true, beq_iff_eq]
  tauto

theorem confirmMatches_iff (eventID userID : String) (ttl : Int) (now : Time) (x : Booking) :
    confirmMatches eventID userID ttl now x = true ↔
      x.EventID = eventID ∧ x.UserID = userID ∧ x.Status = BookingStatus.Pending
        ∧ now ≤ x.CreatedAt + ttl * second := by
  simp only [confirmMatches, make_interval, Bool.and_eq_true, beq_iff_eq, decide_eq_true_eq,
    ge_iff_le]
  tauto

/-! ## The `int64` product of the TTL -/

/-- An `int64` operation whose exact result is in range yields that result. -/
theorem wrapInt64_of_range (n : Int) (h1 : -9223372036854775808 ≤ n)
    (h2 : n ≤ 9223372036854775807) : wrapInt64 n = n := by
  unfold wrapInt64; omega

/-- Every value of `int64` is in range. -/
theorem wrapInt64_range (n : Int) :
    -9223372036854775808 ≤ wrapInt64 n ∧ wrapInt64 n ≤ 9223372036854775807 := by
  unfold wrapInt64; omega

/-- An elapsed time of `k` microseconds exceeds `ns` nanoseconds exactly when
`k` exceeds `ns` in microseconds, rounded down. -/
theorem elapsed_gt_nanoseconds (k ns : Int) : k * 1000 > ns ↔ k > ns / 1000 := by
  omega

/-- For a TTL within 9223372036 seconds either way the `int64` product is the
exact one. -/
theorem durationOfSeconds_exact (n : Int) (h1 : -9223372036 ≤ n) (h2 : n ≤ 9223372036) :
    durationOfSeconds n = n * second := by
  unfold durationOfSeconds wrapInt64 second; omega

/-- For a number of minutes within 153722867 either way the `int64` product of
the handler is the exact one, a whole number of seconds. -/
theorem durationOfMinutes_exact (m : Int) (h1 : -153722867 ≤ m) (h2 : m ≤ 153722867) :
    durationOfMinutes m = m * minute ∧ durationOfMinutes m = (m * 60) * second := by
  unfold durationOfMinutes wrapInt64 minute second; omega

/-- For a TTL of at least -9223372036 seconds the `int64` product does not
exceed the exact one. -/
theorem durationOfSeconds_le (n : Int) (h1 : -9223372036 ≤ n) :
    durationOfSeconds n ≤ n * second := by
  unfold durationOfSeconds wrapInt64 second; omega

/-- For a TTL of at most 9223372036 seconds the `int64` product is not below
the exact one. -/
theorem durationOfSeconds_ge (n : Int) (h2 : n ≤ 9223372036) :
    n * second ≤ durationOfSeconds n := by
  unfold durationOfSeconds wrapInt64 second; omega

/-- On that range the TTL a scanned event carries is the exact product. -/
theorem scanEvent_BookingTTL (e : EventRow) (h1 : -9223372036 ≤ epochSeconds e.booking_ttl)
    (h2 : epochSeconds e.booking_ttl ≤ 9223372036) :
    (scanEvent e).BookingTTL = epochSeconds e.booking_ttl * second :=
  durationOfSeconds_exact _ h1 h2

/-- Within the TTL, the conditional update selects the pair's pending booking
and no other row. -/
theorem confirm_rows_eligible (s : Store) (eventID userID : String) (b : Booking)
    (ttl : Int) (now : Time)
    (hPair : activeOfPair s eventID userID = [b]) (hP : b.Status = BookingStatus.Pending)
    (hNow : now ≤ b.CreatedAt + ttl * second) :
    ∀ x ∈ s.bookings, (confirmMatches eventID userID ttl now x = true ↔ x = b) := by
  have hb : b ∈ activeOfPair s eventID userID := by rw [hPair]; exact List.mem_singleton_self b
  rw [mem_activeOfPair] at hb
  intro x hx
  rw [confirmMatches_iff]
  constructor
  · intro h
    have : x ∈ activeOfPair s eventID userID := by
      rw [mem_activeOfPair]
      exact ⟨hx, h.1, h.2.1, by rw [h.2.2.1]; exact isActive_pending⟩
    rw [hPair] at this
    exact List.mem_singleton.mp this
  · intro h
    subst h
    exact ⟨hb.2.1, hb.2.2.1, hP, hNow⟩

/-- Past the TTL, the conditional update selects no row. -/
theorem confirm_rows_expired (s : Store) (eventID userID : String) (b : Booking)
    (ttl : Int) (now : Time)
    (hPair : activeOfPair s eventID userID = [b])
    (hNow : b.CreatedAt + ttl * second < now) :
    ∀ x ∈ s.bookings, ¬ confirmMatches eventID userID ttl now x = true := by
  intro x hx
  rw [confirmMatches_iff]
  intro h
  have : x ∈ activeOfPair s eventID userID := by
    rw [mem_activeOfPair]
    exact ⟨hx, h.1, h.2.1, by rw [h.2.2.1]; exact isActive_pending⟩
  rw [hPair] at this
  have hxb := List.mem_singleton.mp this
  rw [hxb] at h
  exact absurd h.2.2.2 (not_le.mpr hNow)

theorem Confirm_repo_eligible (s : Store) (eventID userID : String) (e : EventRow)
    (b : Booking) (now nowApp : Time)
    (hE : findEvent s eventID = some e)
    (hPair : activeOfPair s eventID userID = [b]) (hP : b.Status = BookingStatus.Pending)
    (hNow : now ≤ b.CreatedAt + epochSeconds e.booking_ttl * second) :
    BookingRepository.Confirm s eventID userID now nowApp
      = (none,
          { s with
            bookings := s.bookings.map (fun x => if x = b then confirmRow now b else x) }) := by
  have hrows := confirm_rows_eligible s eventID userID b _ now hPair hP hNow
  have hb : b ∈ activeOfPair s eventID userID := by rw [hPair]; exact List.mem_singleton_self b
  rw [mem_activeOfPair] at hb
  have hne : List.countP (confirmMatches eventID userID (epochSeconds e.booking_ttl) now)
      s.bookings ≠ 0 := by
    rw [Ne, List.countP_eq_zero]
    intro h
    exact h b hb.1 ((hrows b hb.1).mpr rfl)
  simp only [BookingRepository.Confirm, hE, hne, if_false]
  congr 2
  apply List.map_congr_left
  intro x hx
  by_cases hxb : x = b
  · have := (hrows x hx).mpr hxb
    subst hxb
    simp [this]
  · have : ¬ confirmMatches eventID userID (epochSeconds e.booking_ttl) now x = true :=
      fun h => hxb ((hrows x hx).mp h)
    simp [this, hxb]

theorem Confirm_repo_expired (s : Store) (eventID userID : String) (e : EventRow)
    (b : Booking) (now nowApp : Time)
    (hE : findEvent s eventID = some e)
    (hPair : activeOfPair s eventID userID = [b]) (hP : b.Status = BookingStatus.Pending)
    (hNow : b.CreatedAt + epochSeconds e.booking_ttl * second < now)
    (hgt : nowApp - b.CreatedAt > durationOfSeconds (epochSeconds e.booking_ttl)) :
    BookingRepository.Confirm s eventID userID now nowApp
      = (some Error.ErrBookingExpired, s) := by
  have hrows := confirm_rows_expired s eventID userID b _ now hPair hNow
  have hz : List.countP (confirmMatches eventID userID (epochSeconds e.booking_ttl) now)
      s.bookings = 0 := by
    rw [List.countP_eq_zero]; exact hrows
  simp [BookingRepository.Confirm, hE, hz, hPair, latest, hP, hgt]

/-- On the store, `BookingService.Confirm` for a payment-required event and a
pair whose one active booking is pending: the pre-check on the TTL, then
`Confirm` of the repository. -/
theorem Confirm_service_pending (s : Store) (eventID userID : String) (e : EventRow)
    (b : Booking) (nowSvc now nowApp : Time)
    (hE : findEvent s eventID = some e) (hPay : e.requires_payment = true)
    (hPair : activeOfPair s eventID userID = [b]) (hP : b.Status = BookingStatus.Pending) :
    (b.CreatedAt + (scanEvent e).BookingTTL < nowSvc →
      (BookingService.Confirm (storePorts now nowApp) eventID userID nowSvc s).result
          = Except.error Error.ErrBookingExpired ∧
      (BookingService.Confirm (storePorts now nowApp) eventID userID nowSvc s).state = s ∧
      (BookingService.Confirm (storePorts now nowApp) eventID userID nowSvc s).dispatched
          = []) ∧
    (nowSvc ≤ b.CreatedAt + (scanEvent e).BookingTTL →
      (BookingService.Confirm (storePorts now nowApp) eventID userID nowSvc s).result
          = (match (BookingRepository.Confirm s eventID userID now nowApp).1 with
             | some err => Except.error (Error.wrap "confirm booking" err)
             | none => Except.ok ()) ∧
      (BookingService.Confirm (storePorts now nowApp) eventID userID nowSvc s).state
          = (BookingRepository.Confirm s eventID userID now nowApp).2) := by
  have hG : BookingRepository.GetByEventAndUser s eventID userID = Except.ok b := by
    simp [BookingRepository.GetByEventAndUser, hPair, latest]
  have hPay2 : (scanEvent e).RequiresPayment = true := hPay
  constructor
  · intro hlt
    have hgt : nowSvc - b.CreatedAt > (scanEvent e).BookingTTL := by linarith
    simp [BookingService.Confirm, storePorts, EventRepository.GetByID, hE, hPay2, hG, hP, hgt]
  · intro hle
    have hgt : ¬ nowSvc - b.CreatedAt > (scanEvent e).BookingTTL := by
      intro h; linarith
    simp only [BookingService.Confirm, storePorts, EventRepository.GetByID, hE, hPay2, hG, hP,
      hgt]
    cases hC : BookingRepository.Confirm s eventID userID now nowApp with
    | mk r s3 =>
      cases r with
      | some err => simp
      | none =>
        simp only [Bool.not_true, Bool.false_eq_true, if_false, ne_eq, not_true_eq_false]
        cases UserRepository.GetByID s3 userID <;> simp

/-! ## TTL boundary of `Confirm` -/

/-- Claim C5, as stated, fails where the product
`time.Duration(ttlSeconds) * time.Second` overflows.  With the TTL of a
request with `booking_ttl_minutes = -13681335188`, read back as -9223372037
seconds, the event carries a `BookingTTL` of some 292 years: five seconds
after the creation of the pending booking, an instant after `c + d` for the
TTL as stored, `Confirm` fails, of the service and of the repository, with
`ErrBookingNotFound`, not with `ErrBookingExpired`.  With the TTL of
`booking_ttl_minutes = 13681335188`, read back as 9223372037 seconds, the
event carries a negative `BookingTTL`: at the same instant, well before
`c + d`, `Confirm` of the service fails with `ErrBookingExpired`. -/
theorem confirm_ttl_boundary_counterexample :
    (storeCreateEvent "e1" (1 * second) sampleWrapRequest (some (1000 * second))
        sampleNoEvents).2.events.map (fun e => (e.id, e.requires_payment, e.booking_ttl))
      = [("e1", true, sampleWrapEvent.booking_ttl)] ∧
    sampleWrapEvent.requires_payment = true ∧
    activeOfPair sampleWrap "e1" "uA" = [sampleBooking] ∧
    sampleBooking.Status = BookingStatus.Pending ∧
    epochSeconds sampleWrapEvent.booking_ttl = -9223372037 ∧
    (scanEvent sampleWrapEvent).BookingTTL = 9223372036709551 ∧
    sampleBooking.CreatedAt + sampleWrapEvent.booking_ttl < 10 * second ∧
    (BookingService.Confirm (storePorts (10 * second) (10 * second)) "e1" "uA"
        (10 * second) sampleWrap).result
      = Except.error (Error.wrap "confirm booking" Error.ErrBookingNotFound) ∧
    BookingRepository.Confirm sampleWrap "e1" "uA" (10 * second) (10 * second)
      = (some Error.ErrBookingNotFound, sampleWrap) ∧
    (storeCreateEvent "e1" (1 * second) sampleWrapUpRequest (some (1000 * second))
        sampleNoEvents).2.events.map (fun e => (e.id, e.requires_payment, e.booking_ttl))
      = [("e1", true, sampleWrapUpEvent.booking_ttl)] ∧
    sampleWrapUpEvent.requires_payment = true ∧
    activeOfPair sampleWrapUp "e1" "uA" = [sampleBooking] ∧
    epochSeconds sampleWrapUpEvent.booking_ttl = 9223372037 ∧
    (scanEvent sampleWrapUpEvent).BookingTTL = -9223372036709552 ∧
    10 * second ≤ sampleBooking.CreatedAt + sampleWrapUpEvent.booking_ttl ∧
    (BookingService.Confirm (storePorts (10 * second) (10 * second)) "e1" "uA"
        (10 * second) sampleWrapUp).result
      = Except.error Error.ErrBookingExpired :=
  ⟨by decide, by decide, by decide, by decide, by decide, by decide, by decide, by rfl,
   by decide, by decide, by decide, by decide, by decide, by decide, by decide, by rfl⟩

/-- Claim C5, amended.  Take a payment-required event whose TTL, as
`domain.Event` carries it (`booking_ttl` read in whole seconds), is `d`, the
whole seconds lying within 9223372036 either way, so that the product
`time.Duration(ttlSeconds) * time.Second` does not overflow; and a pair whose
one active booking `b` is Pending with creation time `c`.  A `Confirm`
performed at instant `now` succeeds for every `now ≤ c + d`, the instant
`c + d` included, and turns exactly that booking into a Confirmed one; for
every `now > c + d`, so at `c + d` plus one time unit, it fails with
`ErrBookingExpired` and writes nothing.  Both hold for the service method and
for the conditional update of the repository it delegates to. -/
theorem confirm_ttl_boundary (s : Store) (eventID userID : String) (e : EventRow)
    (b : Booking) (now : Time)
    (hE : findEvent s eventID = some e) (hPay : e.requires_payment = true)
    (hPair : activeOfPair s eventID userID = [b]) (hP : b.Status = BookingStatus.Pending)
    (hLo : -9223372036 ≤ epochSeconds e.booking_ttl)
    (hHi : epochSeconds e.booking_ttl ≤ 9223372036) :
    (now ≤ b.CreatedAt + (scanEvent e).BookingTTL →
      (BookingService.Confirm (storePorts now now) eventID userID now s).result
          = Except.ok () ∧
      (BookingService.Confirm (storePorts now now) eventID userID now s).state
          = { s with
              bookings := s.bookings.map (fun x => if x = b then confirmRow now b else x) } ∧
      (confirmRow now b).Status = BookingStatus.Confirmed ∧
      BookingRepository.Confirm s eventID userID now now
          = (none,
              { s with
                bookings :=
                  s.bookings.map (fun x => if x = b then confirmRow now b else x) })) ∧
    (b.CreatedAt + (scanEvent e).BookingTTL < now →
      (BookingService.Confirm (storePorts now now) eventID userID now s).result
          = Except.error Error.ErrBookingExpired ∧
      (BookingService.Confirm (storePorts now now) eventID userID now s).state = s ∧
      BookingRepository.Confirm s eventID userID now now
          = (some Error.ErrBookingExpired, s)) := by
  have hS := Confirm_service_pending s eventID userID e b now now now hE hPay hPair hP
  have hT := scanEvent_BookingTTL e hLo hHi
  constructor
  · intro hle
    have hR := Confirm_repo_eligible s eventID userID e b now now hE hPair hP
      (by rw [← hT]; exact hle)
    have h2 := hS.2 hle
    rw [hR] at h2
    exact ⟨h2.1, h2.2, rfl, hR⟩
  · intro hlt
    have hR := Confirm_repo_expired s eventID userID e b now now hE hPair hP
      (by rw [← hT]; exact hlt)
      (by show now - b.CreatedAt > (scanEvent e).BookingTTL; linarith)
    have h1 := hS.1 hlt
    exact ⟨h1.1, h1.2.1, hR⟩

/-- Claim C5, amended, at the sample store: the booking was created at second 5
and the TTL is ten minutes; a `Confirm` at second 605 exactly succeeds, and one
microsecond later it fails with `ErrBookingExpired`. -/
theorem confirm_ttl_boundary_witness :
    (BookingService.Confirm (storePorts (605 * second) (605 * second)) "e1" "uA"
        (605 * second) sampleStore).result = Except.ok () ∧
    (BookingService.Confirm (storePorts (605 * second + 1) (605 * second + 1)) "e1" "uA"
        (605 * second + 1) sampleStore).result = Except.error Error.ErrBookingExpired :=
  ⟨((confirm_ttl_boundary sampleStore "e1" "uA" sampleEvent sampleBooking (605 * second)
      (by decide) (by decide) (by decide) (by decide) (by decide) (by decide)).1
      (by decide)).1,
   ((confirm_ttl_boundary sampleStore "e1" "uA" sampleEvent sampleBooking (605 * second + 1)
      (by decide) (by decide) (by decide) (by decide) (by decide) (by decide)).2
      (by decide)).1⟩

/-! ## Why a confirmation fails -/

theorem confirm_rows_none_of_not_pending (s : Store) (eventID userID : String)
    (ttl : Int) (now : Time)
    (h : ∀ x ∈ activeOfPair s eventID userID, x.Status ≠ BookingStatus.Pending) :
    List.countP (confirmMatches eventID userID ttl now) s.bookings = 0 := by
  rw [List.countP_eq_zero]
  intro x hx hm
  rw [confirmMatches_iff] at hm
  refine h x ?_ hm.2.2.1
  rw [mem_activeOfPair]
  exact ⟨hx, hm.1, hm.2.1, by rw [hm.2.2.1]; exact isActive_pending⟩

/-- Claim C6, as stated, fails where the product
`time.Duration(ttlSeconds) * time.Second` overflows.  With the TTL of a
request with `booking_ttl_minutes = -13681335188`, read back as -9223372037
seconds, and the pair's one active booking Pending, created at second 5: at
second 10 the deadline `created_at + ttl` has long passed, the conditional
update transitions no row, and `Confirm` returns `ErrBookingNotFound`, not
`ErrBookingExpired`. -/
theorem confirm_failure_cause_counterexample :
    (storeCreateEvent "e1" (1 * second) sampleWrapRequest (some (1000 * second))
        sampleNoEvents).2.events.map (fun e => (e.id, e.requires_payment, e.booking_ttl))
      = [("e1", true, sampleWrapEvent.booking_ttl)] ∧
    findEvent sampleWrap "e1" = some sampleWrapEvent ∧
    activeOfPair sampleWrap "e1" "uA" = [sampleBooking] ∧
    sampleBooking.Status = BookingStatus.Pending ∧
    sampleBooking.CreatedAt + make_interval (epochSeconds sampleWrapEvent.booking_ttl)
      < 10 * second ∧
    sampleWrap.bookings.countP
      (confirmMatches "e1" "uA" (epochSeconds sampleWrapEvent.booking_ttl) (10 * second)) = 0 ∧
    BookingRepository.Confirm sampleWrap "e1" "uA" (10 * second) (10 * second)
      = (some Error.ErrBookingNotFound, sampleWrap) := by
  decide

/-- Claim C6, amended.  For an existing event, when the conditional update of
`BookingRepository.Confirm` transitions no row, the cause is named as
follows, and the store is left as it was: `ErrBookingNotFound` when the pair
has no active booking at all (none, or only Cancelled ones);
`ErrBookingNotPending` when the pair's active booking is Confirmed;
`ErrBookingExpired` when the pair's active booking is Pending and its
deadline `created_at + ttl` has passed (the clock of the follow-up check not
behind the clock of the update), the TTL being of at least -9223372036
seconds, so that the product `time.Duration(ttlSeconds) * time.Second` does
not wrap to a duration above it. -/
theorem confirm_failure_cause (s : Store) (eventID userID : String) (e : EventRow)
    (now nowApp : Time) (hE : findEvent s eventID = some e) :
    (activeOfPair s eventID userID = [] →
      BookingRepository.Confirm s eventID userID now nowApp
        = (some Error.ErrBookingNotFound, s)) ∧
    ((∀ x ∈ s.bookings, x.EventID = eventID → x.UserID = userID →
        x.Status = BookingStatus.Cancelled) →
      BookingRepository.Confirm s eventID userID now nowApp
        = (some Error.ErrBookingNotFound, s)) ∧
    (∀ b, activeOfPair s eventID userID = [b] → b.Status = BookingStatus.Confirmed →
      BookingRepository.Confirm s eventID userID now nowApp
        = (some Error.ErrBookingNotPending, s)) ∧
    (∀ b, activeOfPair s eventID userID = [b] → b.Status = BookingStatus.Pending →
      b.CreatedAt + make_interval (epochSeconds e.booking_ttl) < now → now ≤ nowApp →
      -9223372036 ≤ epochSeconds e.booking_ttl →
      BookingRepository.Confirm s eventID userID now nowApp
        = (some Error.ErrBookingExpired, s)) := by
  have hNone : activeOfPair s eventID userID = [] →
      BookingRepository.Confirm s eventID userID now nowApp
        = (some Error.ErrBookingNotFound, s) := by
    intro h
    have hz := confirm_rows_none_of_not_pending s eventID userID
      (epochSeconds e.booking_ttl) now (by rw [h]; intro x hx; cases hx)
    simp [BookingRepository.Confirm, hE, hz, h, latest]
  refine ⟨hNone, ?_, ?_, ?_⟩
  · intro hall
    apply hNone
    rw [List.eq_nil_iff_forall_not_mem]
    intro x hx
    rw [mem_activeOfPair] at hx
    have := hall x hx.1 hx.2.1 hx.2.2.1
    rw [this] at hx
    exact absurd hx.2.2.2 (by decide)
  · intro b hPair hC
    have hz := confirm_rows_none_of_not_pending s eventID userID
      (epochSeconds e.booking_ttl) now (by
        rw [hPair]; intro x hx
        rw [List.mem_singleton.mp hx, hC]; decide)
    simp [BookingRepository.Confirm, hE, hz, hPair, latest, hC]
  · intro b hPair hP hlt hclock hLo
    have hd := durationOfSeconds_le _ hLo
    have hlt2 : b.CreatedAt + epochSeconds e.booking_ttl * second < now := hlt
    exact Confirm_repo_expired s eventID userID e b now nowApp hE hPair hP hlt2
      (by linarith)

/-- Claim C6, amended, at the sample store with a confirmed, a cancelled and a
pending booking, at second 700: the three causes, one per user. -/
theorem confirm_failure_cause_witness :
    BookingRepository.Confirm sampleMixed "e1" "uB" (700 * second) (700 * second)
      = (some Error.ErrBookingNotFound, sampleMixed) ∧
    BookingRepository.Confirm sampleMixed "e1" "uA" (700 * second) (700 * second)
      = (some Error.ErrBookingNotPending, sampleMixed) ∧
    BookingRepository.Confirm sampleMixed "e1" "uC" (700 * second) (700 * second)
      = (some Error.ErrBookingExpired, sampleMixed) :=
  ⟨(confirm_failure_cause sampleMixed "e1" "uB" sampleEvent (700 * second) (700 * second)
      (by decide)).2.1 (by decide),
   (confirm_failure_cause sampleMixed "e1" "uA" sampleEvent (700 * second) (700 * second)
      (by decide)).2.2.1
      { ID := "b1", EventID := "e1", UserID := "uA", Status := BookingStatus.Confirmed,
        CreatedAt := 1 * second, UpdatedAt := 3 * second } (by decide) (by decide),
   (confirm_failure_cause sampleMixed "e1" "uC" sampleEvent (700 * second) (700 * second)
      (by decide)).2.2.2
      { ID := "b3", EventID := "e1", UserID := "uC", Status := BookingStatus.Pending,
        CreatedAt := 5 * second, UpdatedAt := 5 * second }
      (by decide) (by decide) (by decide) (by decide) (by decide)⟩

/-! ## Terminal states -/

theorem getElem?_map_fixed (l : List Booking) (f : Booking → Booking) (hf : PendingOnly f)
    (i : Nat) (b : Booking) (h : l[i]? = some b) (ht : b.Status ≠ BookingStatus.Pending) :
    (l.map f)[i]? = some b := by
  rw [List.getElem?_map, h, Option.map_some', pendingOnly_fixes f hf b ht]

theorem getElem?_step_fixed (s : Store) (op : Op) (i : Nat) (b : Booking)
    (h : s.bookings[i]? = some b) (ht : b.Status ≠ BookingStatus.Pending) :
    (step s op).bookings[i]? = some b := by
  rcases (step_frame s op).2.2 with ⟨f, hf, he⟩ | ⟨x, _, he⟩
  · rw [he]; exact getElem?_map_fixed _ f hf i b h ht
  · rw [he]
    have hi : i < s.bookings.length := by
      rcases Nat.lt_or_ge i s.bookings.length with hlt | hge
      · exact hlt
      · rw [List.getElem?_eq_none hge] at h; cases h
    rw [List.getElem?_append_left hi]; exact h

theorem getElem?_run_fixed (ops : List Op) :
    ∀ (s : Store) (i : Nat) (b : Booking), s.bookings[i]? = some b →
      b.Status ≠ BookingStatus.Pending → (run s ops).bookings[i]? = some b := by
  induction ops with
  | nil => intro s i b h _; exact h
  | cons op ops ih =>
    intro s i b h ht
    exact ih _ i b (getElem?_step_fixed s op i b h ht) ht

theorem eq_of_id_eq (s : Store) (h : IdsUnique s) (x y : Booking)
    (hx : x ∈ s.bookings) (hy : y ∈ s.bookings) (hid : x.ID = y.ID) : x = y :=
  List.inj_on_of_nodup_map h hx hy hid

theorem sweep_returned_from_pending (s : Store) (now : Time) (r : Booking)
    (hr : r ∈ (BookingRepository.CancelExpired s now).1) :
    ∃ x ∈ s.bookings, sweepMatches s now x = true ∧ x.Status = BookingStatus.Pending
      ∧ r = cancelRow now x := by
  simp only [BookingRepository.CancelExpired, List.mem_map, List.mem_filter] at hr
  obtain ⟨x, ⟨hx, hm⟩, hxr⟩ := hr
  refine ⟨x, hx, hm, ?_, hxr.symm⟩
  simp only [sweepMatches, Bool.and_eq_true, beq_iff_eq] at hm
  exact hm.1

theorem latest_mem (l : List Booking) (b : Booking) (h : latest l = some b) : b ∈ l := by
  induction l generalizing b with
  | nil => cases h
  | cons a rest ih =>
    simp only [latest] at h
    cases hr : latest rest with
    | none =>
      rw [hr] at h
      cases h
      exact List.mem_cons_self _ _
    | some x =>
      rw [hr] at h
      simp only at h
      split at h
      · cases h; exact List.mem_cons_of_mem _ (ih _ hr)
      · cases h; exact List.mem_cons_self _ _

/-- Claim C7.  Terminal states are absorbing.  Let `b` be the booking in row
`i` of the store, with status Confirmed or Cancelled.  Then every `Confirm`
of the repository (any arguments, any instant) and every sweep leaves row `i`
as it is, status and `updated_at` included, and the sweep returns no record
with the identifier of `b`; a `Confirm`, of the repository or of the service,
for a pair whose bookings are all terminal fails and writes nothing; and over
every sequence of `Book`, `Confirm` and sweep requests row `i` stays `b`, so
that, identifiers being unique, every later record with the identifier of
`b` is `b` itself: no booking is Confirmed at one time and Cancelled at
another. -/
theorem terminal_absorbing (s : Store) (i : Nat) (b : Booking)
    (hb : s.bookings[i]? = some b)
    (ht : b.Status = BookingStatus.Confirmed ∨ b.Status = BookingStatus.Cancelled)
    (hIds : IdsUnique s) :
    (∀ eventID userID now nowApp,
      (BookingRepository.Confirm s eventID userID now nowApp).2.bookings[i]? = some b) ∧
    (∀ now, (BookingRepository.CancelExpired s now).2.bookings[i]? = some b ∧
      ∀ r ∈ (BookingRepository.CancelExpired s now).1, r.ID ≠ b.ID) ∧
    (∀ eventID userID nowSvc now nowApp,
      (∀ x ∈ s.bookings, x.EventID = eventID → x.UserID = userID →
        x.Status = BookingStatus.Confirmed ∨ x.Status = BookingStatus.Cancelled) →
      (BookingRepository.Confirm s eventID userID now nowApp).1 ≠ none ∧
      (BookingRepository.Confirm s eventID userID now nowApp).2 = s ∧
      (∃ err, (BookingService.Confirm (storePorts now nowApp) eventID userID nowSvc s).result
          = Except.error err) ∧
      (BookingService.Confirm (storePorts now nowApp) eventID userID nowSvc s).state = s) ∧
    (∀ ops, (run s ops).bookings[i]? = some b ∧
      ∀ x ∈ (run s ops).bookings, x.ID = b.ID → x = b) := by
  have htp : b.Status ≠ BookingStatus.Pending := by
    rcases ht with h | h <;> rw [h] <;> decide
  have hmem : b ∈ s.bookings := List.getElem?_mem hb
  refine ⟨?_, ?_, ?_, ?_⟩
  · intro eventID userID now nowApp
    rcases Confirm_shape s eventID userID now nowApp with h | ⟨e, _, h⟩
    · rw [h]; exact hb
    · rw [h]; exact getElem?_map_fixed _ _ (pendingOnly_confirm _ _ _ _) i b hb htp
  · intro now
    refine ⟨getElem?_map_fixed _ _ (pendingOnly_sweep s now) i b hb htp, ?_⟩
    intro r hr hid
    obtain ⟨x, hx, _, hxp, hxr⟩ := sweep_returned_from_pending s now r hr
    have hxid : x.ID = b.ID := by rw [← hid, hxr]; rfl
    have := eq_of_id_eq s hIds x b hx hmem hxid
    rw [this] at hxp
    exact htp hxp
  · intro eventID userID nowSvc now nowApp hall
    have hact : ∀ x ∈ activeOfPair s eventID userID, x.Status ≠ BookingStatus.Pending := by
      intro x hx
      rw [mem_activeOfPair] at hx
      rcases hall x hx.1 hx.2.1 hx.2.2.1 with h | h <;> rw [h] <;> decide
    have hrepo : (BookingRepository.Confirm s eventID userID now nowApp).1 ≠ none ∧
        (BookingRepository.Confirm s eventID userID now nowApp).2 = s := by
      unfold BookingRepository.Confirm
      cases hE : findEvent s eventID with
      | none => simp
      | some e =>
        have hz := confirm_rows_none_of_not_pending s eventID userID
          (epochSeconds e.booking_ttl) now hact
        simp only [hz, if_true]
        cases hl : latest (activeOfPair s eventID userID) with
        | none => simp
        | some found =>
          have := hact found (latest_mem _ _ hl)
          simp [this]
    refine ⟨hrepo.1, hrepo.2, ?_⟩
    unfold BookingService.Confirm
    simp only [storePorts]
    cases EventRepository.GetByID s eventID with
    | error err => exact ⟨⟨_, rfl⟩, rfl⟩
    | ok event =>
      simp only
      split
      · exact ⟨⟨_, rfl⟩, rfl⟩
      · unfold BookingRepository.GetByEventAndUser
        cases hl : latest (activeOfPair s eventID userID) with
        | none => exact ⟨⟨_, rfl⟩, rfl⟩
        | some found =>
          have := hact found (latest_mem _ _ hl)
          simp only [this, ne_eq, not_false_eq_true, if_true]
          exact ⟨⟨_, rfl⟩, trivial⟩
  · intro ops
    have hrow := getElem?_run_fixed ops s i b hb htp
    refine ⟨hrow, ?_⟩
    intro x hx hid
    exact eq_of_id_eq _ (idsUnique_run ops s hIds) x b hx (List.getElem?_mem hrow) hid

/-- Claim C7 at the sample store with a confirmed booking in row 0: after a
`Confirm` for its pair, a sweep at second 700 and a further `Book`, row 0 is
the same record. -/
theorem terminal_absorbing_witness :
    (run sampleMixed
        [Op.Confirm "e1" "uA" (9 * second) (9 * second) (9 * second),
         Op.Sweep (700 * second),
         Op.Book "e1" "uB" "b4" (701 * second) (701 * second)]).bookings[0]?
      = some { ID := "b1", EventID := "e1", UserID := "uA",
               Status := BookingStatus.Confirmed,
               CreatedAt := 1 * second, UpdatedAt := 3 * second } :=
  ((terminal_absorbing sampleMixed 0
      { ID := "b1", EventID := "e1", UserID := "uA", Status := BookingStatus.Confirmed,
        CreatedAt := 1 * second, UpdatedAt := 3 * second }
      (by decide) (by decide) (by unfold IdsUnique; decide)).2.2.2 _).1

/-! ## An expired confirmation -/

/-- Claim C8, as stated, fails: the pending booking of the sample store was
created at second 5 with a TTL of ten minutes; a `Confirm` at second 700, of
the service or of the repository, leaves the table as it was, the booking
still Pending, while a sweep at that instant does cancel it. -/
theorem expired_confirm_cancels_counterexample :
    sampleBooking.CreatedAt + (scanEvent sampleEvent).BookingTTL < 700 * second ∧
    sampleBooking.Status = BookingStatus.Pending ∧
    (BookingService.Confirm (storePorts (700 * second) (700 * second)) "e1" "uA"
        (700 * second) sampleStore).state.bookings = [sampleBooking] ∧
    (BookingRepository.Confirm sampleStore "e1" "uA" (700 * second) (700 * second)).2.bookings
        = [sampleBooking] ∧
    (BookingRepository.CancelExpired sampleStore (700 * second)).2.bookings
        = [{ sampleBooking with
             Status := BookingStatus.Cancelled, UpdatedAt := 700 * second }] := by
  decide

/-- Past 9223372036 seconds the product
`time.Duration(ttlSeconds) * time.Second` wraps to a negative duration.  With
the TTL of a request with `booking_ttl_minutes = 13681335188`, five seconds
after the creation of the pending booking the TTL the event carries has
elapsed and `Confirm` of the service fails with `ErrBookingExpired`, writing
nothing, while `Confirm` of the repository at that instant confirms the
booking.  Below -9223372036 seconds the product wraps to a positive duration.
With the TTL of `booking_ttl_minutes = -13681335188` the TTL as stored has
elapsed at that instant, and `Confirm` of the service fails with
`ErrBookingNotFound`, writing nothing. -/
theorem expired_confirm_wrap :
    sampleBooking.CreatedAt + sampleWrapEvent.booking_ttl < 10 * second ∧
    (BookingService.Confirm (storePorts (10 * second) (10 * second)) "e1" "uA"
        (10 * second) sampleWrap).result
      = Except.error (Error.wrap "confirm booking" Error.ErrBookingNotFound) ∧
    (BookingService.Confirm (storePorts (10 * second) (10 * second)) "e1" "uA"
        (10 * second) sampleWrap).state = sampleWrap ∧
    sampleBooking.CreatedAt + (scanEvent sampleWrapUpEvent).BookingTTL < 10 * second ∧
    (BookingService.Confirm (storePorts (10 * second) (10 * second)) "e1" "uA"
        (10 * second) sampleWrapUp).result = Except.error Error.ErrBookingExpired ∧
    (BookingService.Confirm (storePorts (10 * second) (10 * second)) "e1" "uA"
        (10 * second) sampleWrapUp).state = sampleWrapUp ∧
    BookingRepository.Confirm sampleWrapUp "e1" "uA" (10 * second) (10 * second)
      = (none, { sampleWrapUp with bookings := [confirmRow (10 * second) sampleBooking] }) :=
  ⟨by decide, by rfl, by decide, by decide, by rfl, by decide, by decide⟩

/-- Claim C8, amended.  A `Confirm` attempt on a Pending booking whose TTL has
elapsed (`now > created_at + ttl`, the booking being the pair's one active
booking on a payment-required event, the TTL in whole seconds lying within
9223372036 either way, so that the product
`time.Duration(ttlSeconds) * time.Second` does not overflow and the TTL the
event carries is the interval of the update) fails with `ErrBookingExpired`
and writes nothing, so the booking stays Pending; it is the sweep that moves
such a booking, once `created_at + booking_ttl < now`, to Cancelled. -/
theorem expired_confirm_leaves_pending (s : Store) (eventID userID : String)
    (e : EventRow) (b : Booking) (now : Time)
    (hE : findEvent s eventID = some e) (hPay : e.requires_payment = true)
    (hPair : activeOfPair s eventID userID = [b]) (hP : b.Status = BookingStatus.Pending)
    (hLo : -9223372036 ≤ epochSeconds e.booking_ttl)
    (hHi : epochSeconds e.booking_ttl ≤ 9223372036) :
    (b.CreatedAt + (scanEvent e).BookingTTL < now →
      (BookingService.Confirm (storePorts now now) eventID userID now s).result
          = Except.error Error.ErrBookingExpired ∧
      (BookingService.Confirm (storePorts now now) eventID userID now s).state = s ∧
      BookingRepository.Confirm s eventID userID now now
          = (some Error.ErrBookingExpired, s) ∧
      b ∈ s.bookings) ∧
    (b.CreatedAt + e.booking_ttl < now →
      cancelRow now b ∈ (BookingRepository.CancelExpired s now).1 ∧
      cancelRow now b ∈ (BookingRepository.CancelExpired s now).2.bookings ∧
      (cancelRow now b).Status = BookingStatus.Cancelled) ∧
    (scanEvent e).BookingTTL = make_interval (epochSeconds e.booking_ttl) := by
  have hb : b ∈ activeOfPair s eventID userID := by rw [hPair]; exact List.mem_singleton_self b
  rw [mem_activeOfPair] at hb
  refine ⟨?_, ?_, scanEvent_BookingTTL e hLo hHi⟩
  · intro hlt
    have hS := (Confirm_service_pending s eventID userID e b now now now hE hPay hPair hP).1 hlt
    have hlt2 : b.CreatedAt + durationOfSeconds (epochSeconds e.booking_ttl) < now := hlt
    have hd := durationOfSeconds_ge _ hHi
    exact ⟨hS.1, hS.2.1,
      Confirm_repo_expired s eventID userID e b now now hE hPair hP (by linarith)
        (by linarith), hb.1⟩
  · intro hlt
    have hm : sweepMatches s now b = true := by
      simp only [sweepMatches, Bool.and_eq_true, beq_iff_eq, List.any_eq_true,
        decide_eq_true_eq]
      refine ⟨hP, e, List.mem_of_find?_eq_some hE, ?_, hlt⟩
      rw [findEvent_id s eventID e hE]; exact hb.2.1
    refine ⟨?_, ?_, rfl⟩
    · simp only [BookingRepository.CancelExpired, List.mem_map, List.mem_filter]
      exact ⟨b, ⟨hb.1, hm⟩, rfl⟩
    · simp only [BookingRepository.CancelExpired, List.mem_map]
      exact ⟨b, hb.1, by simp [hm]⟩

/-- Claim C8, amended, at the sample store and second 700. -/
theorem expired_confirm_leaves_pending_witness :
    BookingRepository.Confirm sampleStore "e1" "uA" (700 * second) (700 * second)
        = (some Error.ErrBookingExpired, sampleStore) ∧
    cancelRow (700 * second) sampleBooking
        ∈ (BookingRepository.CancelExpired sampleStore (700 * second)).1 :=
  have h := expired_confirm_leaves_pending sampleStore "e1" "uA" sampleEvent sampleBooking
    (700 * second) (by decide) (by decide) (by decide) (by decide) (by decide) (by decide)
  ⟨(h.1 (by decide)).2.2.1, (h.2.1 (by decide)).1⟩

/-! ## The sweep -/

theorem sweepMatches_iff (s : Store) (now : Time) (b : Booking) :
    sweepMatches s now b = true ↔ SweepDue s now b := by
  simp only [sweepMatches, SweepDue, Bool.and_eq_true, beq_iff_eq, List.any_eq_true,
    decide_eq_true_eq]
  constructor
  · rintro ⟨hp, e, he, hid, hlt⟩
    exact ⟨hp, e, he, hid.symm, hlt⟩
  · rintro ⟨hp, e, he, hid, hlt⟩
    exact ⟨hp, e, he, hid.symm, hlt⟩

/-- Claim C9.  For every store and instant `now`, `CancelExpired` rewrites
row by row: a booking that is Pending with `created_at + booking_ttl < now`
(strictly, the TTL being that of the booking's own event) becomes Cancelled
with `updated_at = now`, and every other booking, Confirmed, Cancelled, or
Pending with `created_at + booking_ttl ≥ now`, stays as it is; the events and
users are untouched.  The returned records are exactly the transitioned ones,
one per transitioned row, each with status Cancelled. -/
theorem sweep_exact (s : Store) (now : Time) :
    (BookingRepository.CancelExpired s now).2.events = s.events ∧
    (BookingRepository.CancelExpired s now).2.users = s.users ∧
    (BookingRepository.CancelExpired s now).2.bookings.length = s.bookings.length ∧
    (∀ (i : Nat) (b : Booking), s.bookings[i]? = some b →
      (SweepDue s now b →
        (BookingRepository.CancelExpired s now).2.bookings[i]?
          = some { b with Status := BookingStatus.Cancelled, UpdatedAt := now }) ∧
      (¬ SweepDue s now b →
        (BookingRepository.CancelExpired s now).2.bookings[i]? = some b)) ∧
    (∀ (i : Nat) (b : Booking), s.bookings[i]? = some b →
      (b.Status = BookingStatus.Confirmed ∨ b.Status = BookingStatus.Cancelled ∨
        (b.Status = BookingStatus.Pending ∧
          ∀ e ∈ s.events, e.id = b.EventID → b.CreatedAt + e.booking_ttl ≥ now)) →
      (BookingRepository.CancelExpired s now).2.bookings[i]? = some b) ∧
    (∀ r, r ∈ (BookingRepository.CancelExpired s now).1 ↔
      ∃ b ∈ s.bookings, SweepDue s now b ∧
        r = { b with Status := BookingStatus.Cancelled, UpdatedAt := now }) ∧
    (∀ r ∈ (BookingRepository.CancelExpired s now).1, r.Status = BookingStatus.Cancelled) ∧
    (BookingRepository.CancelExpired s now).1.length
      = s.bookings.countP (sweepMatches s now) := by
  have hrow : ∀ (i : Nat) (b : Booking), s.bookings[i]? = some b →
      (SweepDue s now b →
        (BookingRepository.CancelExpired s now).2.bookings[i]?
          = some { b with Status := BookingStatus.Cancelled, UpdatedAt := now }) ∧
      (¬ SweepDue s now b →
        (BookingRepository.CancelExpired s now).2.bookings[i]? = some b) := by
    intro i b hb
    simp only [BookingRepository.CancelExpired, List.getElem?_map, hb, Option.map_some']
    constructor
    · intro hd
      rw [if_pos ((sweepMatches_iff s now b).mpr hd)]; rfl
    · intro hd
      have : ¬ sweepMatches s now b = true := fun h => hd ((sweepMatches_iff s now b).mp h)
      rw [if_neg this]
  refine ⟨rfl, rfl, ?_, hrow, ?_, ?_, ?_, ?_⟩
  · simp [BookingRepository.CancelExpired]
  · intro i b hb hcase
    apply (hrow i b hb).2
    rintro ⟨hp, e, he, hid, hlt⟩
    rcases hcase with h | h | ⟨_, h⟩
    · rw [hp] at h; cases h
    · rw [hp] at h; cases h
    · have := h e he hid
      exact absurd hlt (not_lt.mpr this)
  · intro r
    simp only [BookingRepository.CancelExpired, List.mem_map, List.mem_filter]
    constructor
    · rintro ⟨b, ⟨hb, hm⟩, hr⟩
      exact ⟨b, hb, (sweepMatches_iff s now b).mp hm, hr.symm⟩
    · rintro ⟨b, hb, hd, hr⟩
      exact ⟨b, ⟨hb, (sweepMatches_iff s now b).mpr hd⟩, hr.symm⟩
  · intro r hr
    simp only [BookingRepository.CancelExpired, List.mem_map] at hr
    obtain ⟨b, _, hbr⟩ := hr
    rw [← hbr]; rfl
  · simp [BookingRepository.CancelExpired, List.countP_eq_length_filter]

/-! ## Sweep idempotence -/

theorem sweepMatches_events (s t : Store) (h : t.events = s.events) (now : Time)
    (b : Booking) : sweepMatches t now b = sweepMatches s now b := by
  simp only [sweepMatches, h]

theorem sweep_after_sweep_matches (s : Store) (now : Time) :
    ∀ x ∈ (BookingRepository.CancelExpired s now).2.bookings,
      sweepMatches (BookingRepository.CancelExpired s now).2 now x = false := by
  intro x hx
  rw [sweepMatches_events s (BookingRepository.CancelExpired s now).2 rfl]
  simp only [BookingRepository.CancelExpired, List.mem_map] at hx
  obtain ⟨b, _, hbx⟩ := hx
  by_cases hm : sweepMatches s now b = true
  · rw [if_pos hm] at hbx
    rw [← hbx]
    simp [sweepMatches, cancelRow]
  · rw [if_neg hm] at hbx
    rw [← hbx]
    simpa using hm

/-- Claim C10.  Running `CancelExpired` twice in immediate succession at the
same instant makes the second run return the empty list and leave the store
as the first run left it.  More generally, identifiers being unique, a
booking returned by one sweep is never returned again by a sweep at any later
point of any sequence of `Book`, `Confirm` and sweep requests. -/
theorem sweep_idempotent (s : Store) (now : Time) :
    BookingRepository.CancelExpired (BookingRepository.CancelExpired s now).2 now
      = ([], (BookingRepository.CancelExpired s now).2) ∧
    (IdsUnique s → ∀ r ∈ (BookingRepository.CancelExpired s now).1,
      ∀ (ops : List Op) (later : Time),
        ∀ r2 ∈ (BookingRepository.CancelExpired
                  (run (BookingRepository.CancelExpired s now).2 ops) later).1,
          r2.ID ≠ r.ID) := by
  constructor
  · have hno := sweep_after_sweep_matches s now
    have hf : List.filter (sweepMatches (BookingRepository.CancelExpired s now).2 now)
        (BookingRepository.CancelExpired s now).2.bookings = [] := by
      rw [List.filter_eq_nil_iff]
      intro x hx
      rw [hno x hx]; simp
    have hm : List.map
        (fun b => if sweepMatches (BookingRepository.CancelExpired s now).2 now b = true
          then cancelRow now b else b)
        (BookingRepository.CancelExpired s now).2.bookings
        = (BookingRepository.CancelExpired s now).2.bookings := by
      conv => rhs; rw [← List.map_id (BookingRepository.CancelExpired s now).2.bookings]
      apply List.map_congr_left
      intro x hx
      rw [hno x hx]; simp
    show ((List.filter _ _).map _, _) = _
    rw [hf]
    simp only [List.map_nil, Prod.mk.injEq, true_and]
    cases hS : (BookingRepository.CancelExpired s now).2 with
    | mk ev us bs =>
      rw [hS] at hm
      simp only [Store.mk.injEq, true_and]
      exact hm
  · intro hIds r hr ops later r2 hr2 hid
    have hS : (BookingRepository.CancelExpired s now).2 = step s (Op.Sweep now) := by
      simp only [step]; rw [CancelExpired_service_state]
    obtain ⟨x, hx, hxm, _, hxr⟩ := sweep_returned_from_pending s now r hr
    have hr1 : r ∈ (BookingRepository.CancelExpired s now).2.bookings := by
      simp only [BookingRepository.CancelExpired, List.mem_map]
      exact ⟨x, hx, by rw [if_pos hxm]; exact hxr.symm⟩
    have hrT : r.Status ≠ BookingStatus.Pending := by
      rw [hxr]; simp [cancelRow]
    have hIds1 : IdsUnique (BookingRepository.CancelExpired s now).2 := by
      rw [hS]; exact idsUnique_step s _ hIds
    have hr2mem := terminal_run ops _ r hr1 hrT
    have hIds2 := idsUnique_run ops _ hIds1
    obtain ⟨y, hy, _, hyp, hyr⟩ := sweep_returned_from_pending _ later r2 hr2
    have hyid : y.ID = r.ID := by rw [← hid, hyr]; rfl
    have := eq_of_id_eq _ hIds2 y r hy hr2mem hyid
    rw [this] at hyp
    exact hrT hyp

/-- Claim C10 at the sample store: the sweep at second 700 returns the
expired booking, and a second sweep at that instant returns nothing. -/
theorem sweep_idempotent_witness :
    (BookingRepository.CancelExpired sampleStore (700 * second)).1
      = [cancelRow (700 * second) sampleBooking] ∧
    BookingRepository.CancelExpired
        (BookingRepository.CancelExpired sampleStore (700 * second)).2 (700 * second)
      = ([], (BookingRepository.CancelExpired sampleStore (700 * second)).2) :=
  ⟨by decide, (sweep_idempotent sampleStore (700 * second)).1⟩

/-! ## The scenario of one seat and two users -/

theorem sweepMatches_of_event (s : Store) (e : EventRow) (b : Booking) (now : Time)
    (he : e ∈ s.events) (hid : b.EventID = e.id)
    (hp : b.Status = BookingStatus.Pending) (hlt : b.CreatedAt + e.booking_ttl < now) :
    sweepMatches s now b = true := by
  simp only [sweepMatches, Bool.and_eq_true, beq_iff_eq, List.any_eq_true, decide_eq_true_eq]
  exact ⟨hp, e, he, hid, hlt⟩

/-- Claim C11.  An event with one seat, payment required and a TTL of ten
minutes, two existing users `A` and `B` (distinct or not), no booking in the
store, the identifier drawn for the last booking differing from the first.
`Book(A)` succeeds with a Pending booking; `Book(B)` then fails with an error
that is `ErrNoAvailableSpots`; the sweep run eleven minutes after the creation
of `A`'s booking returns exactly that booking, with status Cancelled; a
following `Book(B)` succeeds with a Pending booking. -/
theorem scenario_one_seat (s : Store) (eventID userA userB idA idB1 idB2 : String)
    (e : EventRow) (uA uB : User) (tA tA2 tB1 tB2 tB3 tB4 : Time)
    (hE : findEvent s eventID = some e)
    (hSpots : e.total_spots = 1) (hPay : e.requires_payment = true)
    (hTTL : e.booking_ttl = 10 * minute)
    (hA : findUser s userA = some uA) (hB : findUser s userB = some uB)
    (hEmpty : s.bookings = []) (hFresh : idB2 ≠ idA) :
    let bookedA : Booking :=
      { ID := idA, EventID := eventID, UserID := userA, Status := BookingStatus.Pending,
        CreatedAt := tA, UpdatedAt := tA2 }
    let bookedB : Booking :=
      { ID := idB2, EventID := eventID, UserID := userB, Status := BookingStatus.Pending,
        CreatedAt := tB3, UpdatedAt := tB4 }
    let o1 := BookingService.Book (storePorts tA tA) eventID userA idA tA tA2 s
    let o2 := BookingService.Book (storePorts tB1 tB1) eventID userB idB1 tB1 tB2 o1.state
    let o3 := BookingService.CancelExpired
      (storePorts (tA + 11 * minute) (tA + 11 * minute)) o2.state
    let o4 := BookingService.Book (storePorts tB3 tB3) eventID userB idB2 tB3 tB4 o3.state
    o1.result = Except.ok bookedA ∧
    o2.result = Except.error (Error.wrap "create booking" Error.ErrNoAvailableSpots) ∧
    Error.Is (Error.wrap "create booking" Error.ErrNoAvailableSpots)
      Error.ErrNoAvailableSpots = true ∧
    o3.result = Except.ok
      [{ bookedA with Status := BookingStatus.Cancelled, UpdatedAt := tA + 11 * minute }] ∧
    o4.result = Except.ok bookedB ∧
    o4.state.bookings =
      [{ bookedA with Status := BookingStatus.Cancelled, UpdatedAt := tA + 11 * minute },
       bookedB] := by
  intro bookedA bookedB o1 o2 o3 o4
  have hid := findEvent_id s eventID e hE
  have hmemE : e ∈ s.events := List.mem_of_find?_eq_some hE
  -- the record built for A, for B
  have hrA : bookedRecord e ⟨userA, idA, tA, tA2⟩ = bookedA := by
    simp [bookedRecord, hPay, hid, bookedA]
  have hrB1 : (bookedRecord e ⟨userB, idB1, tB1, tB2⟩).EventID = eventID := hid
  have hrB : bookedRecord e ⟨userB, idB2, tB3, tB4⟩ = bookedB := by
    simp [bookedRecord, hPay, hid, bookedB]
  -- first request
  have hC1 : BookingRepository.Create s bookedA
      = (none, { s with bookings := s.bookings ++ [bookedA] }) := by
    apply Create_inserted s bookedA e hE
    · simp [countActive, hEmpty, hSpots]
    · simp [uniqueViolation, hEmpty]
  have hO1 := Book_store_outcome s eventID ⟨userA, idA, tA, tA2⟩ tA tA e uA hE hA
  simp only [hrA, hC1] at hO1
  -- the store after the first request
  have hs1 : (BookingService.Book (storePorts tA tA) eventID userA idA tA tA2 s).state
      = { s with bookings := [bookedA] } := by
    rw [hO1, hEmpty]; rfl
  have hE1 : findEvent { s with bookings := [bookedA] } eventID = some e := hE
  have hC2 : BookingRepository.Create { s with bookings := [bookedA] }
        (bookedRecord e ⟨userB, idB1, tB1, tB2⟩)
      = (some Error.ErrNoAvailableSpots, { s with bookings := [bookedA] }) := by
    apply Create_full _ _ e (by rw [hrB1]; exact hE1)
    rw [hrB1]
    simp [countActive, hSpots, bookedA, isActive_pending]
  have hO2 := Book_store_outcome { s with bookings := [bookedA] } eventID
    ⟨userB, idB1, tB1, tB2⟩ tB1 tB1 e uB hE1 hB
  simp only [hC2] at hO2
  -- the sweep
  have hm : sweepMatches { s with bookings := [bookedA] } (tA + 11 * minute) bookedA = true := by
    apply sweepMatches_of_event _ e bookedA _ hmemE hid.symm rfl
    rw [hTTL]
    show tA + 10 * minute < tA + 11 * minute
    simp [minute, second]
  have hSw : BookingRepository.CancelExpired { s with bookings := [bookedA] } (tA + 11 * minute)
      = ([cancelRow (tA + 11 * minute) bookedA],
         { s with bookings := [cancelRow (tA + 11 * minute) bookedA] }) := by
    simp [BookingRepository.CancelExpired, hm]
  have hO3r : (BookingService.CancelExpired (storePorts (tA + 11 * minute) (tA + 11 * minute))
      { s with bookings := [bookedA] }).result
        = Except.ok [cancelRow (tA + 11 * minute) bookedA] := by
    simp [BookingService.CancelExpired, storePorts, hSw]
  have hO3s : (BookingService.CancelExpired (storePorts (tA + 11 * minute) (tA + 11 * minute))
      { s with bookings := [bookedA] }).state
        = { s with bookings := [cancelRow (tA + 11 * minute) bookedA] } := by
    rw [CancelExpired_service_state, hSw]
  -- the last request
  have hE3 : findEvent { s with bookings := [cancelRow (tA + 11 * minute) bookedA] } eventID
      = some e := hE
  have hC4 : BookingRepository.Create
        { s with bookings := [cancelRow (tA + 11 * minute) bookedA] } bookedB
      = (none, { s with bookings := [cancelRow (tA + 11 * minute) bookedA] ++ [bookedB] }) := by
    apply Create_inserted _ bookedB e hE3
    · simp [countActive, hSpots, cancelRow, isActive_cancelled]
    · simp [uniqueViolation, cancelRow, isActive_cancelled, bookedA, bookedB]
      exact fun h => hFresh h.symm
  have hO4 := Book_store_outcome { s with bookings := [cancelRow (tA + 11 * minute) bookedA] }
    eventID ⟨userB, idB2, tB3, tB4⟩ tB3 tB3 e uB hE3 hB
  simp only [hrB, hC4] at hO4
  have h1r : o1.result = Except.ok bookedA := by
    show (BookingService.Book (storePorts tA tA) eventID userA idA tA tA2 s).result = _
    rw [hO1]
  have h1s : o1.state = { s with bookings := [bookedA] } := hs1
  have h2 : o2 = ⟨Except.error (Error.wrap "create booking" Error.ErrNoAvailableSpots),
      { s with bookings := [bookedA] }, []⟩ := by
    show BookingService.Book (storePorts tB1 tB1) eventID userB idB1 tB1 tB2 o1.state = _
    rw [h1s, hO2]
  have h3r : o3.result = Except.ok [cancelRow (tA + 11 * minute) bookedA] := by
    show (BookingService.CancelExpired (storePorts (tA + 11 * minute) (tA + 11 * minute))
      o2.state).result = _
    rw [h2]; exact hO3r
  have h3s : o3.state = { s with bookings := [cancelRow (tA + 11 * minute) bookedA] } := by
    show (BookingService.CancelExpired (storePorts (tA + 11 * minute) (tA + 11 * minute))
      o2.state).state = _
    rw [h2]; exact hO3s
  have h4 : o4 = ⟨Except.ok bookedB,
      { s with bookings := [cancelRow (tA + 11 * minute) bookedA] ++ [bookedB] },
      [if e.requires_payment = true then Notification.BookingCreated uB (scanEvent e)
       else Notification.BookingConfirmed uB (scanEvent e)]⟩ := by
    show BookingService.Book (storePorts tB3 tB3) eventID userB idB2 tB3 tB4 o3.state = _
    rw [h3s, hO4]
  refine ⟨h1r, ?_, by decide, h3r, ?_, ?_⟩
  · rw [h2]
  · rw [h4]
  · rw [h4]; rfl

/-- Claim C11 at the single-seat sample event, users `uA` and `uB`, `uA`
booking at second 1. -/
theorem scenario_one_seat_witness :
    (BookingService.Book (storePorts (1 * second) (1 * second)) "e2" "uA" "b1"
        (1 * second) (1 * second) sampleSmallEmpty).result
      = Except.ok { ID := "b1", EventID := "e2", UserID := "uA",
                    Status := BookingStatus.Pending,
                    CreatedAt := 1 * second, UpdatedAt := 1 * second } :=
  (scenario_one_seat sampleSmallEmpty "e2" "uA" "uB" "b1" "b2" "b3" sampleSmallEvent
    { ID := "uA", Username := "alice", TelegramChatID := none, CreatedAt := 0 }
    { ID := "uB", Username := "bob", TelegramChatID := none, CreatedAt := 0 }
    (1 * second) (1 * second) (2 * second) (2 * second) (700 * second) (700 * second)
    (by decide) (by decide) (by decide) (by decide) (by decide) (by decide) (by decide)
    (by decide)).1

/-! ## `Book` through its ports -/

theorem Error_Is_wrap (m : String) (err target : Error) (h : Error.Is err target = true) :
    Error.Is (Error.wrap m err) target = true := by
  simp [Error.Is, h]

theorem Error_Is_self (err : Error) : Error.Is err err = true := by
  cases err <;> simp [Error.Is]

/-! ## `Confirm` through its ports -/

/-- Claim C13.  For an event that requires no payment, `BookingService.Confirm`
fails with an error that is `ErrValidation`; the event lookup is the only call
it makes, so no method of the booking store is invoked, and it dispatches no
notification.  On the store, every table is therefore left as it was. -/
theorem confirm_free_event_rejected {σ : Type} (p : Ports σ) (eventID userID : String)
    (now : Time) (s s1 : σ) (event : Event)
    (hEv : p.eventGetByID eventID s = (Except.ok event, s1))
    (hFree : event.RequiresPayment = false) :
    (BookingService.Confirm (traced p) eventID userID now (s, [])).result
      = Except.error (Error.wrap "this event does not require payment" Error.ErrValidation) ∧
    Error.Is (Error.wrap "this event does not require payment" Error.ErrValidation)
      Error.ErrValidation = true ∧
    (BookingService.Confirm (traced p) eventID userID now (s, [])).state
      = (s1, [Call.EventGetByID eventID]) ∧
    (BookingService.Confirm (traced p) eventID userID now (s, [])).dispatched = [] ∧
    (BookingService.Confirm p eventID userID now s).state = s1 ∧
    (∀ (st : Store) (e : EventRow) (nowDb nowApp : Time),
      findEvent st eventID = some e → e.requires_payment = false →
      (BookingService.Confirm (storePorts nowDb nowApp) eventID userID now st).state = st ∧
      (BookingService.Confirm (storePorts nowDb nowApp) eventID userID now st).result
        = Except.error
            (Error.wrap "this event does not require payment" Error.ErrValidation)) := by
  refine ⟨?_, by decide, ?_, ?_, ?_, ?_⟩
  · simp [BookingService.Confirm, traced, hEv, hFree]
  · simp [BookingService.Confirm, traced, hEv, hFree]
  · simp [BookingService.Confirm, traced, hEv, hFree]
  · simp [BookingService.Confirm, hEv, hFree]
  · intro st e nowDb nowApp hE hF
    have : (scanEvent e).RequiresPayment = false := hF
    simp [BookingService.Confirm, storePorts, EventRepository.GetByID, hE, this]

/-- Claim C13 on the free sample event, whose one booking stays as it is. -/
theorem confirm_free_event_rejected_witness :
    (BookingService.Confirm (traced (storePorts 9 9)) "e3" "uA" 9 (sampleFree, [])).state
      = (sampleFree, [Call.EventGetByID "e3"]) :=
  (confirm_free_event_rejected (storePorts 9 9) "e3" "uA" 9 sampleFree sampleFree
    (scanEvent sampleFreeEvent) rfl rfl).2.2.1

/-- For a payment-required event, the second call `BookingService.Confirm`
makes is the read `GetByEventAndUser`. -/
theorem Confirm_trace_prefix {σ : Type} (p : Ports σ) (eventID userID : String)
    (now : Time) (s s1 : σ) (event : Event)
    (hEv : p.eventGetByID eventID s = (Except.ok event, s1))
    (hPay : event.RequiresPayment = true) :
    ∃ rest, (BookingService.Confirm (traced p) eventID userID now (s, [])).state.2
      = Call.EventGetByID eventID :: Call.BookingGetByEventAndUser eventID userID :: rest := by
  rcases hG : p.bookingGetByEventAndUser eventID userID s1 with ⟨r, s2⟩
  cases r with
  | error err =>
    exact ⟨[], by simp [BookingService.Confirm, traced, hEv, hPay, hG]⟩
  | ok booking =>
    by_cases hP : booking.Status = BookingStatus.Pending
    · by_cases hT : now - booking.CreatedAt > event.BookingTTL
      · exact ⟨[], by simp [BookingService.Confirm, traced, hEv, hPay, hG, hP, hT]⟩
      · rcases hC : p.bookingConfirm eventID userID s2 with ⟨rc, s3⟩
        cases rc with
        | some err =>
          exact ⟨[Call.BookingConfirm eventID userID],
            by simp [BookingService.Confirm, traced, hEv, hPay, hG, hP, hT, hC]⟩
        | none =>
          rcases hU : p.userGetByID userID s3 with ⟨ru, s4⟩
          cases ru with
          | error err =>
            exact ⟨[Call.BookingConfirm eventID userID, Call.UserGetByID userID],
              by simp [BookingService.Confirm, traced, hEv, hPay, hG, hP, hT, hC, hU]⟩
          | ok user =>
            exact ⟨[Call.BookingConfirm eventID userID, Call.UserGetByID userID],
              by simp [BookingService.Confirm, traced, hEv, hPay, hG, hP, hT, hC, hU]⟩
    · exact ⟨[], by simp [BookingService.Confirm, traced, hEv, hPay, hG, hP]⟩

/-- Claim C14, evaluated on the ports of `TestBookingService_Confirm_Success`
(event lookup, `Confirm` of the store answering nil, user lookup) and of
`TestBookingService_Confirm_BookingNotPending` / `_Expired` (`Confirm` of the
store answering the error).  `BookingService.Confirm` first reads the booking
through `GetByEventAndUser`, a call those tests do not expect, and decides on
what that read returns.  When the read fails, `Confirm` of the store is never
called and the result is the error of the read, though the store would have
confirmed; when the read returns a Confirmed booking, the result is
`ErrBookingNotPending`, though the store would have confirmed; and when the
read returns a fresh Pending booking, the store's `ErrBookingExpired` does
come back, wrapped.  On all ports, for a payment-required event, the read
`GetByEventAndUser` is the second call made. -/
theorem confirm_reads_booking_first :
    (BookingService.Confirm
        (traced (mockPorts (Except.ok testEvent) (Except.ok testUser) none
          (Except.error Error.ErrBookingNotFound) none))
        "e1" "u1" 0 ((), [])).result
      = Except.error (Error.wrap "get booking" Error.ErrBookingNotFound) ∧
    (BookingService.Confirm
        (traced (mockPorts (Except.ok testEvent) (Except.ok testUser) none
          (Except.error Error.ErrBookingNotFound) none))
        "e1" "u1" 0 ((), [])).state
      = ((), [Call.EventGetByID "e1", Call.BookingGetByEventAndUser "e1" "u1"]) ∧
    (BookingService.Confirm
        (traced (mockPorts (Except.ok testEvent) (Except.ok testUser) none
          (Except.ok { ID := "b1", EventID := "e1", UserID := "u1",
                       Status := BookingStatus.Confirmed, CreatedAt := 0, UpdatedAt := 0 })
          none))
        "e1" "u1" 0 ((), [])).result
      = Except.error Error.ErrBookingNotPending ∧
    (BookingService.Confirm
        (traced (mockPorts (Except.ok testEvent) (Except.ok testUser) none
          (Except.ok { ID := "b1", EventID := "e1", UserID := "u1",
                       Status := BookingStatus.Pending, CreatedAt := 0, UpdatedAt := 0 })
          (some Error.ErrBookingExpired)))
        "e1" "u1" 0 ((), [])).result
      = Except.error (Error.wrap "confirm booking" Error.ErrBookingExpired) ∧
    (BookingService.Confirm
        (traced (mockPorts (Except.ok testEvent) (Except.ok testUser) none
          (Except.ok { ID := "b1", EventID := "e1", UserID := "u1",
                       Status := BookingStatus.Pending, CreatedAt := 0, UpdatedAt := 0 })
          none))
        "e1" "u1" 0 ((), [])).state
      = ((), [Call.EventGetByID "e1", Call.BookingGetByEventAndUser "e1" "u1",
              Call.BookingConfirm "e1" "u1", Call.UserGetByID "u1"]) ∧
    (∀ (σ : Type) (p : Ports σ) (eventID userID : String) (now : Time) (s s1 : σ)
        (event : Event),
      p.eventGetByID eventID s = (Except.ok event, s1) → event.RequiresPayment = true →
      ∃ rest, (BookingService.Confirm (traced p) eventID userID now (s, [])).state.2
        = Call.EventGetByID eventID :: Call.BookingGetByEventAndUser eventID userID
            :: rest) :=
  ⟨rfl, rfl, rfl, rfl, rfl,
    fun _ p eventID userID now s s1 event hEv hPay =>
      Confirm_trace_prefix p eventID userID now s s1 event hEv hPay⟩

/-! ## `Book`: lookups and notifications -/

/-- Claim C15.  When the event lookup reports an error that is
`ErrEventNotFound`, `Book` fails with an error that is `ErrEventNotFound`, and
when the event exists and the user lookup reports an error that is
`ErrUserNotFound`, with an error that is `ErrUserNotFound`.  In both cases the
lookups are the only calls made, so `Create` of the booking store is never
invoked; no booking is returned and no notification is dispatched. -/
theorem book_lookup_failures {σ : Type} (p : Ports σ) (eventID userID uuid : String)
    (nowC nowU : Time) (s : σ) :
    (∀ (err : Error) (s1 : σ),
      p.eventGetByID eventID s = (Except.error err, s1) →
      Error.Is err Error.ErrEventNotFound = true →
      (BookingService.Book (traced p) eventID userID uuid nowC nowU (s, [])).result
        = Except.error (Error.wrap "check event" err) ∧
      Error.Is (Error.wrap "check event" err) Error.ErrEventNotFound = true ∧
      (BookingService.Book (traced p) eventID userID uuid nowC nowU (s, [])).state
        = (s1, [Call.EventGetByID eventID]) ∧
      (BookingService.Book (traced p) eventID userID uuid nowC nowU (s, [])).dispatched
        = []) ∧
    (∀ (event : Event) (err : Error) (s1 s2 : σ),
      p.eventGetByID eventID s = (Except.ok event, s1) →
      p.userGetByID userID s1 = (Except.error err, s2) →
      Error.Is err Error.ErrUserNotFound = true →
      (BookingService.Book (traced p) eventID userID uuid nowC nowU (s, [])).result
        = Except.error (Error.wrap "check user" err) ∧
      Error.Is (Error.wrap "check user" err) Error.ErrUserNotFound = true ∧
      (BookingService.Book (traced p) eventID userID uuid nowC nowU (s, [])).state
        = (s2, [Call.EventGetByID eventID, Call.UserGetByID userID]) ∧
      (BookingService.Book (traced p) eventID userID uuid nowC nowU (s, [])).dispatched
        = []) := by
  constructor
  · intro err s1 hEv hIs
    refine ⟨?_, Error_Is_wrap _ _ _ hIs, ?_, ?_⟩ <;>
      simp [BookingService.Book, traced, hEv]
  · intro event err s1 s2 hEv hUs hIs
    refine ⟨?_, Error_Is_wrap _ _ _ hIs, ?_, ?_⟩ <;>
      simp [BookingService.Book, traced, hEv, hUs]

/-- Claim C15 on the store: a `Book` of a user that is not registered. -/
theorem book_lookup_failures_witness :
    (BookingService.Book (traced (storePorts 1 1)) "e1" "nobody" "b9" 1 1
        (sampleStore, [])).result
      = Except.error (Error.wrap "check user" Error.ErrUserNotFound) ∧
    (BookingService.Book (traced (storePorts 1 1)) "e1" "nobody" "b9" 1 1
        (sampleStore, [])).state
      = (sampleStore, [Call.EventGetByID "e1", Call.UserGetByID "nobody"]) :=
  have h := (book_lookup_failures (storePorts 1 1) "e1" "nobody" "b9" 1 1 sampleStore).2
    (scanEvent sampleEvent) Error.ErrUserNotFound sampleStore sampleStore rfl rfl (by decide)
  ⟨h.1, h.2.2.1⟩

/-- Claim C16.  `Book` dispatches exactly one notification on every success:
`NotifyBookingCreated(user, event)` if the event requires payment, otherwise
`NotifyBookingConfirmed(user, event)`, with the user and the event the lookups
returned.  On every failure it dispatches none; in particular, when `Create`
of the store returns `ErrNoAvailableSpots`, the error returned is
`ErrNoAvailableSpots` and nothing is dispatched. -/
theorem book_notifications {σ : Type} (p : Ports σ) (eventID userID uuid : String)
    (nowC nowU : Time) (s : σ) :
    (∀ b, (BookingService.Book p eventID userID uuid nowC nowU s).result = Except.ok b →
      ∃ event user s1 s2,
        p.eventGetByID eventID s = (Except.ok event, s1) ∧
        p.userGetByID userID s1 = (Except.ok user, s2) ∧
        (event.RequiresPayment = true →
          (BookingService.Book p eventID userID uuid nowC nowU s).dispatched
            = [Notification.BookingCreated user event]) ∧
        (event.RequiresPayment = false →
          (BookingService.Book p eventID userID uuid nowC nowU s).dispatched
            = [Notification.BookingConfirmed user event])) ∧
    (∀ err, (BookingService.Book p eventID userID uuid nowC nowU s).result
        = Except.error err →
      (BookingService.Book p eventID userID uuid nowC nowU s).dispatched = []) ∧
    (∀ (event : Event) (user : User) (s1 s2 s3 : σ),
      p.eventGetByID eventID s = (Except.ok event, s1) →
      p.userGetByID userID s1 = (Except.ok user, s2) →
      (∀ b, p.bookingCreate b s2 = (some Error.ErrNoAvailableSpots, s3)) →
      (BookingService.Book p eventID userID uuid nowC nowU s).result
        = Except.error (Error.wrap "create booking" Error.ErrNoAvailableSpots) ∧
      Error.Is (Error.wrap "create booking" Error.ErrNoAvailableSpots)
        Error.ErrNoAvailableSpots = true ∧
      (BookingService.Book p eventID userID uuid nowC nowU s).dispatched = []) := by
  refine ⟨?_, ?_, ?_⟩
  · intro b hres
    rcases hEv : p.eventGetByID eventID s with ⟨r1, s1⟩
    cases r1 with
    | error err => simp [BookingService.Book, hEv] at hres
    | ok event =>
      rcases hUs : p.userGetByID userID s1 with ⟨r2, s2⟩
      cases r2 with
      | error err => simp [BookingService.Book, hEv, hUs] at hres
      | ok user =>
        refine ⟨event, user, s1, s2, rfl, hUs, ?_, ?_⟩
        · intro hp
          simp only [BookingService.Book, hEv, hUs] at hres ⊢
          split
          · rename_i hC; rw [hC] at hres; simp at hres
          · simp [hp]
        · intro hp
          simp only [BookingService.Book, hEv, hUs] at hres ⊢
          split
          · rename_i hC; rw [hC] at hres; simp at hres
          · simp [hp]
  · intro err hres
    rcases hEv : p.eventGetByID eventID s with ⟨r1, s1⟩
    cases r1 with
    | error e1 => simp [BookingService.Book, hEv]
    | ok event =>
      rcases hUs : p.userGetByID userID s1 with ⟨r2, s2⟩
      cases r2 with
      | error e2 => simp [BookingService.Book, hEv, hUs]
      | ok user =>
        simp only [BookingService.Book, hEv, hUs] at hres ⊢
        split
        · rfl
        · rename_i hC
          rw [hC] at hres
          simp only at hres
          split at hres <;> simp at hres
  · intro event user s1 s2 s3 hEv hUs hCr
    simp [BookingService.Book, hEv, hUs, hCr, Error.Is]

/-- Claim C16 on the ports of `TestBookingService_Book_CreateError`: `Create`
answers `ErrNoAvailableSpots`, and nothing is dispatched. -/
theorem book_notifications_witness :
    (BookingService.Book
        (mockPorts (Except.ok testEvent) (Except.ok testUser)
          (some Error.ErrNoAvailableSpots) (Except.error Error.ErrBookingNotFound) none)
        "e1" "u1" "b1" 0 0 ()).result
      = Except.error (Error.wrap "create booking" Error.ErrNoAvailableSpots) ∧
    (BookingService.Book
        (mockPorts (Except.ok testEvent) (Except.ok testUser)
          (some Error.ErrNoAvailableSpots) (Except.error Error.ErrBookingNotFound) none)
        "e1" "u1" "b1" 0 0 ()).dispatched = [] :=
  have h := (book_notifications
    (mockPorts (Except.ok testEvent) (Except.ok testUser)
      (some Error.ErrNoAvailableSpots) (Except.error Error.ErrBookingNotFound) none)
    "e1" "u1" "b1" 0 0 ()).2.2 testEvent testUser () () () rfl rfl (fun _ => rfl)
  ⟨h.1, h.2.2⟩

/-! ## Bookings are only transitioned -/

theorem getElem?_map_pendingOnly (l : List Booking) (f : Booking → Booking)
    (i : Nat) (b : Booking) (h : l[i]? = some b) :
    (l.map f)[i]? = some (f b) := by
  rw [List.getElem?_map, h, Option.map_some']

/-- Claim C17.  Bookings are only status-transitioned.  After every `Confirm`
and every `CancelExpired` of the repository the table has the same number of
rows, and the booking of every row is still in that row with the same `id`,
`event_id`, `user_id` and `created_at`: either it is unchanged, or it was
Pending and now differs in `status` (Confirmed after `Confirm`, Cancelled
after the sweep) and `updated_at` only.  Events and users are untouched. -/
theorem bookings_only_transitioned (s : Store) :
    (∀ eventID userID now nowApp,
      (BookingRepository.Confirm s eventID userID now nowApp).2.events = s.events ∧
      (BookingRepository.Confirm s eventID userID now nowApp).2.users = s.users ∧
      (BookingRepository.Confirm s eventID userID now nowApp).2.bookings.length
        = s.bookings.length ∧
      ∀ (i : Nat) (b : Booking), s.bookings[i]? = some b →
        ∃ b2, (BookingRepository.Confirm s eventID userID now nowApp).2.bookings[i]?
            = some b2 ∧
          b2.ID = b.ID ∧ b2.EventID = b.EventID ∧ b2.UserID = b.UserID ∧
          b2.CreatedAt = b.CreatedAt ∧
          (b2 = b ∨
            (b.Status = BookingStatus.Pending ∧
              b2 = { b with Status := BookingStatus.Confirmed, UpdatedAt := now }))) ∧
    (∀ now,
      (BookingRepository.CancelExpired s now).2.events = s.events ∧
      (BookingRepository.CancelExpired s now).2.users = s.users ∧
      (BookingRepository.CancelExpired s now).2.bookings.length = s.bookings.length ∧
      ∀ (i : Nat) (b : Booking), s.bookings[i]? = some b →
        ∃ b2, (BookingRepository.CancelExpired s now).2.bookings[i]? = some b2 ∧
          b2.ID = b.ID ∧ b2.EventID = b.EventID ∧ b2.UserID = b.UserID ∧
          b2.CreatedAt = b.CreatedAt ∧
          (b2 = b ∨
            (b.Status = BookingStatus.Pending ∧
              b2 = { b with Status := BookingStatus.Cancelled, UpdatedAt := now }))) := by
  constructor
  · intro eventID userID now nowApp
    rcases Confirm_shape s eventID userID now nowApp with h | ⟨e, _, h⟩
    · rw [h]
      exact ⟨rfl, rfl, rfl, fun i b hb => ⟨b, hb, rfl, rfl, rfl, rfl, Or.inl rfl⟩⟩
    · rw [h]
      refine ⟨rfl, rfl, by simp, ?_⟩
      intro i b hb
      refine ⟨_, getElem?_map_pendingOnly _ _ i b hb, ?_⟩
      by_cases hm : confirmMatches eventID userID (epochSeconds e.booking_ttl) now b = true
      · have hp := ((confirmMatches_iff _ _ _ _ _).mp hm).2.2.1
        try dsimp only
        rw [if_pos hm]
        exact ⟨rfl, rfl, rfl, rfl, Or.inr ⟨hp, rfl⟩⟩
      · try dsimp only
        rw [if_neg hm]
        exact ⟨rfl, rfl, rfl, rfl, Or.inl rfl⟩
  · intro now
    refine ⟨rfl, rfl, by simp [BookingRepository.CancelExpired], ?_⟩
    intro i b hb
    refine ⟨_, getElem?_map_pendingOnly _ _ i b hb, ?_⟩
    by_cases hm : sweepMatches s now b = true
    · have hp : b.Status = BookingStatus.Pending := ((sweepMatches_iff s now b).mp hm).1
      try dsimp only
      rw [if_pos hm]
      exact ⟨rfl, rfl, rfl, rfl, Or.inr ⟨hp, rfl⟩⟩
    · try dsimp only
      rw [if_neg hm]
      exact ⟨rfl, rfl, rfl, rfl, Or.inl rfl⟩

/-! ## Event details -/

/-- Claim C18.  For an existing event, on one snapshot of the store,
`GetDetails` reports `AvailableSpots = total_spots - count` of the event's
Pending or Confirmed bookings, and its `Bookings` are exactly what
`ListByEvent` returns, the event's active bookings in table order, as many as
were counted; so `AvailableSpots + len(Bookings) = TotalSpots`. -/
theorem get_details_available_spots (s : Store) (id : String) (e : EventRow)
    (hE : findEvent s id = some e) :
    ∃ d, storeGetDetails s id = Except.ok d ∧
      d.Event = scanEvent e ∧
      d.AvailableSpots = e.total_spots - (countActive s id : Int) ∧
      d.Bookings = BookingRepository.ListByEvent s id ∧
      d.Bookings = s.bookings.filter (fun b => b.EventID == id && isActive b.Status) ∧
      (d.Bookings.length : Int) = (countActive s id : Int) ∧
      d.AvailableSpots + (d.Bookings.length : Int) = d.Event.TotalSpots := by
  have hid := findEvent_id s id e hE
  refine ⟨{ Event := scanEvent e,
            AvailableSpots := e.total_spots - (countActive s id : Int),
            Bookings := BookingRepository.ListByEvent s id }, ?_, rfl, rfl, rfl, rfl, ?_, ?_⟩
  · simp [storeGetDetails, EventService.GetDetails, EventRepository.GetDetails, hE, hid,
      countActive]
  · simp [BookingRepository.ListByEvent, countActive, List.countP_eq_length_filter]
  · simp [BookingRepository.ListByEvent, countActive, List.countP_eq_length_filter, scanEvent]

/-- Claim C18 on the sample store with a confirmed, a cancelled and a pending
booking on an event of two seats: no seat is available, two bookings are
listed. -/
theorem get_details_available_spots_witness :
    ∃ d, storeGetDetails sampleMixed "e1" = Except.ok d ∧
      d.AvailableSpots = 0 ∧ d.Bookings.length = 2 := by
  obtain ⟨d, hd, _, hA, _, _, hL, _⟩ :=
    get_details_available_spots sampleMixed "e1" sampleEvent (by decide)
  refine ⟨d, hd, ?_, ?_⟩
  · rw [hA]; decide
  · have : (countActive sampleMixed "e1" : Int) = 2 := by decide
    rw [this] at hL
    exact_mod_cast hL

/-! ## Lookups of rows that do not exist -/

/-- Claim C19, evaluated at an identifier that matches no row of the sample
store.  `UserRepository.GetByID` returns `ErrUserNotFound` and
`EventRepository.GetDetails` returns `ErrEventNotFound`, but
`EventRepository.GetByID` returns the `sql.ErrNoRows` of the scan wrapped as
"scan event", an error that is not `ErrEventNotFound`; so `Book` and `Confirm`
on the unknown event fail with an error that is not `ErrEventNotFound`.  The
same holds in every store for every identifier without an event row. -/
theorem event_lookup_missing_row :
    findEvent sampleStore "e9" = none ∧
    EventRepository.GetByID sampleStore "e9"
      = Except.error (Error.wrap "scan event" Error.ErrNoRows) ∧
    Error.Is (Error.wrap "scan event" Error.ErrNoRows) Error.ErrEventNotFound = false ∧
    findUser sampleStore "u9" = none ∧
    UserRepository.GetByID sampleStore "u9" = Except.error Error.ErrUserNotFound ∧
    EventRepository.GetDetails sampleStore "e9" = Except.error Error.ErrEventNotFound ∧
    (BookingService.Book (storePorts 1 1) "e9" "uA" "b9" 1 1 sampleStore).result
      = Except.error (Error.wrap "check event" (Error.wrap "scan event" Error.ErrNoRows)) ∧
    Error.Is (Error.wrap "check event" (Error.wrap "scan event" Error.ErrNoRows))
      Error.ErrEventNotFound = false ∧
    (BookingService.Confirm (storePorts 1 1) "e9" "uA" 1 sampleStore).result
      = Except.error (Error.wrap "get event" (Error.wrap "scan event" Error.ErrNoRows)) ∧
    Error.Is (Error.wrap "get event" (Error.wrap "scan event" Error.ErrNoRows))
      Error.ErrEventNotFound = false ∧
    (∀ (s : Store) (id : String), findEvent s id = none →
      EventRepository.GetByID s id
        = Except.error (Error.wrap "scan event" Error.ErrNoRows)) ∧
    (∀ (s : Store) (id : String), findUser s id = none →
      UserRepository.GetByID s id = Except.error Error.ErrUserNotFound) :=
  ⟨by decide, rfl, by decide, by decide, rfl, rfl, rfl, by decide, rfl, by decide,
    fun s id h => by simp [EventRepository.GetByID, h],
    fun s id h => by simp [UserRepository.GetByID, h]⟩

/-! ## Retries -/

/-- Claim C20, evaluated on a store that is out of reach for one attempt and
answers from the second on.  `CancelExpired`, which goes through
`QueryWithRetry`, reaches the store at its second attempt and returns the
swept bookings; `Create` and `Confirm` make one attempt and return the failure
as "begin tx", though a second attempt would have been answered.  The same
holds for every store and every outage that starts with a failed attempt.  On
a store that answers, one attempt is made and the logical outcome of that
attempt is returned. -/
theorem transactions_not_retried :
    BookingRepository.CancelExpiredOn [true] sampleStore (700 * second)
      = ((Except.ok (BookingRepository.CancelExpired sampleStore (700 * second)).1,
          (BookingRepository.CancelExpired sampleStore (700 * second)).2), 2) ∧
    BookingRepository.CreateOn [true] sampleStore sampleRepeat
      = ((some (Error.wrap "begin tx" Error.ErrBadConn), sampleStore), 1) ∧
    BookingRepository.ConfirmOn [true] sampleStore "e1" "uA" (9 * second) (9 * second)
      = ((some (Error.wrap "begin tx" Error.ErrBadConn), sampleStore), 1) ∧
    BookingRepository.CancelExpiredOn [true, true, true] sampleStore (700 * second)
      = ((Except.error (Error.wrap "cancel expired" Error.ErrBadConn), sampleStore), 3) ∧
    (∀ (rest : List Bool) (s : Store) (b : Booking),
      BookingRepository.CreateOn (true :: rest) s b
        = ((some (Error.wrap "begin tx" Error.ErrBadConn), s), 1)) ∧
    (∀ (rest : List Bool) (s : Store) (eventID userID : String) (now nowApp : Time),
      BookingRepository.ConfirmOn (true :: rest) s eventID userID now nowApp
        = ((some (Error.wrap "begin tx" Error.ErrBadConn), s), 1)) ∧
    (∀ (s : Store) (b : Booking),
      BookingRepository.CreateOn [] s b = (BookingRepository.Create s b, 1)) ∧
    (∀ (s : Store) (eventID userID : String) (now nowApp : Time),
      BookingRepository.ConfirmOn [] s eventID userID now nowApp
        = (BookingRepository.Confirm s eventID userID now nowApp, 1)) :=
  ⟨rfl, rfl, rfl, rfl, fun _ _ _ => rfl, fun _ _ _ _ _ _ => rfl, fun _ _ => rfl,
    fun _ _ _ _ _ => rfl⟩

/-! ## Cancellation notifications -/

theorem notifyCancelled_readonly {σ : Type} (p : Ports σ)
    (hUser : ∀ id s, (p.userGetByID id s).2 = s)
    (hEvent : ∀ id s, (p.eventGetByID id s).2 = s) (l : List Booking) (s : σ) :
    BookingService.notifyCancelled p l s = (l.filterMap (cancelNotice p s), s) := by
  induction l with
  | nil => rfl
  | cons b rest ih =>
    have hu := hUser b.UserID s
    have he := hEvent b.EventID s
    rcases hU : p.userGetByID b.UserID s with ⟨ru, s1⟩
    rw [hU] at hu
    simp only at hu
    subst hu
    cases ru with
    | error err =>
      simp [BookingService.notifyCancelled, hU, ih, cancelNotice, List.filterMap_cons]
    | ok user =>
      rcases hE : p.eventGetByID b.EventID s1 with ⟨re, s2⟩
      rw [hE] at he
      simp only at he
      subst he
      cases re with
      | error err =>
        simp [BookingService.notifyCancelled, hU, hE, ih, cancelNotice, List.filterMap_cons]
      | ok event =>
        simp [BookingService.notifyCancelled, hU, hE, ih, cancelNotice, List.filterMap_cons]

/-- Claim C21.  Cancellation notifications are independent per item.  With
lookups that only read, `notifyCancelled` sends, for a list of swept bookings
and in the order of the list, one `NotifyBookingCancelled(user, event)` for
each booking whose user and event both resolve, and none for the others: a
booking whose lookup fails is skipped and the rest of the list is processed
all the same.  `CancelExpired` returns the full swept list, with no error,
whatever the lookups answer. -/
theorem cancel_notifications_independent {σ : Type} (p : Ports σ)
    (hUser : ∀ id s, (p.userGetByID id s).2 = s)
    (hEvent : ∀ id s, (p.eventGetByID id s).2 = s)
    (l : List Booking) (s : σ) :
    (BookingService.notifyCancelled p l s).1 = l.filterMap (cancelNotice p s) ∧
    (∀ (front back : List Booking) (b : Booking), l = front ++ b :: back →
      (BookingService.notifyCancelled p l s).1
        = front.filterMap (cancelNotice p s) ++ (cancelNotice p s b).toList
            ++ back.filterMap (cancelNotice p s)) ∧
    (∀ (cancelled : List Booking) (s1 : σ),
      p.bookingCancelExpired s = (Except.ok cancelled, s1) →
      (BookingService.CancelExpired p s).result = Except.ok cancelled ∧
      (BookingService.CancelExpired p s).dispatched
        = cancelled.filterMap (cancelNotice p s1)) := by
  have h := notifyCancelled_readonly p hUser hEvent
  refine ⟨by rw [h], ?_, ?_⟩
  · intro front back b hl
    rw [h, hl, List.filterMap_append, List.filterMap_cons]
    cases cancelNotice p s b <;> simp
  · intro cancelled s1 hC
    unfold BookingService.CancelExpired
    rw [hC]
    simp only
    split
    · rw [h]; exact ⟨rfl, rfl⟩
    · rename_i hlen
      have : cancelled = [] := by
        cases cancelled with
        | nil => rfl
        | cons a t => simp at hlen
      subst this
      exact ⟨rfl, rfl⟩

/-- Claim C21 on the sample store and four swept bookings: the first has no
registered user, the third no event; the second and the fourth are notified,
in that order. -/
theorem cancel_notifications_independent_witness :
    (BookingService.notifyCancelled (storePorts 9 9) sampleSwept sampleStore).1
      = [Notification.BookingCancelled
           { ID := "uA", Username := "alice", TelegramChatID := none, CreatedAt := 0 }
           (scanEvent sampleEvent),
         Notification.BookingCancelled
           { ID := "uB", Username := "bob", TelegramChatID := none, CreatedAt := 0 }
           (scanEvent sampleEvent)] :=
  (cancel_notifications_independent (storePorts 9 9) (fun _ _ => rfl) (fun _ _ => rfl)
    sampleSwept sampleStore).1

/-! ## A confirmation whose user cannot be notified -/

/-- Claim C22.  For a payment-required event, when the pre-checks pass and
`Confirm` of the store succeeds, `BookingService.Confirm` returns nil even if
the user lookup that follows fails; nothing is dispatched then, and the state
is the one `Confirm` of the store left, which no later call rewrites.  On the
store, with the pair's one active booking Pending within its TTL, both for
the pre-check on the `time.Duration` of the event and for the update of the
store on the interval it computes, and the user missing from `users`, the
booking is Confirmed afterwards. -/
theorem confirm_survives_lookup_failure {σ : Type} (p : Ports σ)
    (eventID userID : String) (now : Time) (s s1 s2 s3 s4 : σ)
    (event : Event) (booking : Booking) (err : Error)
    (hEv : p.eventGetByID eventID s = (Except.ok event, s1))
    (hPay : event.RequiresPayment = true)
    (hGet : p.bookingGetByEventAndUser eventID userID s1 = (Except.ok booking, s2))
    (hPending : booking.Status = BookingStatus.Pending)
    (hTTL : now - booking.CreatedAt ≤ event.BookingTTL)
    (hConfirm : p.bookingConfirm eventID userID s2 = (none, s3))
    (hUser : p.userGetByID userID s3 = (Except.error err, s4)) :
    (BookingService.Confirm p eventID userID now s).result = Except.ok () ∧
    (BookingService.Confirm p eventID userID now s).dispatched = [] ∧
    (BookingService.Confirm p eventID userID now s).state = s4 ∧
    (BookingService.Confirm (traced p) eventID userID now (s, [])).state.2
      = [Call.EventGetByID eventID, Call.BookingGetByEventAndUser eventID userID,
         Call.BookingConfirm eventID userID, Call.UserGetByID userID] ∧
    (∀ (st : Store) (e : EventRow) (b : Booking) (t : Time),
      findEvent st eventID = some e → e.requires_payment = true →
      activeOfPair st eventID userID = [b] → b.Status = BookingStatus.Pending →
      t ≤ b.CreatedAt + (scanEvent e).BookingTTL →
      t ≤ b.CreatedAt + make_interval (epochSeconds e.booking_ttl) →
      findUser st userID = none →
      (BookingService.Confirm (storePorts t t) eventID userID t st).result = Except.ok () ∧
      (BookingService.Confirm (storePorts t t) eventID userID t st).dispatched = [] ∧
      (BookingService.Confirm (storePorts t t) eventID userID t st).state
        = { st with
            bookings := st.bookings.map (fun x => if x = b then confirmRow t b else x) } ∧
      (confirmRow t b).Status = BookingStatus.Confirmed) := by
  have hT : ¬ now - booking.CreatedAt > event.BookingTTL := not_lt.mpr hTTL
  refine ⟨?_, ?_, ?_, ?_, ?_⟩
  · simp [BookingService.Confirm, hEv, hPay, hGet, hPending, hT, hConfirm, hUser]
  · simp [BookingService.Confirm, hEv, hPay, hGet, hPending, hT, hConfirm, hUser]
  · simp [BookingService.Confirm, hEv, hPay, hGet, hPending, hT, hConfirm, hUser]
  · simp [BookingService.Confirm, traced, hEv, hPay, hGet, hPending, hT, hConfirm, hUser]
  · intro st e b t hE hP hPair hPend hle hleU hNoUser
    have hG : BookingRepository.GetByEventAndUser st eventID userID = Except.ok b := by
      simp [BookingRepository.GetByEventAndUser, hPair, latest]
    have hPay2 : (scanEvent e).RequiresPayment = true := hP
    have hgt : ¬ t - b.CreatedAt > (scanEvent e).BookingTTL := by
      intro h; linarith
    have hR := Confirm_repo_eligible st eventID userID e b t t hE hPair hPend hleU
    have hNU : UserRepository.GetByID
        { st with bookings := st.bookings.map (fun x => if x = b then confirmRow t b else x) }
        userID = Except.error Error.ErrUserNotFound := by
      have : findUser
          { st with
            bookings := st.bookings.map (fun x => if x = b then confirmRow t b else x) }
          userID = none := hNoUser
      simp [UserRepository.GetByID, this]
    refine ⟨?_, ?_, ?_, rfl⟩ <;>
      simp [BookingService.Confirm, storePorts, EventRepository.GetByID, hE, hPay2, hG,
        hPend, hgt, hR, hNU]

/-- Claim C22 on ports that answer as mocks: the store confirms, the user
lookup fails with `ErrUserNotFound`, and `Confirm` returns nil. -/
theorem confirm_survives_lookup_failure_witness :
    (BookingService.Confirm
        (mockPorts (Except.ok testEvent) (Except.error Error.ErrUserNotFound) none
          (Except.ok { ID := "b1", EventID := "e1", UserID := "u1",
                       Status := BookingStatus.Pending, CreatedAt := 0, UpdatedAt := 0 })
          none)
        "e1" "u1" 0 ()).result = Except.ok () ∧
    (BookingService.Confirm
        (mockPorts (Except.ok testEvent) (Except.error Error.ErrUserNotFound) none
          (Except.ok { ID := "b1", EventID := "e1", UserID := "u1",
                       Status := BookingStatus.Pending, CreatedAt := 0, UpdatedAt := 0 })
          none)
        "e1" "u1" 0 ()).dispatched = [] :=
  have h := confirm_survives_lookup_failure
    (mockPorts (Except.ok testEvent) (Except.error Error.ErrUserNotFound) none
      (Except.ok { ID := "b1", EventID := "e1", UserID := "u1",
                   Status := BookingStatus.Pending, CreatedAt := 0, UpdatedAt := 0 })
      none)
    "e1" "u1" 0 () () () () () testEvent
    { ID := "b1", EventID := "e1", UserID := "u1",
      Status := BookingStatus.Pending, CreatedAt := 0, UpdatedAt := 0 }
    Error.ErrUserNotFound rfl rfl rfl rfl (by decide) rfl rfl
  ⟨h.1, h.2.1⟩

/-! ## Errors and HTTP statuses -/

theorem Error_root_plain (err : Error) : Error.plain (Error.root err) = true := by
  induction err with
  | wrap m inner ih => simpa [Error.root] using ih
  | _ => rfl

theorem Error_Is_eq_root (err target : Error) (ht : Error.plain target = true) :
    Error.Is err target = (Error.root err == target) := by
  induction err with
  | wrap m inner ih =>
    have hne : (Error.wrap m inner == target) = false := by
      cases target <;> simp_all [Error.plain]
    simp [Error.Is, Error.root, hne, ih]
  | _ => simp [Error.Is, Error.root]

/-- Claim C23.  `handleError` answers 404 when the error is
`ErrEventNotFound`, `ErrUserNotFound` or `ErrBookingNotFound`; 409 when it is
`ErrNoAvailableSpots`, `ErrAlreadyBooked`, `ErrBookingNotPending` or
`ErrBookingExpired`; 400 when it is `ErrValidation` or `ErrUsernameTaken`; and
500 with the fixed body "internal server error" for every other error.  "Is"
is `errors.Is`, so an error wrapped with `%w` counts as the error it wraps. -/
theorem handle_error_status (err : Error) :
    ((Error.Is err Error.ErrEventNotFound = true ∨ Error.Is err Error.ErrUserNotFound = true
        ∨ Error.Is err Error.ErrBookingNotFound = true) →
      Handler.handleError err = { status := 404, body := Body.ErrorOf err }) ∧
    ((Error.Is err Error.ErrNoAvailableSpots = true ∨ Error.Is err Error.ErrAlreadyBooked = true
        ∨ Error.Is err Error.ErrBookingNotPending = true
        ∨ Error.Is err Error.ErrBookingExpired = true) →
      Handler.handleError err = { status := 409, body := Body.ErrorOf err }) ∧
    ((Error.Is err Error.ErrValidation = true ∨ Error.Is err Error.ErrUsernameTaken = true) →
      Handler.handleError err = { status := 400, body := Body.ErrorOf err }) ∧
    ((Error.Is err Error.ErrEventNotFound = false ∧ Error.Is err Error.ErrUserNotFound = false
        ∧ Error.Is err Error.ErrBookingNotFound = false
        ∧ Error.Is err Error.ErrNoAvailableSpots = false
        ∧ Error.Is err Error.ErrAlreadyBooked = false
        ∧ Error.Is err Error.ErrBookingNotPending = false
        ∧ Error.Is err Error.ErrBookingExpired = false
        ∧ Error.Is err Error.ErrValidation = false
        ∧ Error.Is err Error.ErrUsernameTaken = false) →
      Handler.handleError err
        = { status := 500, body := Body.ErrorText "internal server error" }) ∧
    Handler.handleError (Error.wrap "create booking" Error.ErrNoAvailableSpots)
      = { status := 409,
          body := Body.ErrorOf (Error.wrap "create booking" Error.ErrNoAvailableSpots) } ∧
    Handler.handleError (Error.wrap "cancel expired" Error.ErrBadConn)
      = { status := 500, body := Body.ErrorText "internal server error" } := by
  have hplain := Error_root_plain err
  have h1 := Error_Is_eq_root err Error.ErrEventNotFound rfl
  have h2 := Error_Is_eq_root err Error.ErrUserNotFound rfl
  have h3 := Error_Is_eq_root err Error.ErrBookingNotFound rfl
  have h4 := Error_Is_eq_root err Error.ErrNoAvailableSpots rfl
  have h5 := Error_Is_eq_root err Error.ErrAlreadyBooked rfl
  have h6 := Error_Is_eq_root err Error.ErrBookingNotPending rfl
  have h7 := Error_Is_eq_root err Error.ErrBookingExpired rfl
  have h8 := Error_Is_eq_root err Error.ErrValidation rfl
  have h9 := Error_Is_eq_root err Error.ErrUsernameTaken rfl
  simp only [Handler.handleError, h1, h2, h3, h4, h5, h6, h7, h8, h9,
    StatusNotFound, StatusConflict, StatusBadRequest, StatusInternalServerError]
  clear h1 h2 h3 h4 h5 h6 h7 h8 h9
  refine ⟨?_, ?_, ?_, ?_, by decide, by decide⟩ <;>
    (generalize Error.root err = r at hplain ⊢
     cases r <;> simp_all [Error.plain])

/-! ## Validation and defaults of `CreateEvent` -/

/-- Claim C24.  `CreateEvent` rejects, with an error that is `ErrValidation`
and without calling `Create` of the event store (the state comes back as it
was, and a store that logs its calls logs none), every input whose title is
empty, whose `TotalSpots` is not positive, or whose `EventDate` is before the
current instant.  Hence every event it returns has `TotalSpots > 0`. -/
theorem create_event_validation {σ : Type} (create : Event → σ → Option Error × σ)
    (input : CreateEventInput) (uuid : String) (now : Time) (s : σ) :
    ((input.Title = "" ∨ input.TotalSpots ≤ 0 ∨ input.EventDate < now) →
      (∃ err, (EventService.CreateEvent create input uuid now s).1 = Except.error err ∧
        Error.Is err Error.ErrValidation = true) ∧
      (EventService.CreateEvent create input uuid now s).2 = s ∧
      ∀ answer : Event → Option Error,
        (EventService.CreateEvent (fun e (log : List Event) => (answer e, log ++ [e]))
          input uuid now []).2 = []) ∧
    (∀ event, (EventService.CreateEvent create input uuid now s).1 = Except.ok event →
      event.TotalSpots > 0 ∧ event.Title ≠ "" ∧ now ≤ event.EventDate) := by
  constructor
  · intro h
    by_cases h1 : input.Title = ""
    · exact ⟨⟨Error.wrap "title is required" Error.ErrValidation,
          by simp [EventService.CreateEvent, h1], by decide⟩,
        by simp [EventService.CreateEvent, h1],
        fun _ => by simp [EventService.CreateEvent, h1]⟩
    · by_cases h2 : input.TotalSpots ≤ 0
      · exact ⟨⟨Error.wrap "total_spots must be positive" Error.ErrValidation,
            by simp [EventService.CreateEvent, h1, h2], by decide⟩,
          by simp [EventService.CreateEvent, h1, h2],
          fun _ => by simp [EventService.CreateEvent, h1, h2]⟩
      · have h3 : input.EventDate < now := by
          rcases h with h | h | h
          · exact absurd h h1
          · exact absurd h h2
          · exact h
        exact ⟨⟨Error.wrap "event_date must be in the future" Error.ErrValidation,
            by simp [EventService.CreateEvent, h1, h2, h3], by decide⟩,
          by simp [EventService.CreateEvent, h1, h2, h3],
          fun _ => by simp [EventService.CreateEvent, h1, h2, h3]⟩
  · intro event hres
    by_cases h1 : input.Title = ""
    · simp [EventService.CreateEvent, h1] at hres
    · by_cases h2 : input.TotalSpots ≤ 0
      · simp [EventService.CreateEvent, h1, h2] at hres
      · by_cases h3 : input.EventDate < now
        · simp [EventService.CreateEvent, h1, h2, h3] at hres
        · simp only [EventService.CreateEvent, h1, h2, h3, if_false] at hres
          split at hres
          · cases hres
          · have := Except.ok.inj hres
            subst this
            exact ⟨not_le.mp h2, h1, not_lt.mp h3⟩

/-- Claim C25.  For every input that passes validation and whose insert
succeeds, the event `CreateEvent` returns, the one it handed to `Create`, has
the `BookingTTL` of the input when that is non-zero and the default of twenty
minutes when it is zero; its `RequiresPayment` is the supplied flag when one
is given and true when it is omitted; its `Title`, `Description`, `EventDate`
and `TotalSpots` are those of the input, and its `ID` is the drawn
identifier. -/
theorem create_event_defaults {σ : Type} (create : Event → σ → Option Error × σ)
    (input : CreateEventInput) (uuid : String) (now : Time) (s : σ) (event : Event)
    (hres : (EventService.CreateEvent create input uuid now s).1 = Except.ok event) :
    (input.BookingTTL ≠ 0 → event.BookingTTL = input.BookingTTL) ∧
    (input.BookingTTL = 0 → event.BookingTTL = 20 * minute) ∧
    (∀ flag, input.RequiresPayment = some flag → event.RequiresPayment = flag) ∧
    (input.RequiresPayment = none → event.RequiresPayment = true) ∧
    event.Title = input.Title ∧ event.Description = input.Description ∧
    event.EventDate = input.EventDate ∧ event.TotalSpots = input.TotalSpots ∧
    event.ID = uuid ∧
    (create event s).1 = none := by
  by_cases h1 : input.Title = ""
  · simp [EventService.CreateEvent, h1] at hres
  · by_cases h2 : input.TotalSpots ≤ 0
    · simp [EventService.CreateEvent, h1, h2] at hres
    · by_cases h3 : input.EventDate < now
      · simp [EventService.CreateEvent, h1, h2, h3] at hres
      · simp only [EventService.CreateEvent, h1, h2, h3, if_false] at hres
        split at hres
        · cases hres
        · rename_i s1 hC
          have := Except.ok.inj hres
          subst this
          refine ⟨?_, ?_, ?_, ?_, rfl, rfl, rfl, rfl, rfl, ?_⟩
          · intro h; simp [h]
          · intro h; simp [h, defaultBookingTTL]
          · intro flag h; simp [h]
          · intro h; simp [h]
          · rw [hC]

/-- Claim C25 at the sample input, which leaves the TTL and the flag open:
the event gets the default TTL and requires payment. -/
theorem create_event_defaults_witness :
    (EventService.CreateEvent (fun e (log : List Event) => (none, log ++ [e]))
        sampleInput "e7" (50 * second) []).1 = Except.ok sampleCreated ∧
    sampleCreated.BookingTTL = 20 * minute ∧ sampleCreated.RequiresPayment = true :=
  have h := create_event_defaults (fun e (log : List Event) => (none, log ++ [e]))
    sampleInput "e7" (50 * second) [] sampleCreated (by rfl)
  ⟨by rfl, h.2.1 rfl, h.2.2.2.1 rfl⟩

/-! ## A negative TTL -/

/-- Claim C30, evaluated at a request with `booking_ttl_minutes = -5`.  The
request passes the binding and the validation of `CreateEvent`, which tests
the TTL for zero only: the handler answers 201 and the event has a
`BookingTTL` of minus five minutes, stored as such.  A booking made on that
event is Pending, and a `Confirm` at the very instant of its creation fails
with `ErrBookingExpired`: the confirmation window is empty.  In general every
negative TTL of an input that passes validation is the TTL of the event. -/
theorem negative_ttl_accepted :
    sampleNegativeRequest.bound = true ∧
    (storeCreateEvent "e5" (1 * second) sampleNegativeRequest (some (1000 * second))
        sampleNoEvents).1
      = { status := 201,
          body := Body.EventOf
            { ID := "e5", Title := "Concert", Description := "Live music",
              EventDate := 1000 * second, TotalSpots := 10, RequiresPayment := true,
              BookingTTL := -5 * minute, CreatedAt := 0, UpdatedAt := 0 } } ∧
    (-5 * minute : Int) < 0 ∧
    (sampleNegativeStore.events.map (fun e => e.booking_ttl)) = [-300 * second] ∧
    (BookingService.Book (storePorts (10 * second) (10 * second)) "e5" "uA" "b1"
        (10 * second) (10 * second) sampleNegativeStore).result
      = Except.ok { ID := "b1", EventID := "e5", UserID := "uA",
                    Status := BookingStatus.Pending,
                    CreatedAt := 10 * second, UpdatedAt := 10 * second } ∧
    (BookingService.Confirm (storePorts (10 * second) (10 * second)) "e5" "uA" (10 * second)
        (BookingService.Book (storePorts (10 * second) (10 * second)) "e5" "uA" "b1"
          (10 * second) (10 * second) sampleNegativeStore).state).result
      = Except.error Error.ErrBookingExpired ∧
    (BookingRepository.Confirm
        (BookingService.Book (storePorts (10 * second) (10 * second)) "e5" "uA" "b1"
          (10 * second) (10 * second) sampleNegativeStore).state
        "e5" "uA" (10 * second) (10 * second)).1
      = some Error.ErrBookingExpired ∧
    (∀ (σ : Type) (create : Event → σ → Option Error × σ) (input : CreateEventInput)
        (uuid : String) (now : Time) (s : σ) (event : Event),
      (EventService.CreateEvent create input uuid now s).1 = Except.ok event →
      input.BookingTTL < 0 → event.BookingTTL = input.BookingTTL ∧ event.BookingTTL < 0) := by
  refine ⟨by decide, by rfl, by decide, by decide, by rfl, by rfl, by decide, ?_⟩
  intro σ create input uuid now s event hres hneg
  have hne : input.BookingTTL ≠ 0 := by omega
  by_cases h1 : input.Title = ""
  · simp [EventService.CreateEvent, h1] at hres
  · by_cases h2 : input.TotalSpots ≤ 0
    · simp [EventService.CreateEvent, h1, h2] at hres
    · by_cases h3 : input.EventDate < now
      · simp [EventService.CreateEvent, h1, h2, h3] at hres
      · simp only [EventService.CreateEvent, h1, h2, h3, if_false] at hres
        split at hres
        · cases hres
        · have := Except.ok.inj hres
          subst this
          simp [hne, hneg]

/-! ## Ticks of the sweeper -/

theorem Scheduler_tick_calls {σ : Type}
    (cancelExpired : σ → Except Error (List Booking) × σ) (st : Sched σ) :
    (Scheduler.tick cancelExpired st).calls = st.calls + 1 ∧
    (Scheduler.tick cancelExpired st).returned = st.returned := by
  unfold Scheduler.tick
  split <;> exact ⟨rfl, rfl⟩

theorem Scheduler_foldl {σ : Type}
    (cancelExpired : σ → Except Error (List Booking) × σ) (picks : List Select) :
    ∀ st : Sched σ,
      (picks.foldl (Scheduler.round cancelExpired) st).returned
          = (st.returned || picks.contains Select.Done) ∧
      (picks.foldl (Scheduler.round cancelExpired) st).calls
          = st.calls +
            (if st.returned then 0
             else (picks.takeWhile (fun p => p == Select.Tick)).length) := by
  induction picks with
  | nil => intro st; simp
  | cons p rest ih =>
    intro st
    simp only [List.foldl_cons]
    have h := ih (Scheduler.round cancelExpired st p)
    cases hr : st.returned with
    | true =>
      have hst : Scheduler.round cancelExpired st p = st := by
        simp [Scheduler.round, hr]
      rw [hst] at h ⊢
      rw [h.1, h.2, hr]
      simp
    | false =>
      cases p with
      | Done =>
        have hst : (Scheduler.round cancelExpired st Select.Done).returned = true ∧
            (Scheduler.round cancelExpired st Select.Done).calls = st.calls := by
          simp [Scheduler.round, hr]
        rw [h.1, h.2, hst.1, hst.2]
        simp
      | Tick =>
        have hst : Scheduler.round cancelExpired st Select.Tick
            = Scheduler.tick cancelExpired st := by
          simp [Scheduler.round, hr]
        have ht := Scheduler_tick_calls cancelExpired st
        rw [hst] at h
        rw [hst, h.1, h.2, ht.1, ht.2, hr]
        simp [List.takeWhile_cons]
        omega

/-- Claim C26.  Ticks of the sweeper are independent.  A tick calls
`CancelExpired` exactly once, whether the call succeeds or fails (a failure
is logged, not retried), and leaves the scheduler running; so after a failed
tick the next tick calls `CancelExpired` again.  Along every sequence of
cases its `select` takes, `Start` has returned if and only if `ctx.Done()`
was taken, and the number of calls of `CancelExpired` is the number of ticks
taken before that. -/
theorem scheduler_ticks_independent {σ : Type}
    (cancelExpired : σ → Except Error (List Booking) × σ) :
    (∀ (st : Sched σ) (err : Error) (s1 : σ), st.returned = false →
      cancelExpired st.state = (Except.error err, s1) →
      (Scheduler.round cancelExpired st Select.Tick).calls = st.calls + 1 ∧
      (Scheduler.round cancelExpired st Select.Tick).returned = false ∧
      (Scheduler.round cancelExpired st Select.Tick).logged
        = st.logged ++ [LogLine.Failed err] ∧
      (Scheduler.round cancelExpired
        (Scheduler.round cancelExpired st Select.Tick) Select.Tick).calls = st.calls + 2) ∧
    (∀ (st : Sched σ), st.returned = false →
      (Scheduler.round cancelExpired st Select.Tick).calls = st.calls + 1 ∧
      (Scheduler.round cancelExpired st Select.Tick).returned = false) ∧
    (∀ (s : σ) (picks : List Select),
      ((Scheduler.Start cancelExpired s picks).returned = true ↔ Select.Done ∈ picks) ∧
      (Scheduler.Start cancelExpired s picks).calls
        = (picks.takeWhile (fun p => p == Select.Tick)).length) := by
  have hTick : ∀ (st : Sched σ), st.returned = false →
      Scheduler.round cancelExpired st Select.Tick = Scheduler.tick cancelExpired st := by
    intro st hr; simp [Scheduler.round, hr]
  refine ⟨?_, ?_, ?_⟩
  · intro st err s1 hr hC
    have ht := Scheduler_tick_calls cancelExpired st
    have hr2 : (Scheduler.tick cancelExpired st).returned = false := by rw [ht.2, hr]
    have ht2 := Scheduler_tick_calls cancelExpired (Scheduler.tick cancelExpired st)
    rw [hTick st hr, hTick _ hr2]
    refine ⟨ht.1, hr2, ?_, by rw [ht2.1, ht.1]⟩
    simp [Scheduler.tick, hC]
  · intro st hr
    have ht := Scheduler_tick_calls cancelExpired st
    rw [hTick st hr]
    exact ⟨ht.1, by rw [ht.2, hr]⟩
  · intro s picks
    have h := Scheduler_foldl cancelExpired picks
      { state := s, returned := false, calls := 0, logged := [LogLine.Started] }
    unfold Scheduler.Start
    rw [h.1, h.2]
    simp

/-! ## Confirmable or sweepable -/

theorem epochSeconds_whole (k : Int) : epochSeconds (k * second) = k := by
  unfold epochSeconds second
  split <;> omega

/-- Claim C27, as stated, fails for a TTL that is not a whole number of
seconds: `Confirm` reads the TTL as `EXTRACT(EPOCH FROM booking_ttl)::bigint`,
rounded to whole seconds, the sweep uses the interval as stored.  With a TTL
of 1.4 s, 1.2 s after the creation the pending booking is neither confirmable
(`Confirm` fails with `ErrBookingExpired`) nor sweepable (the sweep returns
nothing); with a TTL of 1.6 s, 1.8 s after the creation it is both. -/
theorem eligibility_partition_counterexample :
    (sampleFractional.bookings.map (fun b => b.Status))
      = [BookingStatus.Pending, BookingStatus.Pending] ∧
    confirmMatches "e4" "uA" (epochSeconds (1400 * millisecond)) (1200 * millisecond)
      { ID := "b1", EventID := "e4", UserID := "uA", Status := BookingStatus.Pending,
        CreatedAt := 0, UpdatedAt := 0 } = false ∧
    sweepMatches sampleFractional (1200 * millisecond)
      { ID := "b1", EventID := "e4", UserID := "uA", Status := BookingStatus.Pending,
        CreatedAt := 0, UpdatedAt := 0 } = false ∧
    BookingRepository.Confirm sampleFractional "e4" "uA" (1200 * millisecond)
        (1200 * millisecond)
      = (some Error.ErrBookingExpired, sampleFractional) ∧
    (BookingRepository.CancelExpired sampleFractional (1200 * millisecond)).1 = [] ∧
    confirmMatches "e6" "uA" (epochSeconds (1600 * millisecond)) (1800 * millisecond)
      { ID := "b2", EventID := "e6", UserID := "uA", Status := BookingStatus.Pending,
        CreatedAt := 0, UpdatedAt := 0 } = true ∧
    sweepMatches sampleFractional (1800 * millisecond)
      { ID := "b2", EventID := "e6", UserID := "uA", Status := BookingStatus.Pending,
        CreatedAt := 0, UpdatedAt := 0 } = true := by
  decide

/-- Claim C27, amended.  For a Pending booking with creation time `c` whose
event, the one row of its id, has a TTL `d` of a whole number of seconds, as
every TTL built by the HTTP handler from whole minutes is, and for every
instant `now`, exactly one of the confirm predicate (`c + d ≥ now`, in the
update of `Confirm`) and the sweep predicate (`c + d < now`, in the update of
`CancelExpired`) holds; at no instant, `now = c + d` included, is the booking
both confirmable and sweepable, or neither. -/
theorem eligibility_partition (s : Store) (e : EventRow) (b : Booking) (now : Time)
    (k : Int)
    (hE : findEvent s b.EventID = some e)
    (hKey : ∀ x ∈ s.events, x.id = b.EventID → x = e)
    (hP : b.Status = BookingStatus.Pending)
    (hWhole : e.booking_ttl = k * second) :
    confirmMatches b.EventID b.UserID (epochSeconds e.booking_ttl) now b
      = !(sweepMatches s now b) ∧
    (confirmMatches b.EventID b.UserID (epochSeconds e.booking_ttl) now b = true
      ↔ b.CreatedAt + e.booking_ttl ≥ now) ∧
    (sweepMatches s now b = true ↔ b.CreatedAt + e.booking_ttl < now) ∧
    (∀ m : Int, ∃ j : Int, m * minute = j * second) := by
  have hk : epochSeconds e.booking_ttl * second = e.booking_ttl := by
    rw [hWhole, epochSeconds_whole]
  have hC : confirmMatches b.EventID b.UserID (epochSeconds e.booking_ttl) now b = true
      ↔ b.CreatedAt + e.booking_ttl ≥ now := by
    rw [confirmMatches_iff, hk]
    constructor
    · intro h; exact h.2.2.2
    · intro h; exact ⟨rfl, rfl, hP, h⟩
  have hS : sweepMatches s now b = true ↔ b.CreatedAt + e.booking_ttl < now := by
    rw [sweepMatches_iff]
    constructor
    · rintro ⟨_, x, hx, hid, hlt⟩
      rw [hKey x hx hid] at hlt
      exact hlt
    · intro h
      exact ⟨hP, e, List.mem_of_find?_eq_some hE, findEvent_id s _ e hE, h⟩
  refine ⟨?_, hC, hS, fun m => ⟨m * 60, by unfold minute; ring⟩⟩
  by_cases hlt : b.CreatedAt + e.booking_ttl < now
  · have h1 := hS.mpr hlt
    have h2 : ¬ confirmMatches b.EventID b.UserID (epochSeconds e.booking_ttl) now b = true :=
      fun h => absurd (hC.mp h) (not_le.mpr hlt)
    rw [h1]
    simpa using h2
  · have h1 : ¬ sweepMatches s now b = true := fun h => hlt (hS.mp h)
    have h2 := hC.mpr (not_lt.mp hlt)
    rw [h2]
    simpa using h1

/-- Claim C27, amended, at the sample store (TTL of ten minutes, booking
created at second 5), at the boundary instant of second 605: the booking is
confirmable and not sweepable. -/
theorem eligibility_partition_witness :
    confirmMatches "e1" "uA" (epochSeconds sampleEvent.booking_ttl) (605 * second)
      sampleBooking = true ∧
    sweepMatches sampleStore (605 * second) sampleBooking = false :=
  have h := eligibility_partition sampleStore sampleEvent sampleBooking (605 * second) 600
    (by decide) (by decide) (by decide) (by decide)
  ⟨h.2.1.mpr (by decide), by
    have h3 := h.2.2.1
    cases hs : sweepMatches sampleStore (605 * second) sampleBooking with
    | false => rfl
    | true => exact absurd (h3.mp hs) (by decide)⟩

/-! ## The pre-checks of the engine and the conditional update -/

theorem uniqueActive_of_rows (s : Store)
    (h : ∀ b ∈ s.bookings, (activeOfPair s b.EventID b.UserID).length ≤ 1) :
    UniqueActive s := by
  intro eventID userID
  cases hl : activeOfPair s eventID userID with
  | nil => simp
  | cons x rest =>
    have hx : x ∈ activeOfPair s eventID userID := by rw [hl]; exact List.mem_cons_self _ _
    rw [mem_activeOfPair] at hx
    have := h x hx.1
    rw [hx.2.1, hx.2.2.1, hl] at this
    exact this

theorem activeOfPair_cases (s : Store) (h : UniqueActive s) (eventID userID : String) :
    activeOfPair s eventID userID = [] ∨ ∃ b, activeOfPair s eventID userID = [b] := by
  have hlen := h eventID userID
  cases hl : activeOfPair s eventID userID with
  | nil => left; rfl
  | cons x rest =>
    right
    cases rest with
    | nil => exact ⟨x, rfl⟩
    | cons y t => rw [hl] at hlen; simp at hlen

theorem Confirm_repo_none (s : Store) (eventID userID : String) (e : EventRow)
    (now nowApp : Time) (hE : findEvent s eventID = some e)
    (hPair : activeOfPair s eventID userID = []) :
    BookingRepository.Confirm s eventID userID now nowApp
      = (some Error.ErrBookingNotFound, s) := by
  have hz := confirm_rows_none_of_not_pending s eventID userID
    (epochSeconds e.booking_ttl) now (by rw [hPair]; intro x hx; cases hx)
  simp [BookingRepository.Confirm, hE, hz, hPair, latest]

theorem Confirm_repo_not_pending (s : Store) (eventID userID : String) (e : EventRow)
    (b : Booking) (now nowApp : Time) (hE : findEvent s eventID = some e)
    (hPair : activeOfPair s eventID userID = [b])
    (hNP : b.Status ≠ BookingStatus.Pending) :
    BookingRepository.Confirm s eventID userID now nowApp
      = (some Error.ErrBookingNotPending, s) := by
  have hz := confirm_rows_none_of_not_pending s eventID userID
    (epochSeconds e.booking_ttl) now (by
      rw [hPair]; intro x hx
      rw [List.mem_singleton.mp hx]; exact hNP)
  simp [BookingRepository.Confirm, hE, hz, hPair, latest, hNP]

/-- Claim C28, as stated, fails where the product
`time.Duration(ttlSeconds) * time.Second` overflows, the pre-check comparing
with that product and the update with the interval the database computes.
With the TTL of a request with `booking_ttl_minutes = -13681335188`, five
seconds after the creation of the pending booking the pre-checks pass (the
booking is read, it is Pending, and the TTL the event carries, some 292 years,
has not elapsed), yet `Confirm` of the store does not succeed.  With the TTL
of `booking_ttl_minutes = 13681335188` the pre-check on the TTL fails with
`ErrBookingExpired` where `Confirm` of the store, on the same store and
instant, succeeds. -/
theorem prechecks_agree_counterexample :
    (storeCreateEvent "e1" (1 * second) sampleWrapRequest (some (1000 * second))
        sampleNoEvents).2.events.map (fun e => (e.id, e.requires_payment, e.booking_ttl))
      = [("e1", true, sampleWrapEvent.booking_ttl)] ∧
    (storeCreateEvent "e1" (1 * second) sampleWrapUpRequest (some (1000 * second))
        sampleNoEvents).2.events.map (fun e => (e.id, e.requires_payment, e.booking_ttl))
      = [("e1", true, sampleWrapUpEvent.booking_ttl)] ∧
    UniqueActive sampleWrap ∧
    BookingRepository.GetByEventAndUser sampleWrap "e1" "uA" = Except.ok sampleBooking ∧
    sampleBooking.Status = BookingStatus.Pending ∧
    ¬ (10 * second - sampleBooking.CreatedAt > (scanEvent sampleWrapEvent).BookingTTL) ∧
    (BookingRepository.Confirm sampleWrap "e1" "uA" (10 * second) (10 * second)).1
      = some Error.ErrBookingNotFound ∧
    UniqueActive sampleWrapUp ∧
    (BookingService.Confirm (storePorts (10 * second) (10 * second)) "e1" "uA"
        (10 * second) sampleWrapUp).result = Except.error Error.ErrBookingExpired ∧
    (BookingRepository.Confirm sampleWrapUp "e1" "uA" (10 * second) (10 * second)).1
      = none :=
  ⟨by decide, by decide,
   uniqueActive_of_rows sampleWrap (by decide), by rfl, by decide, by decide, by decide,
   uniqueActive_of_rows sampleWrapUp (by decide), by rfl, by decide⟩

/-- Claim C28, amended.  On a store with at most one active booking per pair,
for a payment-required event whose TTL in whole seconds lies within
9223372036 either way, so that the product
`time.Duration(ttlSeconds) * time.Second` does not overflow, and one clock,
the pre-checks of `BookingService.Confirm` agree with
`BookingRepository.Confirm` on the same store and instant: either the store
confirms and the service returns nil, or both fail with the same kind of
error, `ErrBookingNotFound`, `ErrBookingNotPending` or `ErrBookingExpired`;
the service leaves the store as `Confirm` of the repository does; and
whenever the pre-checks pass (a Pending booking is read, within the TTL of
the event) the store confirms.  So the pre-checks never change the kind of
outcome. -/
theorem prechecks_agree (s : Store) (eventID userID : String) (e : EventRow) (now : Time)
    (hUA : UniqueActive s) (hE : findEvent s eventID = some e)
    (hPay : e.requires_payment = true)
    (hLo : -9223372036 ≤ epochSeconds e.booking_ttl)
    (hHi : epochSeconds e.booking_ttl ≤ 9223372036) :
    (((BookingRepository.Confirm s eventID userID now now).1 = none ∧
        (BookingService.Confirm (storePorts now now) eventID userID now s).result
          = Except.ok ()) ∨
      ((BookingRepository.Confirm s eventID userID now now).1
          = some Error.ErrBookingNotFound ∧
        ∃ err, (BookingService.Confirm (storePorts now now) eventID userID now s).result
            = Except.error err ∧ Error.Is err Error.ErrBookingNotFound = true) ∨
      ((BookingRepository.Confirm s eventID userID now now).1
          = some Error.ErrBookingNotPending ∧
        ∃ err, (BookingService.Confirm (storePorts now now) eventID userID now s).result
            = Except.error err ∧ Error.Is err Error.ErrBookingNotPending = true) ∨
      ((BookingRepository.Confirm s eventID userID now now).1
          = some Error.ErrBookingExpired ∧
        ∃ err, (BookingService.Confirm (storePorts now now) eventID userID now s).result
            = Except.error err ∧ Error.Is err Error.ErrBookingExpired = true)) ∧
    (BookingService.Confirm (storePorts now now) eventID userID now s).state
      = (BookingRepository.Confirm s eventID userID now now).2 ∧
    (∀ b, BookingRepository.GetByEventAndUser s eventID userID = Except.ok b →
      b.Status = BookingStatus.Pending →
      ¬ (now - b.CreatedAt > (scanEvent e).BookingTTL) →
      (BookingRepository.Confirm s eventID userID now now).1 = none) := by
  have hPay2 : (scanEvent e).RequiresPayment = true := hPay
  have hT := scanEvent_BookingTTL e hLo hHi
  have hPass : ∀ b, BookingRepository.GetByEventAndUser s eventID userID = Except.ok b →
      b.Status = BookingStatus.Pending →
      ¬ (now - b.CreatedAt > (scanEvent e).BookingTTL) →
      (BookingRepository.Confirm s eventID userID now now).1 = none := by
    intro b hG hP hle
    rcases activeOfPair_cases s hUA eventID userID with hPair | ⟨x, hPair⟩
    · simp [BookingRepository.GetByEventAndUser, hPair, latest] at hG
    · have hxb : x = b := by
        simpa [BookingRepository.GetByEventAndUser, hPair, latest] using hG
      subst hxb
      have hR := Confirm_repo_eligible s eventID userID e x now now hE hPair hP
        (by rw [← hT]; linarith)
      rw [hR]
  rw [← and_assoc]
  refine ⟨?_, hPass⟩
  rcases activeOfPair_cases s hUA eventID userID with hPair | ⟨b, hPair⟩
  · have hR := Confirm_repo_none s eventID userID e now now hE hPair
    have hG : BookingRepository.GetByEventAndUser s eventID userID
        = Except.error Error.ErrBookingNotFound := by
      simp [BookingRepository.GetByEventAndUser, hPair, latest]
    have hS : BookingService.Confirm (storePorts now now) eventID userID now s
        = ⟨Except.error (Error.wrap "get booking" Error.ErrBookingNotFound), s, []⟩ := by
      simp [BookingService.Confirm, storePorts, EventRepository.GetByID, hE, hPay2, hG]
    rw [hR, hS]
    exact ⟨Or.inr (Or.inl ⟨rfl, _, rfl, by decide⟩), rfl⟩
  · have hG : BookingRepository.GetByEventAndUser s eventID userID = Except.ok b := by
      simp [BookingRepository.GetByEventAndUser, hPair, latest]
    by_cases hP : b.Status = BookingStatus.Pending
    · have hSvc := Confirm_service_pending s eventID userID e b now now now hE hPay hPair hP
      by_cases hlt : b.CreatedAt + (scanEvent e).BookingTTL < now
      · have hR := Confirm_repo_expired s eventID userID e b now now hE hPair hP
          (by rw [← hT]; exact hlt)
          (by show now - b.CreatedAt > (scanEvent e).BookingTTL; linarith)
        have h1 := hSvc.1 hlt
        rw [hR, h1.1, h1.2.1]
        exact ⟨Or.inr (Or.inr (Or.inr ⟨rfl, _, rfl, by decide⟩)), rfl⟩
      · have hle : now ≤ b.CreatedAt + (scanEvent e).BookingTTL := not_lt.mp hlt
        have hR := Confirm_repo_eligible s eventID userID e b now now hE hPair hP
          (by rw [← hT]; exact hle)
        have h2 := hSvc.2 hle
        rw [hR] at h2 ⊢
        rw [h2.1, h2.2]
        exact ⟨Or.inl ⟨rfl, rfl⟩, rfl⟩
    · have hR := Confirm_repo_not_pending s eventID userID e b now now hE hPair hP
      have hS : BookingService.Confirm (storePorts now now) eventID userID now s
          = ⟨Except.error Error.ErrBookingNotPending, s, []⟩ := by
        simp [BookingService.Confirm, storePorts, EventRepository.GetByID, hE, hPay2, hG, hP]
      rw [hR, hS]
      exact ⟨Or.inr (Or.inr (Or.inl ⟨rfl, _, rfl, by decide⟩)), rfl⟩

/-- Claim C28, amended, at the sample store with a confirmed, a cancelled and a
pending booking, at second 700: for the user of the pending booking both the service
and the repository end in `ErrBookingExpired`. -/
theorem prechecks_agree_witness :
    (BookingService.Confirm (storePorts (700 * second) (700 * second)) "e1" "uC"
        (700 * second) sampleMixed).state
      = (BookingRepository.Confirm sampleMixed "e1" "uC" (700 * second) (700 * second)).2 :=
  (prechecks_agree sampleMixed "e1" "uC" sampleEvent (700 * second)
    (uniqueActive_of_rows sampleMixed (by decide)) (by decide) (by decide) (by decide)
    (by decide)).2.1

/-- For a TTL of at least -9223372036 seconds, so for every TTL that is not
negative: when the conditional update matches no row and the follow-up read
finds a Pending booking, the clock of the follow-up check not behind the
clock of the update, `BookingRepository.Confirm` returns
`ErrBookingExpired`, and it returns `ErrBookingNotFound` only when the pair
has no active booking. -/
theorem Confirm_fallthrough (s : Store) (eventID userID : String)
    (e : EventRow) (now nowApp : Time)
    (hE : findEvent s eventID = some e) (hClock : now ≤ nowApp)
    (hTTL : -9223372036 ≤ epochSeconds e.booking_ttl) :
    (∀ found,
      s.bookings.countP (confirmMatches eventID userID (epochSeconds e.booking_ttl) now) = 0 →
      latest (activeOfPair s eventID userID) = some found →
      found.Status = BookingStatus.Pending →
      nowApp - found.CreatedAt > durationOfSeconds (epochSeconds e.booking_ttl) ∧
      BookingRepository.Confirm s eventID userID now nowApp
        = (some Error.ErrBookingExpired, s)) ∧
    ((BookingRepository.Confirm s eventID userID now nowApp).1
        = some Error.ErrBookingNotFound →
      latest (activeOfPair s eventID userID) = none) := by
  have hkey : ∀ found,
      s.bookings.countP (confirmMatches eventID userID (epochSeconds e.booking_ttl) now) = 0 →
      latest (activeOfPair s eventID userID) = some found →
      found.Status = BookingStatus.Pending →
      nowApp - found.CreatedAt > durationOfSeconds (epochSeconds e.booking_ttl) := by
    intro found hz hl hP
    have hm := latest_mem _ _ hl
    rw [mem_activeOfPair] at hm
    rw [List.countP_eq_zero] at hz
    have hno := hz found hm.1
    rw [confirmMatches_iff] at hno
    have hlt : found.CreatedAt + epochSeconds e.booking_ttl * second < now := by
      by_contra hge
      exact hno ⟨hm.2.1, hm.2.2.1, hP, not_lt.mp hge⟩
    have hd := durationOfSeconds_le _ hTTL
    linarith
  constructor
  · intro found hz hl hP
    have hgt := hkey found hz hl hP
    refine ⟨hgt, ?_⟩
    simp [BookingRepository.Confirm, hE, hz, hl, hP, hgt]
  · intro hres
    by_cases hz : s.bookings.countP
        (confirmMatches eventID userID (epochSeconds e.booking_ttl) now) = 0
    · cases hl : latest (activeOfPair s eventID userID) with
      | none => rfl
      | some found =>
        by_cases hP : found.Status = BookingStatus.Pending
        · have hgt := hkey found hz hl hP
          simp [BookingRepository.Confirm, hE, hz, hl, hP, hgt] at hres
        · simp [BookingRepository.Confirm, hE, hz, hl, hP] at hres
    · simp [BookingRepository.Confirm, hE, hz] at hres

/-- The sample store at second 700, the follow-up clock one second ahead. -/
theorem Confirm_fallthrough_sample :
    BookingRepository.Confirm sampleStore "e1" "uA" (700 * second) (701 * second)
      = (some Error.ErrBookingExpired, sampleStore) :=
  ((Confirm_fallthrough sampleStore "e1" "uA" sampleEvent (700 * second)
      (701 * second) (by decide) (by decide) (by decide)).1 sampleBooking (by decide)
      (by decide) (by decide)).2

/-- Claim C29.  The `ErrBookingNotFound` that ends `BookingRepository.Confirm`
is reached with a Pending booking found.  A request with
`booking_ttl_minutes = -13681335188` is answered 201 and stores an event
whose TTL, the product of the handler wrapped in `int64`, is read back as
-9223372037 seconds; the event of the store has that TTL, and the booking of
the pair, created at second 5, is Pending.  At second 10, on one clock, the conditional update matches no row,
the follow-up read finds that booking, the product
`time.Duration(ttlSeconds) * time.Second` wraps to 9223372036709551616 ns, a
duration the five elapsed seconds do not exceed, and `Confirm` returns
`ErrBookingNotFound`, the store as it was. -/
theorem confirm_fallthrough_reached :
    wrapInt64 (-13681335188 * 60000000000) = -9223372036779728896 ∧
    (storeCreateEvent "e1" (1 * second) sampleWrapRequest (some (1000 * second))
        sampleNoEvents).1.status = 201 ∧
    (storeCreateEvent "e1" (1 * second) sampleWrapRequest (some (1000 * second))
        sampleNoEvents).2.events.map (fun e => (e.id, e.requires_payment, e.booking_ttl))
      = [("e1", true, sampleWrapEvent.booking_ttl)] ∧
    findEvent sampleWrap "e1" = some sampleWrapEvent ∧
    epochSeconds sampleWrapEvent.booking_ttl = -9223372037 ∧
    sampleWrap.bookings.countP (confirmMatches "e1" "uA" (-9223372037) (10 * second)) = 0 ∧
    latest (activeOfPair sampleWrap "e1" "uA") = some sampleBooking ∧
    sampleBooking.Status = BookingStatus.Pending ∧
    wrapInt64 (-9223372037 * 1000000000) = 9223372036709551616 ∧
    ¬ (10 * second - sampleBooking.CreatedAt > durationOfSeconds (-9223372037)) ∧
    BookingRepository.Confirm sampleWrap "e1" "uA" (10 * second) (10 * second)
      = (some Error.ErrBookingNotFound, sampleWrap) := by
  decide

/-! ## The identifier of a booking -/

/-- The string of a `uuid.UUID` has thirty-six characters. -/
theorem UUID_String_length (u : UUID) : (UUID.String u).length = 36 := by
  simp [UUID.String, hexByte, String.length]

/-- The string of a `uuid.UUID` is not empty. -/
theorem UUID_String_ne_empty (u : UUID) : UUID.String u ≠ "" := by
  intro h
  have := UUID_String_length u
  rw [h] at this
  exact absurd this (by decide)

/-- Claim C12.  When the event and the user exist and `Create` of the store
succeeds, `Book` returns the record it handed to `Create` (the log of the
calls ends with that `Create`): its `EventID` and `UserID` are the arguments,
its `ID` is the string of the identifier `u` drawn by `uuid.New()`, thirty-six
characters and so not empty, and its status is Pending if the event requires
payment and Confirmed if it does not. -/
theorem book_returns_created_record {σ : Type} (p : Ports σ)
    (eventID userID : String) (u : UUID) (nowC nowU : Time) (s s1 s2 s3 : σ)
    (event : Event) (user : User) (b : Booking)
    (hEv : p.eventGetByID eventID s = (Except.ok event, s1))
    (hUs : p.userGetByID userID s1 = (Except.ok user, s2))
    (hb : b = { ID := UUID.String u, EventID := eventID, UserID := userID,
                Status := if event.RequiresPayment = true then BookingStatus.Pending
                  else BookingStatus.Confirmed,
                CreatedAt := nowC, UpdatedAt := nowU })
    (hCr : p.bookingCreate b s2 = (none, s3)) :
    (BookingService.Book p eventID userID (UUID.String u) nowC nowU s).result
      = Except.ok b ∧
    (BookingService.Book (traced p) eventID userID (UUID.String u) nowC nowU (s, [])).result
      = Except.ok b ∧
    (BookingService.Book (traced p) eventID userID (UUID.String u) nowC nowU (s, [])).state
      = (s3, [Call.EventGetByID eventID, Call.UserGetByID userID, Call.BookingCreate b]) ∧
    b.EventID = eventID ∧ b.UserID = userID ∧
    b.ID = UUID.String u ∧ b.ID.length = 36 ∧ b.ID ≠ "" ∧
    (event.RequiresPayment = true → b.Status = BookingStatus.Pending) ∧
    (event.RequiresPayment = false → b.Status = BookingStatus.Confirmed) := by
  have hb2 : ({ ID := UUID.String u, EventID := eventID, UserID := userID,
                Status := if (!event.RequiresPayment) = true then BookingStatus.Confirmed
                  else BookingStatus.Pending,
                CreatedAt := nowC, UpdatedAt := nowU } : Booking) = b := by
    rw [hb]; cases event.RequiresPayment <;> rfl
  refine ⟨?_, ?_, ?_, ?_, ?_, ?_, ?_, ?_, ?_, ?_⟩
  · simp only [BookingService.Book, hEv, hUs, hb2, hCr]
    split <;> rfl
  · simp only [BookingService.Book, traced, hEv, hUs, hb2, hCr]
    split <;> rfl
  · simp only [BookingService.Book, traced, hEv, hUs, hb2, hCr]
    split <;> rfl
  · rw [hb]
  · rw [hb]
  · rw [hb]
  · rw [hb]; exact UUID_String_length u
  · rw [hb]; exact UUID_String_ne_empty u
  · intro h; rw [hb]; simp [h]
  · intro h; rw [hb]; simp [h]

/-- Claim C12 on the sample event and the store without bookings, the
identifier drawn being sixteen zero bytes. -/
theorem book_returns_created_record_witness :
    (BookingService.Book (storePorts 1 1) "e1" "uA" (UUID.String sampleUUID) 1 1
        sampleEmpty).result
      = Except.ok { ID := "00000000-0000-0000-0000-000000000000", EventID := "e1",
                    UserID := "uA", Status := BookingStatus.Pending,
                    CreatedAt := 1, UpdatedAt := 1 } :=
  (book_returns_created_record (storePorts 1 1) "e1" "uA" sampleUUID 1 1
    sampleEmpty sampleEmpty sampleEmpty
    { sampleEmpty with
      bookings := [{ ID := "00000000-0000-0000-0000-000000000000", EventID := "e1",
                     UserID := "uA", Status := BookingStatus.Pending,
                     CreatedAt := 1, UpdatedAt := 1 }] }
    (scanEvent sampleEvent)
    { ID := "uA", Username := "alice", TelegramChatID := none, CreatedAt := 0 }
    { ID := "00000000-0000-0000-0000-000000000000", EventID := "e1", UserID := "uA",
      Status := BookingStatus.Pending, CreatedAt := 1, UpdatedAt := 1 }
    rfl rfl rfl rfl).1

end EventBooker
